import Mathlib

/-! # Seat rules of the booking service

A shallow embedding of `business/service/seat_rules.go`, and of the function
`seatToUpdateParams` of `business/storage/seat.go`.

Conventions of the embedding:

* Go slices are lists. A Go map is the list of its entries in the order the `range`
  statement visits them; theorems about maps quantify over every such list, that is over
  every iteration order.
* A Go function returning `(T, error)` or `error` returns an `Outcome`: a value, an error
  value, or a run-time panic (index out of range, negative `make` length, nil dereference).
* `Seat.Num` is an `int32` in the source: a seat number is an `Int` that satisfies `IsInt32`.
  `mapAllRowSeatsForAvailabilityInt32` computes the three expressions of the mapper on seat
  numbers (`last - first + 1`, `first + int32(i)`, `num - first`) as the source does, with
  wrap-around into the `int32` range (`wrapInt32`). `mapAllRowSeatsForAvailability` computes
  them over `Int` without wrap-around; the two mappers agree on every non-empty row sorted
  ascending whose `int32` numbers satisfy `last - first + 1 < 2^31`
  (`mapAllRowSeatsForAvailabilityInt32_eq`), in particular on every row of contiguous seat
  numbers shorter than `2^31` seats.
* The counts of the skip heuristic are `int64` in the source and are computed over `Int`;
  `v.Count - 1` agrees with the `int64` result unless `v.Count` is the least `int64`.
* The `float32` comparison of the skip heuristic, `float32(count) < float32(total)/float32(10)`,
  is the argument `belowTenth count total` of the functions that perform it: what is proved
  for every `belowTenth` holds for the `float32` comparison, and a statement that needs the
  comparison to be exact says so at the counts it compares. `exactBelowTenth` is the exact
  comparison `10 * count < total`.
* The two methods of `storage.Storage` the seat rules call are the fields of `Storage`: their
  results are the state of the database.
* A map the code builds and then ranges over is visited in an order drawn anew at every
  `range`. `ValidateSeatRulesRun` is the validator in a run: its argument `visitOrder` maps the
  three maps the function builds to the iterations of the row loop in the order drawn, each
  iteration with the orders that its call of `skipFragmentationCheck` and the calls of
  `getCountOfAllSplPriceCategorySeats` inside it draw for the two aggregate maps; its mapper
  is `mapAllRowSeatsForAvailabilityInt32`. `ValidateSeatRules` is the validator in the runs
  that visit the aggregate maps in the order of their lists, on rows where the two mappers
  agree (`validateRun_in_list_order`): its argument `rangeOrder` maps the built row map to
  its entries in visiting order.
* The constants `domain.SeatStatusAvailable` and `domain.SeatStatusLocked` are declared
  outside the embedded files: they are arguments of `seatToUpdateParams`, and what is proved
  holds for every value of them. The `int32` fields of the update parameters are `Int`, a
  `time.Time` is an `Int`.
-/

namespace SeatRules

/-! ## Data model -/

/-- The fields of `domain.Seat` read by the seat rules. -/
structure Seat where
  ID : String
  Num : Int
  PriceCategoryID : Option String
  deriving DecidableEq, Repr

/-- One position of the dense row built by the mapper (`domain.MappedRowSeat`); `Seat` is a
pointer in the source, `none` is the nil pointer. -/
structure MappedRowSeat where
  AvailabilityIndicator : Int
  RequestedForNow : Bool
  Seat : Option Seat
  deriving DecidableEq, Repr

/-- One aggregate of `domain.SeatsPerPriceCategories`: the number of seats of a price category
(`none`: seats without a category). -/
structure SeatsPerPriceCategories where
  Count : Int
  PriceCategoryID : Option String
  deriving DecidableEq, Repr

/-- The error values the seat rules build. `fragmentation` is
`domain.SeatRuleFragmentationError`; its `ConflictingSeatID` is the empty string when
`fragmentationError` receives nil. `querySeats` and `querySeatsPriceCategories` wrap the
error `cause` of a storage call. -/
inductive SeatRuleError where
  | overRequest
  | fullGroupRestriction (eventTitle : String)
  | requestedSeatUnavailable (num : Int)
  | fragmentation (ConflictingSeatID : String)
  | querySeats (cause : String)
  | querySeatsPriceCategories (cause : String)
  deriving DecidableEq, Repr

/-- The text of an error: the `errors.New` and `fmt.Errorf` strings of the source. -/
def SeatRuleError.message : SeatRuleError → String
  | .overRequest => "requested amount of tickets exceed available seats"
  | .fullGroupRestriction eventTitle =>
    "violate event restriction for event " ++ eventTitle ++ ", only full group seats ordering allowed"
  | .requestedSeatUnavailable num =>
    "something went wrong. requested seat num " ++ toString num ++ " is unavailable"
  | .fragmentation _ => "seating plan fragmentation detected"
  | .querySeats cause => "error while querying seats " ++ cause
  | .querySeatsPriceCategories cause => "error while querying seats price categories " ++ cause

/-- What a call produces: a value, a returned error, or a run-time panic. -/
inductive Outcome (α : Type) where
  | ok (value : α)
  | error (err : SeatRuleError)
  | panic
  deriving DecidableEq, Repr

/-- Slice indexing `xs[i]` with a Go `int` index; `none` stands for the index-out-of-range
panic. -/
def getAt {α : Type} (xs : List α) (i : Int) : Option α :=
  if i < 0 then none else xs[i.toNat]?

/-! ## The group-ordering restriction checker -/

/-- The index expression `requestedSeatsGroupedByRowsGroupedBySpl[splID]`: the rows the
request lists under a plan, none for a plan the request does not name. -/
def rowsOfPlan (requestedSeatsGroupedByRowsGroupedBySpl : List (String × List (String × List Seat)))
    (splID : String) : List (String × List Seat) :=
  (requestedSeatsGroupedByRowsGroupedBySpl.lookup splID).getD []

/-- The inner loop `for checkableRow := range ...[splID]` of
`checkEventFullGroupOrderingRestriction`; `some e` is the error returned from inside it. -/
def checkRowsOfPlan (rowID : String) (availableSeatsByRowID requestedRowSeats : List Seat)
    (eventTitle : String) : List (String × List Seat) → Option SeatRuleError
  | [] => none
  | (checkableRow, _) :: rest =>
    if rowID = checkableRow then
      if availableSeatsByRowID.length ≠ requestedRowSeats.length then
        some (.fullGroupRestriction eventTitle)
      else checkRowsOfPlan rowID availableSeatsByRowID requestedRowSeats eventTitle rest
    else checkRowsOfPlan rowID availableSeatsByRowID requestedRowSeats eventTitle rest

/-- The outer loop `for splID, eventTitle := range splIDBookAllSeatsInGroup`. -/
def checkRestrictedPlans (rowID : String) (availableSeatsByRowID requestedRowSeats : List Seat)
    (requestedSeatsGroupedByRowsGroupedBySpl : List (String × List (String × List Seat))) :
    List (String × String) → Outcome Unit
  | [] => .ok ()
  | (splID, eventTitle) :: rest =>
    match checkRowsOfPlan rowID availableSeatsByRowID requestedRowSeats eventTitle
        (rowsOfPlan requestedSeatsGroupedByRowsGroupedBySpl splID) with
    | some e => .error e
    | none =>
      checkRestrictedPlans rowID availableSeatsByRowID requestedRowSeats
        requestedSeatsGroupedByRowsGroupedBySpl rest

/-- Source `checkEventFullGroupOrderingRestriction`. -/
def checkEventFullGroupOrderingRestriction (rowID : String)
    (availableSeatsByRowID requestedRowSeats : List Seat)
    (splIDBookAllSeatsInGroup : List (String × String))
    (requestedSeatsGroupedByRowsGroupedBySpl : List (String × List (String × List Seat))) :
    Outcome Unit :=
  if requestedRowSeats.length > availableSeatsByRowID.length then .error .overRequest
  else
    checkRestrictedPlans rowID availableSeatsByRowID requestedRowSeats
      requestedSeatsGroupedByRowsGroupedBySpl splIDBookAllSeatsInGroup

/-! ## The row availability mapper -/

/-- The loop of `indexOfRowSeat`, started at index `i`. -/
def indexOfRowSeatFrom (i : Int) : List Seat → Int → Int
  | [], _ => -1
  | x :: rest, num => if num = x.Num then i else indexOfRowSeatFrom (i + 1) rest num

/-- Source `indexOfRowSeat`: index of the first seat with number `num`, or `-1`. -/
def indexOfRowSeat (rowSeats : List Seat) (num : Int) : Int :=
  indexOfRowSeatFrom 0 rowSeats num

/-- Body of the first loop of `mapAllRowSeatsForAvailability`: the entry written at index `i`. -/
def mapSeatAt (availableRowSeats : List Seat) (firstSeatNumInRow : Int) (i : Nat) :
    MappedRowSeat :=
  let curSeatNum := firstSeatNumInRow + (i : Int)
  let index := indexOfRowSeat availableRowSeats curSeatNum
  if index ≠ -1 then
    { AvailabilityIndicator := 1, RequestedForNow := false, Seat := getAt availableRowSeats index }
  else
    { AvailabilityIndicator := 0, RequestedForNow := false, Seat := none }

/-- The second loop of `mapAllRowSeatsForAvailability`: marks the requested seats one after
the other in `allRowSeats`. -/
def markRequested (availableRowSeats : List Seat) (firstSeatNumInRow : Int) :
    List Seat → List MappedRowSeat → Outcome (List MappedRowSeat)
  | [], allRowSeats => .ok allRowSeats
  | requestedSeat :: rest, allRowSeats =>
    if indexOfRowSeat availableRowSeats requestedSeat.Num = -1 then
      .error (.requestedSeatUnavailable requestedSeat.Num)
    else
      match getAt allRowSeats (requestedSeat.Num - firstSeatNumInRow) with
      | none => .panic
      | some entry =>
        markRequested availableRowSeats firstSeatNumInRow rest
          (allRowSeats.set (requestedSeat.Num - firstSeatNumInRow).toNat
            { entry with AvailabilityIndicator := 0, RequestedForNow := true })

/-- Source `mapAllRowSeatsForAvailability` with the seat numbers computed over `Int`, without
the wrap-around of `int32` (for that see `mapAllRowSeatsForAvailabilityInt32`). Reading the
first and last available seat of an empty slice panics, and so does `make` with a negative
length. -/
def mapAllRowSeatsForAvailability (availableRowSeats requestedRowSeats : List Seat) :
    Outcome (List MappedRowSeat) :=
  match availableRowSeats.getLast?, availableRowSeats.head? with
  | some lastSeat, some firstSeat =>
    let size := lastSeat.Num - firstSeat.Num + 1
    if size < 0 then .panic
    else
      markRequested availableRowSeats firstSeat.Num requestedRowSeats
        ((List.range size.toNat).map (mapSeatAt availableRowSeats firstSeat.Num))
  | _, _ => .panic

/-! ## The fragmentation detector -/

/-- The left scan of `fragmentationCheck`: the loop `for j := 1; j < len(rowSeats); j++`, with
`remaining` the number of iterations the loop condition still allows. Returns
`(startCountingFreeSpace, leftSpaces)`. -/
def leftLoop (i : Int) (rowSeats : List MappedRowSeat) :
    Nat → Int → Int → Bool → Int → Outcome (Bool × Int)
  | 0, _, _, start, leftSpaces => .ok (start, leftSpaces)
  | remaining + 1, j, movesCount, start, leftSpaces =>
    if i - j < 0 ∨ movesCount = 0 then .ok (start, leftSpaces)
    else
      match getAt rowSeats (i - j) with
      | none => .panic
      | some seat =>
        if seat.AvailabilityIndicator ≠ 0 then
          leftLoop i rowSeats remaining (j + 1) (movesCount - 1) true (leftSpaces + 1)
        else if start then
          leftLoop i rowSeats remaining (j + 1) (movesCount - 1) start leftSpaces
        else
          leftLoop i rowSeats remaining (j + 1) movesCount start leftSpaces

/-- The right scan of `fragmentationCheck`, the mirror image of `leftLoop`. -/
def rightLoop (i : Int) (rowSeats : List MappedRowSeat) :
    Nat → Int → Int → Bool → Int → Outcome (Bool × Int)
  | 0, _, _, start, rightSpaces => .ok (start, rightSpaces)
  | remaining + 1, j, movesCount, start, rightSpaces =>
    if i + j > (rowSeats.length : Int) - 1 ∨ movesCount = 0 then .ok (start, rightSpaces)
    else
      match getAt rowSeats (i + j) with
      | none => .panic
      | some seat =>
        if seat.AvailabilityIndicator ≠ 0 then
          rightLoop i rowSeats remaining (j + 1) (movesCount - 1) true (rightSpaces + 1)
        else if start then
          rightLoop i rowSeats remaining (j + 1) (movesCount - 1) start rightSpaces
        else
          rightLoop i rowSeats remaining (j + 1) movesCount start rightSpaces

/-- Reading `&rowSeats[k].Seat.ID` and handing it to `fragmentationError`: a nil `Seat`
panics. -/
def conflictAt (seat : MappedRowSeat) : Outcome Unit :=
  match seat.Seat with
  | none => .panic
  | some s => .error (.fragmentation s.ID)

/-- The loop `for k := i; k > 0; k--` run after a violation on the left side, followed by
`fragmentationError(nil)`. The argument is `k`. -/
def leftConflict (rowSeats : List MappedRowSeat) : Nat → Outcome Unit
  | 0 => .error (.fragmentation "")
  | k + 1 =>
    match rowSeats[k + 1]? with
    | none => .panic
    | some cur =>
      if cur.RequestedForNow then
        match rowSeats[k]? with
        | none => .panic
        | some prev =>
          if prev.RequestedForNow then conflictAt cur else leftConflict rowSeats k
      else leftConflict rowSeats k

/-- The loop `for k := i; k < len(rowSeats)-1; k++` run after a violation on the right side,
followed by `fragmentationError(nil)`; `remaining` is the number of iterations left. -/
def rightConflict (rowSeats : List MappedRowSeat) : Nat → Int → Outcome Unit
  | 0, _ => .error (.fragmentation "")
  | remaining + 1, k =>
    match getAt rowSeats k with
    | none => .panic
    | some cur =>
      if cur.RequestedForNow then
        match getAt rowSeats (k + 1) with
        | none => .panic
        | some next =>
          if !next.RequestedForNow then conflictAt cur
          else rightConflict rowSeats remaining (k + 1)
      else rightConflict rowSeats remaining (k + 1)

/-- Source `fragmentationCheck`: the scan to the left, then the scan to the right. -/
def fragmentationCheck (i : Int) (rowSeats : List MappedRowSeat) : Outcome Unit :=
  match leftLoop i rowSeats (rowSeats.length - 1) 1 2 false 0 with
  | .panic => .panic
  | .error e => .error e
  | .ok (startLeft, leftSpaces) =>
    if startLeft = true ∧ leftSpaces ≠ 2 then leftConflict rowSeats i.toNat
    else
      match rightLoop i rowSeats (rowSeats.length - 1) 1 2 false 0 with
      | .panic => .panic
      | .error e => .error e
      | .ok (startRight, rightSpaces) =>
        if startRight = true ∧ rightSpaces ≠ 2 then
          rightConflict rowSeats ((rowSeats.length : Int) - 1 - i).toNat i
        else .ok ()

/-- The `range` loop of `checkMappedRowForFragmentation`, at index `i` with the entries from
`i` on still to visit. -/
def checkMappedRowFrom (mappedRowSeats : List MappedRowSeat) :
    Nat → List MappedRowSeat → Outcome Unit
  | _, [] => .ok ()
  | i, mappedSeat :: rest =>
    if mappedSeat.AvailabilityIndicator = 0 then
      match fragmentationCheck (i : Int) mappedRowSeats with
      | .ok _ => checkMappedRowFrom mappedRowSeats (i + 1) rest
      | .error e => .error e
      | .panic => .panic
    else checkMappedRowFrom mappedRowSeats (i + 1) rest

/-- Source `checkMappedRowForFragmentation`. -/
def checkMappedRowForFragmentation (mappedRowSeats : List MappedRowSeat) : Outcome Unit :=
  checkMappedRowFrom mappedRowSeats 0 mappedRowSeats

/-! ## The fragmentation skip heuristic -/

/-- The comparison `float32(count) < float32(total)/float32(10)` computed exactly. -/
def exactBelowTenth (count total : Int) : Bool := decide (10 * count < total)

/-- The statement `m[key]++` on a `map[string]int64`. -/
def incrementCount : List (String × Int) → String → List (String × Int)
  | [], key => [(key, 1)]
  | (k, n) :: rest, key =>
    if k = key then (k, n + 1) :: rest else (k, n) :: incrementCount rest key

/-- The first loop of `skipFragmentationCheck`: counts the requested seats of the row per
price category, starting from the map `counts`. -/
def countPriceCategories : List Seat → List (String × Int) → List (String × Int)
  | [], counts => counts
  | v :: rest, counts =>
    match v.PriceCategoryID with
    | some pc => countPriceCategories rest (incrementCount counts pc)
    | none => countPriceCategories rest counts

/-- The inner loop of `getCountOfAllSplPriceCategorySeats` over the aggregates of one plan;
`some count` is the value returned from inside the loop. -/
def findCountInPlan (pcID : String) : List SeatsPerPriceCategories → Option Int
  | [] => none
  | v :: rest =>
    if v.PriceCategoryID = some pcID then some v.Count else findCountInPlan pcID rest

/-- Source `getCountOfAllSplPriceCategorySeats`. -/
def getCountOfAllSplPriceCategorySeats :
    List (String × List SeatsPerPriceCategories) → String → Int
  | [], _ => 0
  | (_, pcIDsArr) :: rest, pcID =>
    match findCountInPlan pcID pcIDsArr with
    | some count => count
    | none => getCountOfAllSplPriceCategorySeats rest pcID

/-- The inner loop `for _, v := range pcIDsArr` of `skipFragmentationCheck`; `true` when the
function returns true from inside it. -/
def skipInPlan (belowTenth : Int → Int → Bool)
    (currentRowPriceCategoriesSeatsCount : List (String × Int))
    (allSeatsByPriceCategoriesPerSpl : List (String × List SeatsPerPriceCategories)) :
    List SeatsPerPriceCategories → Bool
  | [] => false
  | v :: rest =>
    match v.PriceCategoryID with
    | none =>
      skipInPlan belowTenth currentRowPriceCategoriesSeatsCount allSeatsByPriceCategoriesPerSpl rest
    | some pc =>
      match currentRowPriceCategoriesSeatsCount.lookup pc with
      | none =>
        skipInPlan belowTenth currentRowPriceCategoriesSeatsCount allSeatsByPriceCategoriesPerSpl
          rest
      | some count =>
        if belowTenth v.Count
            (getCountOfAllSplPriceCategorySeats allSeatsByPriceCategoriesPerSpl pc) = true then
          true
        else if count = v.Count - 1 then true
        else if count = v.Count then true
        else
          skipInPlan belowTenth currentRowPriceCategoriesSeatsCount
            allSeatsByPriceCategoriesPerSpl rest

/-- The outer loop `for _, pcIDsArr := range availableSeatsByPriceCategoriesPerSpl`. -/
def skipInPlans (belowTenth : Int → Int → Bool)
    (currentRowPriceCategoriesSeatsCount : List (String × Int))
    (allSeatsByPriceCategoriesPerSpl : List (String × List SeatsPerPriceCategories)) :
    List (String × List SeatsPerPriceCategories) → Bool
  | [] => false
  | (_, pcIDsArr) :: rest =>
    if skipInPlan belowTenth currentRowPriceCategoriesSeatsCount
        allSeatsByPriceCategoriesPerSpl pcIDsArr = true then true
    else
      skipInPlans belowTenth currentRowPriceCategoriesSeatsCount
        allSeatsByPriceCategoriesPerSpl rest

/-- Source `skipFragmentationCheck`. -/
def skipFragmentationCheck (belowTenth : Int → Int → Bool) (requestedRowSeats : List Seat)
    (availableSeatsByPriceCategoriesPerSpl allSeatsByPriceCategoriesPerSpl :
      List (String × List SeatsPerPriceCategories)) : Bool :=
  skipInPlans belowTenth (countPriceCategories requestedRowSeats [])
    allSeatsByPriceCategoriesPerSpl availableSeatsByPriceCategoriesPerSpl

/-! ## The validator -/

/-- The two methods of `storage.Storage` called by the seat rules; the error of a failed call
is its text. -/
structure Storage where
  GetRowSeatsBySeatingPlanID : (splID orgID rowID : String) → Except String (List Seat)
  GetSeatsCountGroupedByPriceCategories :
    (splID orgID : String) → (onlyAvailableSeats : Bool) →
      Except String (List SeatsPerPriceCategories)

/-- The assignment `m[key] = value` on a map. -/
def mapSet {ν : Type} : List (String × ν) → String → ν → List (String × ν)
  | [], key, value => [(key, value)]
  | (k, v) :: rest, key, value =>
    if k = key then (k, value) :: rest else (k, v) :: mapSet rest key value

/-- The index expression `m[key]` on a map of slices: the nil slice for an absent key. -/
def sliceAt {ν : Type} (m : List (String × List ν)) (key : String) : List ν :=
  (m.lookup key).getD []

/-- The inner loop `for rowID := range rows` of `getRowSeatsForSeatingPlanAndRequestedSeats`,
on the pair of maps built so far. -/
def loadRowsOfPlan (s : Storage) (orgID : String)
    (requestedSeatsGroupedByRowsGroupedBySpl : List (String × List (String × List Seat)))
    (splID : String) :
    List (String × List Seat) →
      List (String × List Seat) × List (String × List Seat) →
      Outcome (List (String × List Seat) × List (String × List Seat))
  | [], maps => .ok maps
  | (rowID, _) :: rest, (availableRowSeats, requestedRowSeats) =>
    match s.GetRowSeatsBySeatingPlanID splID orgID rowID with
    | .error err => .error (.querySeats err)
    | .ok seatsForRow =>
      loadRowsOfPlan s orgID requestedSeatsGroupedByRowsGroupedBySpl splID rest
        (mapSet availableRowSeats rowID seatsForRow,
         mapSet requestedRowSeats rowID
          (sliceAt (rowsOfPlan requestedSeatsGroupedByRowsGroupedBySpl splID) rowID))

/-- The outer loop `for splID, rows := range requestedSeatsGroupedByRowsGroupedBySpl`. -/
def loadPlans (s : Storage) (orgID : String)
    (requestedSeatsGroupedByRowsGroupedBySpl : List (String × List (String × List Seat))) :
    List (String × List (String × List Seat)) →
      List (String × List Seat) × List (String × List Seat) →
      Outcome (List (String × List Seat) × List (String × List Seat))
  | [], maps => .ok maps
  | (splID, rows) :: rest, maps =>
    match loadRowsOfPlan s orgID requestedSeatsGroupedByRowsGroupedBySpl splID rows maps with
    | .ok maps2 => loadPlans s orgID requestedSeatsGroupedByRowsGroupedBySpl rest maps2
    | .error e => .error e
    | .panic => .panic

/-- Source `getRowSeatsForSeatingPlanAndRequestedSeats`: the pair
`(availableRowSeats, requestedRowSeats)` of maps keyed by row id. -/
def getRowSeatsForSeatingPlanAndRequestedSeats (s : Storage) (orgID : String)
    (requestedSeatsGroupedByRowsGroupedBySpl : List (String × List (String × List Seat))) :
    Outcome (List (String × List Seat) × List (String × List Seat)) :=
  loadPlans s orgID requestedSeatsGroupedByRowsGroupedBySpl
    requestedSeatsGroupedByRowsGroupedBySpl ([], [])

/-- The loop of `getSeatsWithPriceCategoriesForSpl` on the map built so far. -/
def loadPriceCategories (s : Storage) (orgID : String) (onlyAvailable : Bool) :
    List (String × List (String × List Seat)) →
      List (String × List SeatsPerPriceCategories) →
      Outcome (List (String × List SeatsPerPriceCategories))
  | [], seatsByPriceCategoriesPerSpl => .ok seatsByPriceCategoriesPerSpl
  | (splID, _) :: rest, seatsByPriceCategoriesPerSpl =>
    match s.GetSeatsCountGroupedByPriceCategories splID orgID onlyAvailable with
    | .error err => .error (.querySeatsPriceCategories err)
    | .ok res =>
      loadPriceCategories s orgID onlyAvailable rest (mapSet seatsByPriceCategoriesPerSpl splID res)

/-- Source `getSeatsWithPriceCategoriesForSpl`. -/
def getSeatsWithPriceCategoriesForSpl (s : Storage) (orgID : String)
    (requestedSeatsGroupedByRowsGroupedBySpl : List (String × List (String × List Seat)))
    (onlyAvailable : Bool) : Outcome (List (String × List SeatsPerPriceCategories)) :=
  loadPriceCategories s orgID onlyAvailable requestedSeatsGroupedByRowsGroupedBySpl []

/-- The loop `for rowID, requestedRowSeats := range requestedRowsSeats` of
`ValidateSeatRules`, over the entries of the map in visiting order. -/
def validateRows (belowTenth : Int → Int → Bool)
    (availableRowSeats : List (String × List Seat))
    (splIDBookAllSeatsInGroup : List (String × String))
    (requestedSeatsGroupedByRowsGroupedBySpl : List (String × List (String × List Seat)))
    (availableSeatsByPriceCategoriesPerSpl allSeatsByPriceCategoriesPerSpl :
      List (String × List SeatsPerPriceCategories)) :
    List (String × List Seat) → Outcome Unit
  | [] => .ok ()
  | (rowID, requestedRowSeats) :: rest =>
    match checkEventFullGroupOrderingRestriction rowID (sliceAt availableRowSeats rowID)
        requestedRowSeats splIDBookAllSeatsInGroup requestedSeatsGroupedByRowsGroupedBySpl with
    | .error e => .error e
    | .panic => .panic
    | .ok _ =>
      if skipFragmentationCheck belowTenth requestedRowSeats
          availableSeatsByPriceCategoriesPerSpl allSeatsByPriceCategoriesPerSpl = true then
        validateRows belowTenth availableRowSeats splIDBookAllSeatsInGroup
          requestedSeatsGroupedByRowsGroupedBySpl availableSeatsByPriceCategoriesPerSpl
          allSeatsByPriceCategoriesPerSpl rest
      else
        match mapAllRowSeatsForAvailability (sliceAt availableRowSeats rowID)
            requestedRowSeats with
        | .error e => .error e
        | .panic => .panic
        | .ok mappedRowSeats =>
          match checkMappedRowForFragmentation mappedRowSeats with
          | .error e => .error e
          | .panic => .panic
          | .ok _ =>
            validateRows belowTenth availableRowSeats splIDBookAllSeatsInGroup
              requestedSeatsGroupedByRowsGroupedBySpl availableSeatsByPriceCategoriesPerSpl
              allSeatsByPriceCategoriesPerSpl rest

/-- Source `ValidateSeatRules`. -/
def ValidateSeatRules (belowTenth : Int → Int → Bool) (s : Storage)
    (rangeOrder : List (String × List Seat) → List (String × List Seat))
    (orgID : String) (splIDBookAllSeatsInGroup : List (String × String))
    (requestedSeatsGroupedByRowsGroupedBySpl : List (String × List (String × List Seat))) :
    Outcome Unit :=
  match getRowSeatsForSeatingPlanAndRequestedSeats s orgID
      requestedSeatsGroupedByRowsGroupedBySpl with
  | .error e => .error e
  | .panic => .panic
  | .ok (availableRowSeats, requestedRowsSeats) =>
    match getSeatsWithPriceCategoriesForSpl s orgID
        requestedSeatsGroupedByRowsGroupedBySpl true with
    | .error e => .error e
    | .panic => .panic
    | .ok availableSeatsByPriceCategoriesPerSpl =>
      match getSeatsWithPriceCategoriesForSpl s orgID
          requestedSeatsGroupedByRowsGroupedBySpl false with
      | .error e => .error e
      | .panic => .panic
      | .ok allSeatsByPriceCategoriesPerSpl =>
        validateRows belowTenth availableRowSeats splIDBookAllSeatsInGroup
          requestedSeatsGroupedByRowsGroupedBySpl availableSeatsByPriceCategoriesPerSpl
          allSeatsByPriceCategoriesPerSpl (rangeOrder requestedRowsSeats)

/-! ## Specification-level notions used by the proofs -/

/-- Availability of an entry as the scans test it: indicator different from 0. -/
def isAvailable (s : MappedRowSeat) : Bool := decide (s.AvailabilityIndicator ≠ 0)

/-- The scan of `fragmentationCheck` run over the entries it meets, nearest first. -/
def scanList : List Bool → Int → Bool → Int → Bool × Int
  | [], _, start, spaces => (start, spaces)
  | a :: rest, movesCount, start, spaces =>
    if movesCount = 0 then (start, spaces)
    else if a then scanList rest (movesCount - 1) true (spaces + 1)
    else if start then scanList rest (movesCount - 1) start spaces
    else scanList rest movesCount start spaces

/-- The entries met by a scan hold a lone available seat: the first available one is
followed by the end of the row or by an unavailable one. -/
def lone : List Bool → Bool
  | [] => false
  | false :: rest => lone rest
  | true :: [] => true
  | true :: false :: _ => true
  | true :: true :: _ => false

/-- The entries a left scan from index `i` meets, nearest first. -/
def leftView (rowSeats : List MappedRowSeat) (i : Nat) : List Bool :=
  ((rowSeats.take i).reverse).map isAvailable

/-- The entries a right scan from index `i` meets, nearest first. -/
def rightView (rowSeats : List MappedRowSeat) (i : Nat) : List Bool :=
  (rowSeats.drop (i + 1)).map isAvailable

/-- Index `p` holds an unavailable entry from which one of the two scans finds a lone seat. -/
def fragmentedAt (rowSeats : List MappedRowSeat) (p : Nat) : Bool :=
  match rowSeats[p]? with
  | some s => !isAvailable s && (lone (leftView rowSeats p) || lone (rightView rowSeats p))
  | none => false

/-- Every entry requested now carries a seat, as in every row the mapper builds. -/
def SeatsCarried (rowSeats : List MappedRowSeat) : Prop :=
  ∀ s ∈ rowSeats, s.RequestedForNow = true → s.Seat ≠ none

instance (rowSeats : List MappedRowSeat) : Decidable (SeatsCarried rowSeats) := by
  unfold SeatsCarried; infer_instance

/-- The position `p` lies in the row and holds an available entry; a position outside the
row is not available. -/
def availableAt (rowSeats : List MappedRowSeat) (p : Int) : Bool :=
  match getAt rowSeats p with
  | some s => isAvailable s
  | none => false

/-- The position `p` lies in the row. -/
def insideRow (rowSeats : List MappedRowSeat) (p : Int) : Bool :=
  decide (0 ≤ p ∧ p < (rowSeats.length : Int))

/-- Position `p` is an available position whose left and right neighbours are each outside
the row or unavailable, at least one of the two lying inside the row. -/
def LoneSeatAt (rowSeats : List MappedRowSeat) (p : Int) : Prop :=
  availableAt rowSeats p = true ∧ availableAt rowSeats (p - 1) = false ∧
    availableAt rowSeats (p + 1) = false ∧
    (insideRow rowSeats (p - 1) = true ∨ insideRow rowSeats (p + 1) = true)

instance (rowSeats : List MappedRowSeat) (p : Int) : Decidable (LoneSeatAt rowSeats p) := by
  unfold LoneSeatAt; infer_instance

/-- The two assignments of the second loop of the mapper applied to an entry. -/
def markedEntry (entry : MappedRowSeat) : MappedRowSeat :=
  { entry with AvailabilityIndicator := 0, RequestedForNow := true }

/-- The seat numbers of a list of seats, in order. -/
def seatNums (seats : List Seat) : List Int := seats.map (fun s => s.Num)

/-- The seat numbers of the row are `a, a+1, ...` in this order. -/
def ContiguousFrom (a : Int) (seats : List Seat) : Prop :=
  seatNums seats = (List.range seats.length).map (fun (k : Nat) => a + (k : Int))

instance (a : Int) (seats : List Seat) : Decidable (ContiguousFrom a seats) := by
  unfold ContiguousFrom; infer_instance

/-- The smallest seat number of a list of seats (0 for the empty list). -/
def smallestNum : List Seat → Int
  | [] => 0
  | [s] => s.Num
  | s :: rest => min s.Num (smallestNum rest)

/-- The largest seat number of a list of seats (0 for the empty list). -/
def largestNum : List Seat → Int
  | [] => 0
  | [s] => s.Num
  | s :: rest => max s.Num (largestNum rest)

/-- Six available seats numbered 1 to 6. -/
def sixSeats : List Seat :=
  [ { ID := "s1", Num := 1, PriceCategoryID := none },
    { ID := "s2", Num := 2, PriceCategoryID := none },
    { ID := "s3", Num := 3, PriceCategoryID := none },
    { ID := "s4", Num := 4, PriceCategoryID := none },
    { ID := "s5", Num := 5, PriceCategoryID := none },
    { ID := "s6", Num := 6, PriceCategoryID := none } ]

/-- Seats 2 and 3 of `sixSeats`. -/
def seatsTwoThree : List Seat :=
  [ { ID := "s2", Num := 2, PriceCategoryID := none },
    { ID := "s3", Num := 3, PriceCategoryID := none } ]

/-- Seats 1 and 2 of `sixSeats`. -/
def seatsOneTwo : List Seat :=
  [ { ID := "s1", Num := 1, PriceCategoryID := none },
    { ID := "s2", Num := 2, PriceCategoryID := none } ]

/-- Three available seats handed over in the order 1, 3, 2. -/
def unsortedSeats : List Seat :=
  [ { ID := "s1", Num := 1, PriceCategoryID := none },
    { ID := "s3", Num := 3, PriceCategoryID := none },
    { ID := "s2", Num := 2, PriceCategoryID := none } ]

/-- Available seats 1, 2, 4 and 5: number 3 is not available. -/
def seatsWithGap : List Seat :=
  [ { ID := "s1", Num := 1, PriceCategoryID := none },
    { ID := "s2", Num := 2, PriceCategoryID := none },
    { ID := "s4", Num := 4, PriceCategoryID := none },
    { ID := "s5", Num := 5, PriceCategoryID := none } ]

/-- A row whose two requested entries carry no seat, followed by an available seat. -/
def rowWithoutSeats : List MappedRowSeat :=
  [ { AvailabilityIndicator := 0, RequestedForNow := true, Seat := none },
    { AvailabilityIndicator := 0, RequestedForNow := true, Seat := none },
    { AvailabilityIndicator := 1, RequestedForNow := false,
      Seat := some { ID := "c", Num := 3, PriceCategoryID := none } } ]

/-- Seat 1 available, seats 2 and 3 requested now. -/
def rowOneTwoThree : List MappedRowSeat :=
  [ { AvailabilityIndicator := 1, RequestedForNow := false,
      Seat := some { ID := "a", Num := 1, PriceCategoryID := none } },
    { AvailabilityIndicator := 0, RequestedForNow := true,
      Seat := some { ID := "b", Num := 2, PriceCategoryID := none } },
    { AvailabilityIndicator := 0, RequestedForNow := true,
      Seat := some { ID := "c", Num := 3, PriceCategoryID := none } } ]

/-- The number of requested seats of the row that carry the price category `pc`. -/
def requestedCount (requestedRowSeats : List Seat) (pc : String) : Int :=
  ((requestedRowSeats.countP (fun s => decide (s.PriceCategoryID = some pc)) : Nat) : Int)

/-- One aggregate of the only-available map makes `skipFragmentationCheck` return true. -/
def triggersSkip (belowTenth : Int → Int → Bool) (counts : List (String × Int))
    (allSeatsByPriceCategoriesPerSpl : List (String × List SeatsPerPriceCategories))
    (v : SeatsPerPriceCategories) : Bool :=
  match v.PriceCategoryID with
  | none => false
  | some pc =>
    match counts.lookup pc with
    | none => false
    | some count =>
      belowTenth v.Count (getCountOfAllSplPriceCategorySeats allSeatsByPriceCategoriesPerSpl pc)
        || decide (count = v.Count - 1) || decide (count = v.Count)

/-- The aggregate carries a price category that a requested seat of the row carries. -/
def carriedBy (requestedRowSeats : List Seat) (v : SeatsPerPriceCategories) : Bool :=
  match v.PriceCategoryID with
  | none => false
  | some pc => decide (0 < requestedCount requestedRowSeats pc)

/-- The aggregates of all plans, in visiting order, whose price category is carried by a
requested seat of the row. -/
def carriedEntries (requestedRowSeats : List Seat)
    (m : List (String × List SeatsPerPriceCategories)) : List SeatsPerPriceCategories :=
  (m.flatMap Prod.snd).filter (carriedBy requestedRowSeats)

/-- Seats 2 and 3 of a row, both of price category "pc". -/
def twoPricedSeats : List Seat :=
  [ { ID := "s2", Num := 2, PriceCategoryID := some "pc" },
    { ID := "s3", Num := 3, PriceCategoryID := some "pc" } ]

/-- Seats 1, 2 and 3 of a row, all of price category "pc". -/
def threePricedSeats : List Seat :=
  [ { ID := "s1", Num := 1, PriceCategoryID := some "pc" },
    { ID := "s2", Num := 2, PriceCategoryID := some "pc" },
    { ID := "s3", Num := 3, PriceCategoryID := some "pc" } ]

/-- One row passes the checks of the loop of `ValidateSeatRules`: the group-ordering check
succeeds and the row is skipped by the skip heuristic or passes the mapper and the
detector. -/
def RowPasses (belowTenth : Int → Int → Bool)
    (splIDBookAllSeatsInGroup : List (String × String))
    (requestedSeatsGroupedByRowsGroupedBySpl : List (String × List (String × List Seat)))
    (availableSeatsByPriceCategoriesPerSpl allSeatsByPriceCategoriesPerSpl :
      List (String × List SeatsPerPriceCategories))
    (rowID : String) (availableSeats requestedRowSeats : List Seat) : Prop :=
  checkEventFullGroupOrderingRestriction rowID availableSeats requestedRowSeats
      splIDBookAllSeatsInGroup requestedSeatsGroupedByRowsGroupedBySpl = .ok () ∧
    (skipFragmentationCheck belowTenth requestedRowSeats
        availableSeatsByPriceCategoriesPerSpl allSeatsByPriceCategoriesPerSpl = true ∨
      ∃ mapped, mapAllRowSeatsForAvailability availableSeats requestedRowSeats = .ok mapped ∧
        checkMappedRowForFragmentation mapped = .ok ())

/-- The requested rows of all plans of the request, in visiting order. -/
def requestedRowsOf (request : List (String × List (String × List Seat))) :
    List (String × List Seat) :=
  request.flatMap Prod.snd

/-- The rows of all plans of the request with the seats `rowSeats splID rowID` loaded for
them, in visiting order. -/
def loadedRowsOf (rowSeats : String → String → List Seat)
    (request : List (String × List (String × List Seat))) : List (String × List Seat) :=
  request.flatMap (fun p => p.2.map (fun r => (r.1, rowSeats p.1 r.1)))

/-- The row ids of all plans of the request, in visiting order. -/
def rowIDsOf (request : List (String × List (String × List Seat))) : List String :=
  request.flatMap (fun p => p.2.map Prod.fst)

/-- A database whose rows all hold the six available seats 1..6 and whose plans hold 4
available and 45 seats in all of price category "pc". -/
def pricedStorage : Storage where
  GetRowSeatsBySeatingPlanID := fun _ _ _ => .ok sixSeats
  GetSeatsCountGroupedByPriceCategories := fun _ _ onlyAvailableSeats =>
    .ok (if onlyAvailableSeats then [{ Count := 4, PriceCategoryID := some "pc" }]
      else [{ Count := 45, PriceCategoryID := some "pc" }])

/-- A database whose rows all hold the six available seats 1..6 and whose plans hold 4
available and 19 seats in all of price category "pc". -/
def plainStorage : Storage where
  GetRowSeatsBySeatingPlanID := fun _ _ _ => .ok sixSeats
  GetSeatsCountGroupedByPriceCategories := fun _ _ onlyAvailableSeats =>
    .ok (if onlyAvailableSeats then [{ Count := 4, PriceCategoryID := some "pc" }]
      else [{ Count := 19, PriceCategoryID := some "pc" }])

/-- A database whose rows all hold the six available seats 1..6 and whose plans hold one
last available seat of price category "pc". -/
def lastSeatStorage : Storage where
  GetRowSeatsBySeatingPlanID := fun _ _ _ => .ok sixSeats
  GetSeatsCountGroupedByPriceCategories := fun _ _ onlyAvailableSeats =>
    .ok (if onlyAvailableSeats then [{ Count := 1, PriceCategoryID := some "pc" }]
      else [{ Count := 5, PriceCategoryID := some "pc" }])

/-- A request for seat number 9 of category "pc", a number the row does not hold. -/
def seatNine : List Seat := [{ ID := "s9", Num := 9, PriceCategoryID := some "pc" }]

/-- A database whose row loader fails with the error "connection lost". -/
def brokenStorage : Storage where
  GetRowSeatsBySeatingPlanID := fun _ _ _ => .error "connection lost"
  GetSeatsCountGroupedByPriceCategories := fun _ _ _ => .ok []

/-- A request that lists the row "row" under two seating plans, with different seats. -/
def sharedRowRequest : List (String × List (String × List Seat)) :=
  [("spl", [("row", seatsOneTwo)]), ("spl2", [("row", seatsTwoThree)])]

/-- Seat 1 available, seats 2 and 3 unavailable before the request: the indicators of
`rowOneTwoThree`, no entry requested now. -/
def rowOneOnly : List MappedRowSeat :=
  [ { AvailabilityIndicator := 1, RequestedForNow := false,
      Seat := some { ID := "a", Num := 1, PriceCategoryID := none } },
    { AvailabilityIndicator := 0, RequestedForNow := false, Seat := none },
    { AvailabilityIndicator := 0, RequestedForNow := false, Seat := none } ]

/-- Seats 1 and 2 requested now, seat 3 available. -/
def rowRequestedThenFree : List MappedRowSeat :=
  [ { AvailabilityIndicator := 0, RequestedForNow := true,
      Seat := some { ID := "a", Num := 1, PriceCategoryID := none } },
    { AvailabilityIndicator := 0, RequestedForNow := true,
      Seat := some { ID := "b", Num := 2, PriceCategoryID := none } },
    { AvailabilityIndicator := 1, RequestedForNow := false,
      Seat := some { ID := "c", Num := 3, PriceCategoryID := none } } ]

/-- The entry at position `k` of the row is requested now; false outside the row. -/
def requestedAt (rowSeats : List MappedRowSeat) (k : Nat) : Bool :=
  match rowSeats[k]? with
  | some entry => entry.RequestedForNow
  | none => false

/-- The seat the entry at position `k` of the row points to. -/
def seatAt (rowSeats : List MappedRowSeat) (k : Nat) : Option Seat :=
  match rowSeats[k]? with
  | some entry => entry.Seat
  | none => none

/-- Seat 1 requested now, seat 2 available. -/
def rowRequestedBeforeFree : List MappedRowSeat :=
  [ { AvailabilityIndicator := 0, RequestedForNow := true,
      Seat := some { ID := "a", Num := 1, PriceCategoryID := none } },
    { AvailabilityIndicator := 1, RequestedForNow := false,
      Seat := some { ID := "b", Num := 2, PriceCategoryID := none } } ]

/-- Seats 1 and 2 requested now, seat 3 available, seat 4 unavailable before the request. -/
def rowPairThenLone : List MappedRowSeat :=
  [ { AvailabilityIndicator := 0, RequestedForNow := true,
      Seat := some { ID := "a", Num := 1, PriceCategoryID := none } },
    { AvailabilityIndicator := 0, RequestedForNow := true,
      Seat := some { ID := "b", Num := 2, PriceCategoryID := none } },
    { AvailabilityIndicator := 1, RequestedForNow := false,
      Seat := some { ID := "c", Num := 3, PriceCategoryID := none } },
    { AvailabilityIndicator := 0, RequestedForNow := false, Seat := none } ]

/-- Position `i` is the first index of a maximal run of unavailable positions: an
unavailable position that is index 0 or is preceded by an available position. -/
def startsUnavailableRun (rowSeats : List MappedRowSeat) (i : Nat) : Bool :=
  !availableAt rowSeats (i : Int) && (decide (i = 0) || availableAt rowSeats ((i : Int) - 1))

/-- Source `fragmentationCheck` evaluated at the given indices one after the other, returning
the first error. -/
def checkAtIndices (rowSeats : List MappedRowSeat) : List Nat → Outcome Unit
  | [] => .ok ()
  | i :: rest =>
    match fragmentationCheck (i : Int) rowSeats with
    | .ok _ => checkAtIndices rowSeats rest
    | .error e => .error e
    | .panic => .panic

/-- The optimised scan the specification allows, written from its words: `fragmentationCheck`
is evaluated only at the first index of each maximal run of unavailable positions, in
ascending order. -/
def checkRunBoundariesOnly (rowSeats : List MappedRowSeat) : Outcome Unit :=
  checkAtIndices rowSeats
    ((List.range rowSeats.length).filter (startsUnavailableRun rowSeats))

/-- The row with its requested seats still counted as available: every entry requested now
is put back to available and not requested. -/
def withRequestedAvailable (rowSeats : List MappedRowSeat) : List MappedRowSeat :=
  rowSeats.map (fun entry =>
    if entry.RequestedForNow then
      { entry with AvailabilityIndicator := 1, RequestedForNow := false }
    else entry)

/-- An available entry of a mapped row carrying the seat `id` with number `num`. -/
def freeEntry (id : String) (num : Int) : MappedRowSeat :=
  { AvailabilityIndicator := 1, RequestedForNow := false,
    Seat := some { ID := id, Num := num, PriceCategoryID := none } }

/-- An entry of a mapped row requested now, carrying the seat `id` with number `num`. -/
def requestedEntry (id : String) (num : Int) : MappedRowSeat :=
  { AvailabilityIndicator := 0, RequestedForNow := true,
    Seat := some { ID := id, Num := num, PriceCategoryID := none } }

/-- The row of `sixSeats` with seats 2 and 3 requested now: the row of the test
`TestCheckMappedRowForFragmentationFailed`. -/
def rowTwoThreeRequested : List MappedRowSeat :=
  [ freeEntry "s1" 1, requestedEntry "s2" 2, requestedEntry "s3" 3,
    freeEntry "s4" 4, freeEntry "s5" 5, freeEntry "s6" 6 ]

/-- Seats 4 and 5 of `sixSeats`: the mirror image of `seatsTwoThree`. -/
def seatsFourFive : List Seat :=
  [ { ID := "s4", Num := 4, PriceCategoryID := none },
    { ID := "s5", Num := 5, PriceCategoryID := none } ]

/-- The row of `sixSeats` with seats 4 and 5 requested now, the mirror image of
`rowTwoThreeRequested`. -/
def rowFourFiveRequested : List MappedRowSeat :=
  [ freeEntry "s1" 1, freeEntry "s2" 2, freeEntry "s3" 3,
    requestedEntry "s4" 4, requestedEntry "s5" 5, freeEntry "s6" 6 ]

/-! ## The update parameters of a seat (`business/storage/seat.go`) -/

/-- The fields of `domain.IDs` read by `seatToUpdateParams`. -/
structure IDs where
  OrgID : String
  UserID : String
  deriving DecidableEq, Repr

/-- The update of a seat, `domain.UpdateSeat`: every field but `ID` is a pointer, `none` is the
nil pointer, a field the update does not give. A `time.Time` is an instant, a number. -/
structure UpdateSeat where
  ID : String
  Num : Option Int
  SvgTransform : Option String
  SvgPath : Option String
  Name : Option String
  X : Option Int
  Y : Option Int
  PriceCategoryID : Option String
  StatusCode : Option Int
  SplitOrderID : Option String
  Wheelchair : Option Bool
  OverrideNum : Option String
  LinkedSeatID : Option String
  Description : Option String
  BestSeatGroupID : Option String
  SeatRowID : Option String
  SeatBlockID : Option String
  SeatGateID : Option String
  OrderID : Option String
  OrderItemID : Option String
  OfferedAt : Option Int
  deriving DecidableEq, Repr

/-- The parameters of the update query, `UpdateSeatParams`: the fields `seatToUpdateParams`
writes, each with the zero value of its Go type as default. -/
structure UpdateSeatParams where
  ID : String := ""
  OrgID : String := ""
  UpdatedAt : Int := 0
  UpdatedByID : String := ""
  Num : Int := 0
  SetNum : Bool := false
  SvgTransform : String := ""
  SetSvgTransform : Bool := false
  SvgPath : String := ""
  SetSvgPath : Bool := false
  Name : String := ""
  SetName : Bool := false
  X : Int := 0
  SetX : Bool := false
  Y : Int := 0
  SetY : Bool := false
  PriceCategoryID : String := ""
  SetPriceCategoryID : Bool := false
  SetPriceCategoryIDToNull : Bool := false
  StatusCode : Int := 0
  SetStatusCode : Bool := false
  SplitOrderID : String := ""
  SetSplitOrderID : Bool := false
  Wheelchair : Bool := false
  SetWheelchair : Bool := false
  OverrideNum : String := ""
  SetOverrideNum : Bool := false
  LinkedSeatID : String := ""
  SetLinkedSeatID : Bool := false
  Description : String := ""
  SetDescription : Bool := false
  BestSeatGroupID : String := ""
  SetBestSeatGroupID : Bool := false
  SeatRowID : String := ""
  SetSeatRowID : Bool := false
  SeatBlockID : String := ""
  SetSeatBlockID : Bool := false
  SeatGateID : String := ""
  SetSeatGateID : Bool := false
  OrderID : String := ""
  SetOrderID : Bool := false
  OrderItemID : String := ""
  SetOrderItemID : Bool := false
  OfferedAt : Int := 0
  SetOfferedAt : Bool := false
  deriving DecidableEq, Repr

/-- The statement `if ptr != nil { body }` on the parameters built so far; the body reads the
value pointed to. -/
def ifSet {α : Type} (ptr : Option α) (body : α → UpdateSeatParams → UpdateSeatParams)
    (params : UpdateSeatParams) : UpdateSeatParams :=
  match ptr with
  | some value => body value params
  | none => params

/-- Source `seatToUpdateParams` of `business/storage/seat.go`. The constants
`domain.SeatStatusAvailable` and `domain.SeatStatusLocked` are the first two arguments. -/
def seatToUpdateParams (SeatStatusAvailable SeatStatusLocked : Int) (ids : IDs)
    (seat : UpdateSeat) (t : Int) : UpdateSeatParams :=
  let p0 : UpdateSeatParams :=
    { ID := seat.ID, OrgID := ids.OrgID, UpdatedAt := t, UpdatedByID := ids.UserID }
  let p1 := ifSet seat.Num (fun v p => { p with Num := v, SetNum := true }) p0
  let p2 := ifSet seat.SvgTransform
    (fun v p => { p with SvgTransform := v, SetSvgTransform := true }) p1
  let p3 := ifSet seat.SvgPath (fun v p => { p with SvgPath := v, SetSvgPath := true }) p2
  let p4 := ifSet seat.Name (fun v p => { p with Name := v, SetName := true }) p3
  let p5 := ifSet seat.X (fun v p => { p with X := v, SetX := true }) p4
  let p6 := ifSet seat.Y (fun v p => { p with Y := v, SetY := true }) p5
  let p7 := ifSet seat.PriceCategoryID
    (fun v p =>
      if v = "" then { p with SetPriceCategoryIDToNull := true }
      else { p with PriceCategoryID := v, SetPriceCategoryID := true }) p6
  let p8 := ifSet seat.StatusCode
    (fun v p => { p with StatusCode := v, SetStatusCode := true }) p7
  let p9 := ifSet seat.SplitOrderID
    (fun v p => { p with SplitOrderID := v, SetSplitOrderID := true }) p8
  let p10 := ifSet seat.Wheelchair
    (fun v p => { p with Wheelchair := v, SetWheelchair := true }) p9
  let p11 := ifSet seat.OverrideNum
    (fun v p => { p with OverrideNum := v, SetOverrideNum := true }) p10
  let p12 := ifSet seat.LinkedSeatID
    (fun v p =>
      { p with
        LinkedSeatID := v, SetLinkedSeatID := true,
        StatusCode := if v = "" then SeatStatusAvailable else SeatStatusLocked,
        SetStatusCode := true }) p11
  let p13 := ifSet seat.Description
    (fun v p => { p with Description := v, SetDescription := true }) p12
  let p14 := ifSet seat.BestSeatGroupID
    (fun v p => { p with BestSeatGroupID := v, SetBestSeatGroupID := true }) p13
  let p15 := ifSet seat.SeatRowID
    (fun v p => { p with SeatRowID := v, SetSeatRowID := true }) p14
  let p16 := ifSet seat.SeatBlockID
    (fun v p => { p with SeatBlockID := v, SetSeatBlockID := true }) p15
  let p17 := ifSet seat.SeatGateID
    (fun v p => { p with SeatGateID := v, SetSeatGateID := true }) p16
  let p18 := ifSet seat.OrderID (fun v p => { p with OrderID := v, SetOrderID := true }) p17
  let p19 := ifSet seat.OrderItemID
    (fun v p => { p with OrderItemID := v, SetOrderItemID := true }) p18
  ifSet seat.OfferedAt (fun v p => { p with OfferedAt := v, SetOfferedAt := true }) p19

/-- An update that gives the status code 7 and nothing else. -/
def statusOnlyUpdate : UpdateSeat :=
  { ID := "seat", Num := none, SvgTransform := none, SvgPath := none, Name := none, X := none,
    Y := none, PriceCategoryID := none, StatusCode := some 7, SplitOrderID := none,
    Wheelchair := none, OverrideNum := none, LinkedSeatID := none, Description := none,
    BestSeatGroupID := none, SeatRowID := none, SeatBlockID := none, SeatGateID := none,
    OrderID := none, OrderItemID := none, OfferedAt := none }

/-- An update that gives the status code 7 and links the seat to the seat "other". -/
def linkedUpdate : UpdateSeat := { statusOnlyUpdate with LinkedSeatID := some "other" }

/-- An update that gives the status code 7 and unlinks the seat (empty linked seat id). -/
def unlinkingUpdate : UpdateSeat := { statusOnlyUpdate with LinkedSeatID := some "" }

/-- The identifiers of a call: organisation "org", user "user". -/
def someIDs : IDs := { OrgID := "org", UserID := "user" }

/-- What the entry at offset `i` of a row being built by the mapper satisfies: it carries a
seat when the number `first + i` is among the available seats, an entry requested now has
indicator 0 and carries a seat, and an entry of indicator 1 is not requested now and carries
a seat. -/
def EntryWellFormed (availableRowSeats : List Seat) (first : Int) (i : Nat)
    (entry : MappedRowSeat) : Prop :=
  (first + (i : Int) ∈ seatNums availableRowSeats → entry.Seat ≠ none) ∧
    (entry.RequestedForNow = true → entry.AvailabilityIndicator = 0 ∧ entry.Seat ≠ none) ∧
    (entry.AvailabilityIndicator = 1 → entry.RequestedForNow = false ∧ entry.Seat ≠ none)

/-! ## The row availability mapper with `int32` arithmetic -/

/-- The value an `int32` holds after an operation whose exact result is `x`: the
two's-complement wrap-around into `-2^31 .. 2^31 - 1`. -/
def wrapInt32 (x : Int) : Int := (x + 2147483648) % 4294967296 - 2147483648

/-- The number `n` is a value of the type `int32`. -/
def IsInt32 (n : Int) : Prop := -2147483648 ≤ n ∧ n < 2147483648

instance (n : Int) : Decidable (IsInt32 n) := by
  unfold IsInt32; infer_instance

/-- Body of the first loop of `mapAllRowSeatsForAvailability` with the `int32` arithmetic of
the source: `curSeatNum := firstSeatNumInRow + int32(i)`. -/
def mapSeatAtInt32 (availableRowSeats : List Seat) (firstSeatNumInRow : Int) (i : Nat) :
    MappedRowSeat :=
  let curSeatNum := wrapInt32 (firstSeatNumInRow + wrapInt32 (i : Int))
  let index := indexOfRowSeat availableRowSeats curSeatNum
  if index ≠ -1 then
    { AvailabilityIndicator := 1, RequestedForNow := false, Seat := getAt availableRowSeats index }
  else
    { AvailabilityIndicator := 0, RequestedForNow := false, Seat := none }

/-- The second loop of `mapAllRowSeatsForAvailability` with the `int32` arithmetic of the
source: the index `requestedSeat.Num-firstSeatNumInRow` is an `int32` difference. -/
def markRequestedInt32 (availableRowSeats : List Seat) (firstSeatNumInRow : Int) :
    List Seat → List MappedRowSeat → Outcome (List MappedRowSeat)
  | [], allRowSeats => .ok allRowSeats
  | requestedSeat :: rest, allRowSeats =>
    if indexOfRowSeat availableRowSeats requestedSeat.Num = -1 then
      .error (.requestedSeatUnavailable requestedSeat.Num)
    else
      match getAt allRowSeats (wrapInt32 (requestedSeat.Num - firstSeatNumInRow)) with
      | none => .panic
      | some entry =>
        markRequestedInt32 availableRowSeats firstSeatNumInRow rest
          (allRowSeats.set (wrapInt32 (requestedSeat.Num - firstSeatNumInRow)).toNat
            { entry with AvailabilityIndicator := 0, RequestedForNow := true })

/-- Source `mapAllRowSeatsForAvailability` with the `int32` arithmetic of the source: the
length `last.Num - first.Num + 1` handed to `make` is an `int32` and wraps around; `make`
panics on a negative length, and reading the first and last seat of an empty slice panics. -/
def mapAllRowSeatsForAvailabilityInt32 (availableRowSeats requestedRowSeats : List Seat) :
    Outcome (List MappedRowSeat) :=
  match availableRowSeats.getLast?, availableRowSeats.head? with
  | some lastSeat, some firstSeat =>
    let size := wrapInt32 (lastSeat.Num - firstSeat.Num + 1)
    if size < 0 then .panic
    else
      markRequestedInt32 availableRowSeats firstSeat.Num requestedRowSeats
        ((List.range size.toNat).map (mapSeatAtInt32 availableRowSeats firstSeat.Num))
  | _, _ => .panic

/-- Two available seats numbered 0 and 2147483647, the largest `int32`. -/
def wideSeats : List Seat :=
  [ { ID := "s0", Num := 0, PriceCategoryID := none },
    { ID := "sMax", Num := 2147483647, PriceCategoryID := none } ]

/-- Two available seats numbered -2147483648 and 2147483647, the least and the largest
`int32`. -/
def widestSeats : List Seat :=
  [ { ID := "sMin", Num := -2147483648, PriceCategoryID := none },
    { ID := "sMax", Num := 2147483647, PriceCategoryID := none } ]

/-- Two available seats handed over in the order 2147483647, -2147483648. -/
def wrappingSeats : List Seat :=
  [ { ID := "sMax", Num := 2147483647, PriceCategoryID := none },
    { ID := "sMin", Num := -2147483648, PriceCategoryID := none } ]

/-! ## A run of the validator with the map orders it draws -/

/-- One aggregate of the only-available map as `skipFragmentationCheck` visits it, with the
order in which the call of `getCountOfAllSplPriceCategorySeats` made for it visits the plans
of the all-seats map: a `range` over a Go map draws its order anew each time it runs. -/
structure DrawnAggregate where
  aggregate : SeatsPerPriceCategories
  allSeatsOrder : List (String × List SeatsPerPriceCategories)
  deriving DecidableEq, Repr

/-- One iteration of the row loop of `ValidateSeatRules`: the row, its requested seats, and
the plans of the only-available map in the order in which the call of
`skipFragmentationCheck` of this iteration visits them. -/
structure RowVisit where
  rowID : String
  requestedRowSeats : List Seat
  availableOrder : List (String × List DrawnAggregate)
  deriving DecidableEq, Repr

/-- The inner loop `for _, v := range pcIDsArr` of `skipFragmentationCheck` in a run: every
call of `getCountOfAllSplPriceCategorySeats` visits the all-seats map in the order drawn for
it. -/
def skipInPlanRun (belowTenth : Int → Int → Bool)
    (currentRowPriceCategoriesSeatsCount : List (String × Int)) :
    List DrawnAggregate → Bool
  | [] => false
  | d :: rest =>
    match d.aggregate.PriceCategoryID with
    | none => skipInPlanRun belowTenth currentRowPriceCategoriesSeatsCount rest
    | some pc =>
      match currentRowPriceCategoriesSeatsCount.lookup pc with
      | none => skipInPlanRun belowTenth currentRowPriceCategoriesSeatsCount rest
      | some count =>
        if belowTenth d.aggregate.Count
            (getCountOfAllSplPriceCategorySeats d.allSeatsOrder pc) = true then
          true
        else if count = d.aggregate.Count - 1 then true
        else if count = d.aggregate.Count then true
        else skipInPlanRun belowTenth currentRowPriceCategoriesSeatsCount rest

/-- The outer loop `for _, pcIDsArr := range availableSeatsByPriceCategoriesPerSpl` in a
run, over the plans in the order drawn. -/
def skipInPlansRun (belowTenth : Int → Int → Bool)
    (currentRowPriceCategoriesSeatsCount : List (String × Int)) :
    List (String × List DrawnAggregate) → Bool
  | [] => false
  | (_, pcIDsArr) :: rest =>
    if skipInPlanRun belowTenth currentRowPriceCategoriesSeatsCount pcIDsArr = true then true
    else skipInPlansRun belowTenth currentRowPriceCategoriesSeatsCount rest

/-- Source `skipFragmentationCheck` in a run: `availableOrder` holds the two maps in the
orders the `range` statements of this call draw. -/
def skipFragmentationCheckRun (belowTenth : Int → Int → Bool) (requestedRowSeats : List Seat)
    (availableOrder : List (String × List DrawnAggregate)) : Bool :=
  skipInPlansRun belowTenth (countPriceCategories requestedRowSeats []) availableOrder

/-- The loop `for rowID, requestedRowSeats := range requestedRowsSeats` of
`ValidateSeatRules` in a run, over the iterations in the order drawn; the mapper computes
with `int32` arithmetic. -/
def validateRowsRun (belowTenth : Int → Int → Bool)
    (availableRowSeats : List (String × List Seat))
    (splIDBookAllSeatsInGroup : List (String × String))
    (requestedSeatsGroupedByRowsGroupedBySpl : List (String × List (String × List Seat))) :
    List RowVisit → Outcome Unit
  | [] => .ok ()
  | visit :: rest =>
    match checkEventFullGroupOrderingRestriction visit.rowID
        (sliceAt availableRowSeats visit.rowID) visit.requestedRowSeats
        splIDBookAllSeatsInGroup requestedSeatsGroupedByRowsGroupedBySpl with
    | .error e => .error e
    | .panic => .panic
    | .ok _ =>
      if skipFragmentationCheckRun belowTenth visit.requestedRowSeats
          visit.availableOrder = true then
        validateRowsRun belowTenth availableRowSeats splIDBookAllSeatsInGroup
          requestedSeatsGroupedByRowsGroupedBySpl rest
      else
        match mapAllRowSeatsForAvailabilityInt32 (sliceAt availableRowSeats visit.rowID)
            visit.requestedRowSeats with
        | .error e => .error e
        | .panic => .panic
        | .ok mappedRowSeats =>
          match checkMappedRowForFragmentation mappedRowSeats with
          | .error e => .error e
          | .panic => .panic
          | .ok _ =>
            validateRowsRun belowTenth availableRowSeats splIDBookAllSeatsInGroup
              requestedSeatsGroupedByRowsGroupedBySpl rest

/-- Source `ValidateSeatRules` in a run. The argument `visitOrder` maps the three maps the
function builds to the iterations of its row loop in the order drawn, each with the orders
drawn for the aggregate maps during that iteration. -/
def ValidateSeatRulesRun (belowTenth : Int → Int → Bool) (s : Storage)
    (visitOrder : List (String × List Seat) → List (String × List SeatsPerPriceCategories) →
      List (String × List SeatsPerPriceCategories) → List RowVisit)
    (orgID : String) (splIDBookAllSeatsInGroup : List (String × String))
    (requestedSeatsGroupedByRowsGroupedBySpl : List (String × List (String × List Seat))) :
    Outcome Unit :=
  match getRowSeatsForSeatingPlanAndRequestedSeats s orgID
      requestedSeatsGroupedByRowsGroupedBySpl with
  | .error e => .error e
  | .panic => .panic
  | .ok (availableRowSeats, requestedRowsSeats) =>
    match getSeatsWithPriceCategoriesForSpl s orgID
        requestedSeatsGroupedByRowsGroupedBySpl true with
    | .error e => .error e
    | .panic => .panic
    | .ok availableSeatsByPriceCategoriesPerSpl =>
      match getSeatsWithPriceCategoriesForSpl s orgID
          requestedSeatsGroupedByRowsGroupedBySpl false with
      | .error e => .error e
      | .panic => .panic
      | .ok allSeatsByPriceCategoriesPerSpl =>
        validateRowsRun belowTenth availableRowSeats splIDBookAllSeatsInGroup
          requestedSeatsGroupedByRowsGroupedBySpl
          (visitOrder requestedRowsSeats availableSeatsByPriceCategoriesPerSpl
            allSeatsByPriceCategoriesPerSpl)

/-- The iterations visit the rows of the map `requestedRowsSeats`, each once, and every
order they hold is an order of the map it visits: the plans of the only-available map, the
aggregates of each plan in their slice order, and the plans of the all-seats map. -/
def IsRunOf (requestedRowsSeats : List (String × List Seat))
    (availableSeatsByPriceCategoriesPerSpl allSeatsByPriceCategoriesPerSpl :
      List (String × List SeatsPerPriceCategories))
    (visits : List RowVisit) : Prop :=
  (visits.map (fun v => (v.rowID, v.requestedRowSeats))).Perm requestedRowsSeats ∧
    ∀ v ∈ visits,
      (v.availableOrder.map (fun p => (p.1, p.2.map (fun d => d.aggregate)))).Perm
          availableSeatsByPriceCategoriesPerSpl ∧
        ∀ p ∈ v.availableOrder, ∀ d ∈ p.2,
          d.allSeatsOrder.Perm allSeatsByPriceCategoriesPerSpl

instance (requestedRowsSeats : List (String × List Seat))
    (availablePC allPC : List (String × List SeatsPerPriceCategories))
    (visits : List RowVisit) : Decidable (IsRunOf requestedRowsSeats availablePC allPC visits) := by
  unfold IsRunOf; infer_instance

/-- One iteration of the row loop passes: the group-ordering check succeeds and the row is
skipped by the skip heuristic or passes the mapper and the detector. -/
def RowPassesRun (belowTenth : Int → Int → Bool)
    (splIDBookAllSeatsInGroup : List (String × String))
    (requestedSeatsGroupedByRowsGroupedBySpl : List (String × List (String × List Seat)))
    (rowID : String) (availableSeats requestedRowSeats : List Seat)
    (availableOrder : List (String × List DrawnAggregate)) : Prop :=
  checkEventFullGroupOrderingRestriction rowID availableSeats requestedRowSeats
      splIDBookAllSeatsInGroup requestedSeatsGroupedByRowsGroupedBySpl = .ok () ∧
    (skipFragmentationCheckRun belowTenth requestedRowSeats availableOrder = true ∨
      ∃ mapped,
        mapAllRowSeatsForAvailabilityInt32 availableSeats requestedRowSeats = .ok mapped ∧
        checkMappedRowForFragmentation mapped = .ok ())

/-- The orders of a call of `skipFragmentationCheck` in which every `range` visits the plans
of the two maps in the order of the lists `availablePC` and `allPC`. -/
def drawInOrder (availablePC allPC : List (String × List SeatsPerPriceCategories)) :
    List (String × List DrawnAggregate) :=
  availablePC.map (fun p => (p.1, p.2.map (fun v => { aggregate := v, allSeatsOrder := allPC })))

/-- The run in which the row loop visits the rows in the order of the list and every other
`range` visits its map in the order of its list. -/
def visitInOrder (requestedRowsSeats : List (String × List Seat))
    (availablePC allPC : List (String × List SeatsPerPriceCategories)) : List RowVisit :=
  requestedRowsSeats.map (fun r =>
    { rowID := r.1, requestedRowSeats := r.2, availableOrder := drawInOrder availablePC allPC })

/-- Seats 2 and 3 of a row, both of price category "c1". -/
def seatsOfC1 : List Seat :=
  [ { ID := "s2", Num := 2, PriceCategoryID := some "c1" },
    { ID := "s3", Num := 3, PriceCategoryID := some "c1" } ]

/-- Seats 2 and 3 of a row, both of price category "c2". -/
def seatsOfC2 : List Seat :=
  [ { ID := "s2", Num := 2, PriceCategoryID := some "c2" },
    { ID := "s3", Num := 3, PriceCategoryID := some "c2" } ]

/-- A database whose rows all hold the six available seats 1..6. The plan "spl" holds 5
available seats of category "c1", and in all 100 seats of "c1" and 10 of "c2"; every other
plan holds 5 available seats of "c2", and in all 10 seats of "c1" and 100 of "c2". -/
def crossStorage : Storage where
  GetRowSeatsBySeatingPlanID := fun _ _ _ => .ok sixSeats
  GetSeatsCountGroupedByPriceCategories := fun splID _ onlyAvailableSeats =>
    .ok (if splID = "spl" then
        (if onlyAvailableSeats then [{ Count := 5, PriceCategoryID := some "c1" }]
          else [{ Count := 100, PriceCategoryID := some "c1" },
                { Count := 10, PriceCategoryID := some "c2" }])
      else
        (if onlyAvailableSeats then [{ Count := 5, PriceCategoryID := some "c2" }]
          else [{ Count := 10, PriceCategoryID := some "c1" },
                { Count := 100, PriceCategoryID := some "c2" }]))

/-- A request for the row "row" of the plan "spl" and the row "row2" of the plan "spl2". -/
def crossRequest : List (String × List (String × List Seat)) :=
  [("spl", [("row", seatsOfC1)]), ("spl2", [("row2", seatsOfC2)])]

/-- A run in which the calls of `getCountOfAllSplPriceCategorySeats` made for the row "row"
visit the all-seats map in the order of the list, and those made for any other row visit it
in the reverse order. -/
def crossVisits (requestedRowsSeats : List (String × List Seat))
    (availablePC allPC : List (String × List SeatsPerPriceCategories)) : List RowVisit :=
  requestedRowsSeats.map (fun r =>
    { rowID := r.1, requestedRowSeats := r.2,
      availableOrder := drawInOrder availablePC (if r.1 = "row" then allPC else allPC.reverse) })

/-! ## The scans of the fragmentation detector -/

theorem scanList_zero (l : List Bool) (start : Bool) (spaces : Int) :
    scanList l 0 start spaces = (start, spaces) := by
  cases l <;> simp [scanList]

theorem scanList_lone (l : List Bool) :
    ((scanList l 2 false 0).1 = true ∧ (scanList l 2 false 0).2 ≠ 2) ↔ lone l = true := by
  induction l with
  | nil => simp [scanList, lone]
  | cons a rest ih =>
    cases a with
    | false => simpa [scanList, lone] using ih
    | true =>
      cases rest with
      | nil => simp [scanList, lone]
      | cons b rest2 =>
        cases b <;> simp [scanList, lone, scanList_zero]

theorem getAt_natCast {α : Type} (xs : List α) (n : Nat) : getAt xs (n : Int) = xs[n]? := by
  simp [getAt]

theorem leftLoop_eq (rowSeats : List MappedRowSeat) :
    ∀ (remaining k : Nat), k ≤ remaining → k ≤ rowSeats.length →
    ∀ (i j movesCount : Int) (start : Bool) (spaces : Int), i - j + 1 = (k : Int) →
      leftLoop i rowSeats remaining j movesCount start spaces =
        .ok (scanList (((rowSeats.take k).reverse).map isAvailable) movesCount start spaces) := by
  intro remaining
  induction remaining with
  | zero =>
    intro k hk _ i j m st sp _
    have : k = 0 := by omega
    subst this
    simp [leftLoop, scanList]
  | succ r ih =>
    intro k hk hlen i j m st sp hij
    cases k with
    | zero =>
      have : i - j < 0 := by omega
      simp [leftLoop, this, scanList]
    | succ k =>
      have hnot : ¬ (i - j < 0) := by omega
      have hidx : i - j = (k : Int) := by omega
      have hk2 : k < rowSeats.length := by omega
      have htake : ((rowSeats.take (k + 1)).reverse).map isAvailable =
          isAvailable rowSeats[k] :: ((rowSeats.take k).reverse).map isAvailable := by
        rw [List.take_succ, List.getElem?_eq_getElem hk2]
        simp only [Option.toList, List.reverse_append, List.reverse_cons, List.reverse_nil,
          List.nil_append, List.map_append, List.map_cons, List.map_nil, List.singleton_append,
          List.cons_append]
      rw [htake]
      by_cases hm : m = 0
      · subst hm
        simp [leftLoop, scanList]
      · have hget : getAt rowSeats (i - j) = some rowSeats[k] := by
          rw [hidx, getAt_natCast, List.getElem?_eq_getElem hk2]
        rw [leftLoop]
        simp only [hnot, hm, or_self, if_false, hget]
        rw [scanList]
        simp only [hm, if_false]
        by_cases ha : rowSeats[k].AvailabilityIndicator = 0
        · have hav : isAvailable rowSeats[k] = false := by simp [isAvailable, ha]
          simp only [ha, ne_eq, not_true_eq_false, if_false, hav]
          cases st
          · simp only [Bool.false_eq_true, if_false]
            exact ih k (by omega) (by omega) i (j + 1) m false sp (by omega)
          · simp only [if_true]
            exact ih k (by omega) (by omega) i (j + 1) (m - 1) true sp (by omega)
        · have hav : isAvailable rowSeats[k] = true := by simp [isAvailable, ha]
          simp only [ha, ne_eq, not_false_eq_true, if_true, hav]
          exact ih k (by omega) (by omega) i (j + 1) (m - 1) true (sp + 1) (by omega)

theorem rightLoop_eq (rowSeats : List MappedRowSeat) :
    ∀ (remaining p : Nat), rowSeats.length - p ≤ remaining →
    ∀ (i j movesCount : Int) (start : Bool) (spaces : Int), i + j = (p : Int) →
      rightLoop i rowSeats remaining j movesCount start spaces =
        .ok (scanList ((rowSeats.drop p).map isAvailable) movesCount start spaces) := by
  intro remaining
  induction remaining with
  | zero =>
    intro p hp i j m st sp _
    have : rowSeats.drop p = [] := List.drop_eq_nil_of_le (by omega)
    simp [rightLoop, this, scanList]
  | succ r ih =>
    intro p hp i j m st sp hij
    by_cases hout : rowSeats.length ≤ p
    · have : rowSeats.drop p = [] := List.drop_eq_nil_of_le hout
      have hgt : i + j > (rowSeats.length : Int) - 1 := by omega
      simp [rightLoop, this, scanList, hgt]
    · have hp2 : p < rowSeats.length := by omega
      have hnot : ¬ (i + j > (rowSeats.length : Int) - 1) := by omega
      have hdrop : (rowSeats.drop p).map isAvailable =
          isAvailable rowSeats[p] :: (rowSeats.drop (p + 1)).map isAvailable := by
        rw [List.drop_eq_getElem_cons hp2]
        simp only [List.map_cons]
      rw [hdrop]
      by_cases hm : m = 0
      · subst hm
        simp [rightLoop, scanList]
      · have hget : getAt rowSeats (i + j) = some rowSeats[p] := by
          rw [hij, getAt_natCast, List.getElem?_eq_getElem hp2]
        rw [rightLoop]
        simp only [hnot, hm, or_self, if_false, hget]
        rw [scanList]
        simp only [hm, if_false]
        by_cases ha : rowSeats[p].AvailabilityIndicator = 0
        · have hav : isAvailable rowSeats[p] = false := by simp [isAvailable, ha]
          simp only [ha, ne_eq, not_true_eq_false, if_false, hav]
          cases st
          · simp only [Bool.false_eq_true, if_false]
            exact ih (p + 1) (by omega) i (j + 1) m false sp (by omega)
          · simp only [if_true]
            exact ih (p + 1) (by omega) i (j + 1) (m - 1) true sp (by omega)
        · have hav : isAvailable rowSeats[p] = true := by simp [isAvailable, ha]
          simp only [ha, ne_eq, not_false_eq_true, if_true, hav]
          exact ih (p + 1) (by omega) i (j + 1) (m - 1) true (sp + 1) (by omega)

theorem fragmentationCheck_eq (rowSeats : List MappedRowSeat) (i : Nat)
    (hi : i < rowSeats.length) :
    fragmentationCheck (i : Int) rowSeats =
      if lone (leftView rowSeats i) = true then leftConflict rowSeats i
      else if lone (rightView rowSeats i) = true then
        rightConflict rowSeats (rowSeats.length - 1 - i) (i : Int)
      else .ok () := by
  have hl := leftLoop_eq rowSeats (rowSeats.length - 1) i (by omega) (by omega)
    (i : Int) 1 2 false 0 (by omega)
  have hr := rightLoop_eq rowSeats (rowSeats.length - 1) (i + 1) (by omega)
    (i : Int) 1 2 false 0 (by push_cast; omega)
  have hrem : ((rowSeats.length : Int) - 1 - (i : Int)).toNat = rowSeats.length - 1 - i := by
    omega
  unfold fragmentationCheck
  rw [hl, hr, hrem]
  simp only [Int.toNat_ofNat]
  have h1 := scanList_lone (leftView rowSeats i)
  have h2 := scanList_lone (rightView rowSeats i)
  unfold leftView at h1 ⊢
  unfold rightView at h2 ⊢
  by_cases hL : lone (List.map isAvailable (List.take i rowSeats).reverse) = true
  · rw [if_pos (h1.mpr hL), if_pos hL]
  · rw [if_neg (fun h => hL (h1.mp h)), if_neg hL]
    by_cases hR : lone (List.map isAvailable (List.drop (i + 1) rowSeats)) = true
    · rw [if_pos (h2.mpr hR), if_pos hR]
    · rw [if_neg (fun h => hR (h2.mp h)), if_neg hR]

theorem conflictAt_ne_ok (s : MappedRowSeat) : conflictAt s ≠ .ok () := by
  unfold conflictAt; cases s.Seat <;> simp

theorem leftConflict_ne_ok (rowSeats : List MappedRowSeat) (k : Nat) :
    leftConflict rowSeats k ≠ .ok () := by
  induction k with
  | zero => simp [leftConflict]
  | succ k ih =>
    rw [leftConflict]
    cases h1 : rowSeats[k + 1]? with
    | none => simp
    | some cur =>
      by_cases hc : cur.RequestedForNow = true
      · cases h2 : rowSeats[k]? with
        | none => simp [hc]
        | some prev =>
          by_cases hp : prev.RequestedForNow = true
          · simpa [hc, hp] using conflictAt_ne_ok cur
          · simpa [hc, hp] using ih
      · simpa [hc] using ih

theorem rightConflict_ne_ok (rowSeats : List MappedRowSeat) (n : Nat) (k : Int) :
    rightConflict rowSeats n k ≠ .ok () := by
  induction n generalizing k with
  | zero => simp [rightConflict]
  | succ n ih =>
    rw [rightConflict]
    cases h1 : getAt rowSeats k with
    | none => simp
    | some cur =>
      by_cases hc : cur.RequestedForNow = true
      · cases h2 : getAt rowSeats (k + 1) with
        | none => simp [hc]
        | some next =>
          by_cases hp : next.RequestedForNow = true
          · simpa [hc, hp] using ih (k + 1)
          · simpa [hc, hp] using conflictAt_ne_ok cur
      · simpa [hc] using ih (k + 1)

theorem conflictAt_error (s : MappedRowSeat) (h : s.Seat ≠ none) :
    ∃ id, conflictAt s = .error (.fragmentation id) := by
  unfold conflictAt
  cases hs : s.Seat with
  | none => exact absurd hs h
  | some seat => exact ⟨seat.ID, rfl⟩

theorem leftConflict_error (rowSeats : List MappedRowSeat) (hc : SeatsCarried rowSeats)
    (k : Nat) (hk : k < rowSeats.length) :
    ∃ id, leftConflict rowSeats k = .error (.fragmentation id) := by
  induction k with
  | zero => exact ⟨"", by simp [leftConflict]⟩
  | succ k ih =>
    rw [leftConflict]
    have hk2 : k < rowSeats.length := by omega
    rw [List.getElem?_eq_getElem hk, List.getElem?_eq_getElem hk2]
    by_cases h1 : rowSeats[k + 1].RequestedForNow = true
    · by_cases h2 : rowSeats[k].RequestedForNow = true
      · simp only [h1, h2, if_true]
        exact conflictAt_error _ (hc _ (List.getElem_mem _) h1)
      · simpa [h1, h2] using ih hk2
    · simpa [h1] using ih hk2

theorem rightConflict_error (rowSeats : List MappedRowSeat) (hc : SeatsCarried rowSeats)
    (n k : Nat) (hk : k + n < rowSeats.length) :
    ∃ id, rightConflict rowSeats n (k : Int) = .error (.fragmentation id) := by
  induction n generalizing k with
  | zero => exact ⟨"", by simp [rightConflict]⟩
  | succ n ih =>
    rw [rightConflict]
    have hk1 : k < rowSeats.length := by omega
    have hk2 : k + 1 < rowSeats.length := by omega
    have e1 : getAt rowSeats (k : Int) = some rowSeats[k] := by
      rw [getAt_natCast, List.getElem?_eq_getElem hk1]
    have e2 : getAt rowSeats ((k : Int) + 1) = some rowSeats[k + 1] := by
      have : ((k : Int) + 1) = ((k + 1 : Nat) : Int) := by push_cast; rfl
      rw [this, getAt_natCast, List.getElem?_eq_getElem hk2]
    rw [e1, e2]
    have hnext := ih (k + 1) (by omega)
    have hcast : (((k + 1 : Nat) : Int)) = (k : Int) + 1 := by push_cast; rfl
    rw [hcast] at hnext
    by_cases h1 : rowSeats[k].RequestedForNow = true
    · by_cases h2 : rowSeats[k + 1].RequestedForNow = true
      · simpa [h1, h2] using hnext
      · simp only [h1, h2, if_true]
        simpa using conflictAt_error _ (hc _ (List.getElem_mem _) h1)
    · simpa [h1] using hnext

/-! ## The loop of the detector over the row -/

theorem drop_cons_info {α : Type} {l : List α} {i : Nat} {s : α} {rest : List α}
    (h : l.drop i = s :: rest) : i < l.length ∧ l[i]? = some s ∧ l.drop (i + 1) = rest := by
  have hi : i < l.length := by
    by_contra hc
    rw [List.drop_eq_nil_of_le (by omega)] at h
    exact List.noConfusion h
  rw [List.drop_eq_getElem_cons hi] at h
  injection h with h1 h2
  exact ⟨hi, by rw [List.getElem?_eq_getElem hi, h1], h2⟩

theorem fragmentedAt_of_length_le (rowSeats : List MappedRowSeat) (p : Nat)
    (h : rowSeats.length ≤ p) : fragmentedAt rowSeats p = false := by
  unfold fragmentedAt
  rw [List.getElem?_eq_none h]

theorem fragmentationCheck_of_fragmentedAt (rowSeats : List MappedRowSeat) (p : Nat)
    (h : fragmentedAt rowSeats p = true) :
    fragmentationCheck (p : Int) rowSeats ≠ .ok () ∧
      (SeatsCarried rowSeats →
        ∃ id, fragmentationCheck (p : Int) rowSeats = .error (.fragmentation id)) := by
  have hp : p < rowSeats.length := by
    by_contra hc
    rw [fragmentedAt_of_length_le rowSeats p (by omega)] at h
    exact Bool.noConfusion h
  rw [fragmentationCheck_eq rowSeats p hp]
  unfold fragmentedAt at h
  rw [List.getElem?_eq_getElem hp] at h
  simp only [Bool.and_eq_true, Bool.or_eq_true] at h
  by_cases hL : lone (leftView rowSeats p) = true
  · rw [if_pos hL]
    exact ⟨leftConflict_ne_ok _ _, fun hc => leftConflict_error _ hc _ hp⟩
  · have hR : lone (rightView rowSeats p) = true := by
      rcases h.2 with h2 | h2
      · exact absurd h2 hL
      · exact h2
    rw [if_neg hL, if_pos hR]
    exact ⟨rightConflict_ne_ok _ _ _,
      fun hc => rightConflict_error _ hc _ _ (by omega)⟩

theorem checkMappedRowFrom_step_true (rowSeats : List MappedRowSeat) (i : Nat)
    (s : MappedRowSeat) (rest : List MappedRowSeat) (hd : rowSeats.drop i = s :: rest)
    (h : fragmentedAt rowSeats i = true) :
    checkMappedRowFrom rowSeats i (s :: rest) = fragmentationCheck (i : Int) rowSeats := by
  obtain ⟨hi, hs, _⟩ := drop_cons_info hd
  have hne := (fragmentationCheck_of_fragmentedAt rowSeats i h).1
  unfold fragmentedAt at h
  rw [hs] at h
  simp only [Bool.and_eq_true, Bool.not_eq_true'] at h
  have h0 : s.AvailabilityIndicator = 0 := by
    have := h.1
    simpa [isAvailable] using this
  rw [checkMappedRowFrom, if_pos h0]
  cases hf : fragmentationCheck (i : Int) rowSeats with
  | ok u => exact absurd hf hne
  | error e => rfl
  | panic => rfl

theorem checkMappedRowFrom_step_false (rowSeats : List MappedRowSeat) (i : Nat)
    (s : MappedRowSeat) (rest : List MappedRowSeat) (hd : rowSeats.drop i = s :: rest)
    (h : fragmentedAt rowSeats i = false) :
    checkMappedRowFrom rowSeats i (s :: rest) = checkMappedRowFrom rowSeats (i + 1) rest := by
  obtain ⟨hi, hs, _⟩ := drop_cons_info hd
  unfold fragmentedAt at h
  rw [hs] at h
  rw [checkMappedRowFrom]
  by_cases h0 : s.AvailabilityIndicator = 0
  · have hav : isAvailable s = false := by simp [isAvailable, h0]
    simp only [hav, Bool.not_false, Bool.true_and, Bool.or_eq_false_iff] at h
    rw [if_pos h0, fragmentationCheck_eq rowSeats i hi]
    simp [h.1, h.2]
  · rw [if_neg h0]

theorem checkMappedRowFrom_none (rowSeats : List MappedRowSeat) :
    ∀ (rest : List MappedRowSeat) (i : Nat), rowSeats.drop i = rest →
      (∀ p, i ≤ p → fragmentedAt rowSeats p = false) →
      checkMappedRowFrom rowSeats i rest = .ok () := by
  intro rest
  induction rest with
  | nil => intro i _ _; rfl
  | cons s rest ih =>
    intro i hd hall
    rw [checkMappedRowFrom_step_false rowSeats i s rest hd (hall i (le_refl i))]
    exact ih (i + 1) (drop_cons_info hd).2.2 (fun p hp => hall p (by omega))

theorem checkMappedRowFrom_first (rowSeats : List MappedRowSeat) :
    ∀ (rest : List MappedRowSeat) (i : Nat), rowSeats.drop i = rest →
      ∀ p, i ≤ p → fragmentedAt rowSeats p = true →
      (∀ q, i ≤ q → q < p → fragmentedAt rowSeats q = false) →
      checkMappedRowFrom rowSeats i rest = fragmentationCheck (p : Int) rowSeats := by
  intro rest
  induction rest with
  | nil =>
    intro i hd p hip hp _
    have hlen : rowSeats.length ≤ i := by
      by_contra hc
      rw [List.drop_eq_getElem_cons (by omega)] at hd
      exact List.noConfusion hd
    rw [fragmentedAt_of_length_le rowSeats p (by omega)] at hp
    exact Bool.noConfusion hp
  | cons s rest ih =>
    intro i hd p hip hp hbefore
    by_cases hi : fragmentedAt rowSeats i = true
    · have : p = i := by
        by_contra hne
        have := hbefore i (le_refl i) (by omega)
        rw [hi] at this
        exact Bool.noConfusion this
      subst this
      exact checkMappedRowFrom_step_true rowSeats p s rest hd hi
    · have hi2 : fragmentedAt rowSeats i = false := by simpa using hi
      have hne : p ≠ i := by
        intro h; subst h; rw [hp] at hi2; exact Bool.noConfusion hi2
      rw [checkMappedRowFrom_step_false rowSeats i s rest hd hi2]
      exact ih (i + 1) (drop_cons_info hd).2.2 p (by omega) hp
        (fun q hq1 hq2 => hbefore q (by omega) hq2)

/-- The detector passes exactly when no index is fragmented. -/
theorem checkMapped_ok_iff (rowSeats : List MappedRowSeat) :
    checkMappedRowForFragmentation rowSeats = .ok () ↔
      ∀ p, fragmentedAt rowSeats p = false := by
  constructor
  · intro hok p
    by_contra hp
    have hp2 : fragmentedAt rowSeats p = true := by simpa using hp
    have hex : ∃ q, fragmentedAt rowSeats q = true := ⟨p, hp2⟩
    classical
    have hmin := Nat.find_spec hex
    have hlt : ∀ q, 0 ≤ q → q < Nat.find hex → fragmentedAt rowSeats q = false := by
      intro q _ hq
      have := Nat.find_min hex hq
      simpa using this
    have hfirst := checkMappedRowFrom_first rowSeats rowSeats 0 rfl (Nat.find hex)
      (Nat.zero_le _) hmin hlt
    unfold checkMappedRowForFragmentation at hok
    rw [hfirst] at hok
    exact (fragmentationCheck_of_fragmentedAt rowSeats _ hmin).1 hok
  · intro hall
    exact checkMappedRowFrom_none rowSeats rowSeats 0 rfl (fun p _ => hall p)

/-- When some index is fragmented the detector stops at the first one with the outcome of
`fragmentationCheck` there. -/
theorem checkMapped_first (rowSeats : List MappedRowSeat)
    (hex : ∃ p, fragmentedAt rowSeats p = true) :
    ∃ p, fragmentedAt rowSeats p = true ∧
      (∀ q, q < p → fragmentedAt rowSeats q = false) ∧
      checkMappedRowForFragmentation rowSeats = fragmentationCheck (p : Int) rowSeats := by
  classical
  refine ⟨Nat.find hex, Nat.find_spec hex, ?_, ?_⟩
  · intro q hq
    simpa using Nat.find_min hex hq
  · exact checkMappedRowFrom_first rowSeats rowSeats 0 rfl (Nat.find hex) (Nat.zero_le _)
      (Nat.find_spec hex) (fun q _ hq => by simpa using Nat.find_min hex hq)

theorem checkMapped_error (rowSeats : List MappedRowSeat) (hc : SeatsCarried rowSeats)
    (hex : ∃ p, fragmentedAt rowSeats p = true) :
    ∃ id, checkMappedRowForFragmentation rowSeats = .error (.fragmentation id) := by
  obtain ⟨p, hp, _, heq⟩ := checkMapped_first rowSeats hex
  rw [heq]
  exact (fragmentationCheck_of_fragmentedAt rowSeats p hp).2 hc

/-! ## Lone seats -/

theorem lone_spec : ∀ (l : List Bool), lone l = true →
    ∃ n, l[n]? = some true ∧ (∀ t, t < n → l[t]? = some false) ∧ l[n + 1]? ≠ some true := by
  intro l
  induction l with
  | nil => intro h; simp [lone] at h
  | cons a rest ih =>
    cases a with
    | false =>
      intro h
      rw [lone] at h
      obtain ⟨n, h1, h2, h3⟩ := ih h
      refine ⟨n + 1, by simpa using h1, ?_, by simpa using h3⟩
      intro t ht
      cases t with
      | zero => simp
      | succ t => simpa using h2 t (by omega)
    | true =>
      intro h
      refine ⟨0, by simp, by intro t ht; omega, ?_⟩
      cases rest with
      | nil => simp
      | cons b rest2 =>
        cases b with
        | false => simp
        | true => simp [lone] at h

theorem lone_of_head (l : List Bool) (h0 : l[0]? = some true) (h1 : l[1]? ≠ some true) :
    lone l = true := by
  cases l with
  | nil => simp at h0
  | cons a rest =>
    simp at h0
    subst h0
    cases rest with
    | nil => rfl
    | cons b rest2 =>
      cases b with
      | false => rfl
      | true => simp at h1

theorem availableAt_natCast (rowSeats : List MappedRowSeat) (n : Nat) :
    availableAt rowSeats (n : Int) = (rowSeats[n]?.map isAvailable).getD false := by
  unfold availableAt
  rw [getAt_natCast]
  cases rowSeats[n]? <;> rfl

theorem availableAt_neg (rowSeats : List MappedRowSeat) (p : Int) (h : p < 0) :
    availableAt rowSeats p = false := by
  simp [availableAt, getAt, h]

theorem availableAt_true (rowSeats : List MappedRowSeat) (p : Int)
    (h : availableAt rowSeats p = true) :
    ∃ m : Nat, p = (m : Int) ∧ ∃ hm : m < rowSeats.length, isAvailable rowSeats[m] = true := by
  by_cases hneg : p < 0
  · rw [availableAt_neg _ _ hneg] at h
    exact Bool.noConfusion h
  · refine ⟨p.toNat, by omega, ?_⟩
    have hp : p = (p.toNat : Int) := by omega
    rw [hp, availableAt_natCast] at h
    cases hg : rowSeats[p.toNat]? with
    | none => rw [hg] at h; simp at h
    | some s =>
      rw [hg] at h
      obtain ⟨hlt, hs⟩ := List.getElem?_eq_some.mp hg
      exact ⟨hlt, by rw [hs]; simpa using h⟩

theorem leftView_getElem? (rowSeats : List MappedRowSeat) (p n : Nat)
    (hp : p ≤ rowSeats.length) (hn : n < p) :
    (leftView rowSeats p)[n]? = rowSeats[p - 1 - n]?.map isAvailable := by
  unfold leftView
  rw [List.getElem?_map, List.getElem?_reverse (by rw [List.length_take]; omega),
    List.length_take, Nat.min_eq_left hp, List.getElem?_take_of_lt (by omega)]

theorem leftView_getElem?_none (rowSeats : List MappedRowSeat) (p n : Nat) (hn : p ≤ n) :
    (leftView rowSeats p)[n]? = none := by
  unfold leftView
  apply List.getElem?_eq_none
  rw [List.length_map, List.length_reverse, List.length_take]
  omega

theorem rightView_getElem? (rowSeats : List MappedRowSeat) (p n : Nat) :
    (rightView rowSeats p)[n]? = rowSeats[p + 1 + n]?.map isAvailable := by
  unfold rightView
  rw [List.getElem?_map, List.getElem?_drop]

theorem fragmentedAt_true (rowSeats : List MappedRowSeat) (p : Nat)
    (h : fragmentedAt rowSeats p = true) :
    ∃ hp : p < rowSeats.length, isAvailable rowSeats[p] = false ∧
      (lone (leftView rowSeats p) = true ∨ lone (rightView rowSeats p) = true) := by
  have hp : p < rowSeats.length := by
    by_contra hc
    rw [fragmentedAt_of_length_le rowSeats p (by omega)] at h
    exact Bool.noConfusion h
  unfold fragmentedAt at h
  rw [List.getElem?_eq_getElem hp] at h
  simp only [Bool.and_eq_true, Bool.or_eq_true, Bool.not_eq_true'] at h
  exact ⟨hp, h.1, h.2⟩

theorem fragmentedAt_intro (rowSeats : List MappedRowSeat) (p : Nat)
    (hp : p < rowSeats.length) (hu : isAvailable rowSeats[p] = false)
    (hl : lone (leftView rowSeats p) = true ∨ lone (rightView rowSeats p) = true) :
    fragmentedAt rowSeats p = true := by
  unfold fragmentedAt
  rw [List.getElem?_eq_getElem hp]
  simp only [Bool.and_eq_true, Bool.or_eq_true, Bool.not_eq_true']
  exact ⟨hu, hl⟩

theorem availableAt_eq_false_of (rowSeats : List MappedRowSeat) (m : Nat)
    (h : rowSeats[m]?.map isAvailable ≠ some true) :
    availableAt rowSeats (m : Int) = false := by
  rw [availableAt_natCast]
  cases hg : rowSeats[m]? with
  | none => rfl
  | some s =>
    rw [hg] at h
    cases hs : isAvailable s with
    | false => simp [hs]
    | true => simp [hs] at h

theorem not_some_true_of_availableAt (rowSeats : List MappedRowSeat) (m : Nat)
    (h : availableAt rowSeats (m : Int) = false) :
    rowSeats[m]?.map isAvailable ≠ some true := by
  rw [availableAt_natCast] at h
  cases hg : rowSeats[m]? with
  | none => simp
  | some s =>
    rw [hg] at h
    simp at h
    simp [h]

/-- Some index is fragmented exactly when the row holds a lone available seat. -/
theorem exists_fragmentedAt_iff (rowSeats : List MappedRowSeat) :
    (∃ p, fragmentedAt rowSeats p = true) ↔ ∃ q, LoneSeatAt rowSeats q := by
  constructor
  · rintro ⟨p, hp⟩
    obtain ⟨hlen, hu, hl | hr⟩ := fragmentedAt_true rowSeats p hp
    · obtain ⟨n, h1, h2, h3⟩ := lone_spec _ hl
      have hn : n < p := by
        by_contra hc
        rw [leftView_getElem?_none rowSeats p n (by omega)] at h1
        exact Option.noConfusion h1
      rw [leftView_getElem? rowSeats p n (by omega) hn] at h1
      refine ⟨((p - 1 - n : Nat) : Int), ?_, ?_, ?_, ?_⟩
      · rw [availableAt_natCast, h1]; rfl
      · by_cases hq : p - 1 - n = 0
        · rw [hq]; exact availableAt_neg _ _ (by omega)
        · have e : ((p - 1 - n : Nat) : Int) - 1 = ((p - 1 - (n + 1) : Nat) : Int) := by omega
          rw [e]
          apply availableAt_eq_false_of
          rw [← leftView_getElem? rowSeats p (n + 1) (by omega) (by omega)]
          exact h3
      · have e : ((p - 1 - n : Nat) : Int) + 1 = ((p - n : Nat) : Int) := by omega
        rw [e]
        apply availableAt_eq_false_of
        by_cases hn0 : n = 0
        · subst hn0
          rw [Nat.sub_zero, List.getElem?_eq_getElem hlen]
          simp [hu]
        · have := h2 (n - 1) (by omega)
          rw [leftView_getElem? rowSeats p (n - 1) (by omega) (by omega)] at this
          have e2 : p - 1 - (n - 1) = p - n := by omega
          rw [e2] at this
          rw [this]
          simp
      · right
        simp only [insideRow, decide_eq_true_eq]
        omega
    · obtain ⟨n, h1, h2, h3⟩ := lone_spec _ hr
      rw [rightView_getElem?] at h1
      have hq : p + 1 + n < rowSeats.length := by
        by_contra hc
        rw [List.getElem?_eq_none (by omega)] at h1
        exact Option.noConfusion h1
      refine ⟨((p + 1 + n : Nat) : Int), ?_, ?_, ?_, ?_⟩
      · rw [availableAt_natCast, h1]; rfl
      · have e : ((p + 1 + n : Nat) : Int) - 1 = ((p + n : Nat) : Int) := by omega
        rw [e]
        apply availableAt_eq_false_of
        by_cases hn0 : n = 0
        · subst hn0
          rw [Nat.add_zero, List.getElem?_eq_getElem hlen]
          simp [hu]
        · have := h2 (n - 1) (by omega)
          rw [rightView_getElem?] at this
          have e2 : p + 1 + (n - 1) = p + n := by omega
          rw [e2] at this
          rw [this]
          simp
      · have e : ((p + 1 + n : Nat) : Int) + 1 = ((p + 1 + (n + 1) : Nat) : Int) := by omega
        rw [e]
        apply availableAt_eq_false_of
        rw [← rightView_getElem?]
        exact h3
      · left
        simp only [insideRow, decide_eq_true_eq]
        omega
  · rintro ⟨q, ha, hl, hr, hin⟩
    obtain ⟨m, rfl, hm, hav⟩ := availableAt_true rowSeats q ha
    simp only [insideRow, decide_eq_true_eq] at hin
    rcases hin with hin | hin
    · -- the left neighbour lies in the row: scan to the right from it
      have hm1 : 1 ≤ m := by omega
      refine ⟨m - 1, fragmentedAt_intro rowSeats (m - 1) (by omega) ?_ (Or.inr ?_)⟩
      · have e : ((m : Int) - 1) = ((m - 1 : Nat) : Int) := by omega
        rw [e, availableAt_natCast, List.getElem?_eq_getElem (by omega)] at hl
        simpa using hl
      · apply lone_of_head
        · rw [rightView_getElem?]
          have e : m - 1 + 1 + 0 = m := by omega
          rw [e, List.getElem?_eq_getElem hm, Option.map_some', hav]
        · rw [rightView_getElem?]
          have e : m - 1 + 1 + 1 = m + 1 := by omega
          rw [e]
          have e2 : ((m : Int) + 1) = ((m + 1 : Nat) : Int) := by omega
          rw [e2] at hr
          exact not_some_true_of_availableAt _ _ hr
    · -- the right neighbour lies in the row: scan to the left from it
      have hm1 : m + 1 < rowSeats.length := by omega
      have e2 : ((m : Int) + 1) = ((m + 1 : Nat) : Int) := by omega
      refine ⟨m + 1, fragmentedAt_intro rowSeats (m + 1) hm1 ?_ (Or.inl ?_)⟩
      · rw [e2, availableAt_natCast, List.getElem?_eq_getElem hm1] at hr
        simpa using hr
      · apply lone_of_head
        · rw [leftView_getElem? rowSeats (m + 1) 0 (by omega) (by omega)]
          have e : m + 1 - 1 - 0 = m := by omega
          rw [e, List.getElem?_eq_getElem hm, Option.map_some', hav]
        · by_cases hm0 : m = 0
          · rw [leftView_getElem?_none rowSeats (m + 1) 1 (by omega)]
            simp
          · rw [leftView_getElem? rowSeats (m + 1) 1 (by omega) (by omega)]
            have e : m + 1 - 1 - 1 = m - 1 := by omega
            rw [e]
            have e3 : ((m : Int) - 1) = ((m - 1 : Nat) : Int) := by omega
            rw [e3] at hl
            exact not_some_true_of_availableAt _ _ hl

/-! ## The mapper: index search and marking -/

theorem mem_seatNums {seats : List Seat} {num : Int} :
    num ∈ seatNums seats ↔ ∃ s ∈ seats, s.Num = num := by
  simp [seatNums]

theorem indexOfRowSeatFrom_absent (i : Int) (rowSeats : List Seat) (num : Int)
    (h : num ∉ seatNums rowSeats) : indexOfRowSeatFrom i rowSeats num = -1 := by
  induction rowSeats generalizing i with
  | nil => rfl
  | cons x rest ih =>
    have hx : num ≠ x.Num := by
      intro e; apply h; rw [mem_seatNums]; exact ⟨x, List.mem_cons_self _ _, e.symm⟩
    have hrest : num ∉ seatNums rest := by
      intro hm; apply h
      rw [mem_seatNums] at hm ⊢
      obtain ⟨s, hs, e⟩ := hm
      exact ⟨s, List.mem_cons_of_mem _ hs, e⟩
    rw [indexOfRowSeatFrom, if_neg hx]
    exact ih (i + 1) hrest

theorem indexOfRowSeatFrom_present (i : Int) (rowSeats : List Seat) (num : Int)
    (h : num ∈ seatNums rowSeats) :
    ∃ k : Nat, ∃ hk : k < rowSeats.length, indexOfRowSeatFrom i rowSeats num = i + (k : Int) ∧
      rowSeats[k].Num = num ∧ ∀ t (ht : t < k), rowSeats[t].Num ≠ num := by
  induction rowSeats generalizing i with
  | nil => simp [seatNums] at h
  | cons x rest ih =>
    by_cases hx : num = x.Num
    · refine ⟨0, by simp, ?_, by simp [hx], by intro t ht; omega⟩
      rw [indexOfRowSeatFrom, if_pos hx]; simp
    · have hrest : num ∈ seatNums rest := by
        rw [mem_seatNums] at h ⊢
        obtain ⟨s, hs, e⟩ := h
        rcases List.mem_cons.mp hs with rfl | hs
        · exact absurd e.symm hx
        · exact ⟨s, hs, e⟩
      obtain ⟨k, hk, h1, h2, h3⟩ := ih (i + 1) hrest
      refine ⟨k + 1, by simp; omega, ?_, by simpa using h2, ?_⟩
      · rw [indexOfRowSeatFrom, if_neg hx, h1]; push_cast; omega
      · intro t ht
        cases t with
        | zero => simpa using fun e => hx e.symm
        | succ t => simpa using h3 t (by omega)

theorem indexOfRowSeat_eq_neg_one_iff (rowSeats : List Seat) (num : Int) :
    indexOfRowSeat rowSeats num = -1 ↔ num ∉ seatNums rowSeats := by
  constructor
  · intro h hm
    obtain ⟨k, _, h1, _, _⟩ := indexOfRowSeatFrom_present 0 rowSeats num hm
    unfold indexOfRowSeat at h
    rw [h1] at h
    omega
  · exact indexOfRowSeatFrom_absent 0 rowSeats num

theorem mapSeatAt_absent (availableRowSeats : List Seat) (first : Int) (i : Nat)
    (h : first + (i : Int) ∉ seatNums availableRowSeats) :
    mapSeatAt availableRowSeats first i =
      { AvailabilityIndicator := 0, RequestedForNow := false, Seat := none } := by
  unfold mapSeatAt
  simp only [(indexOfRowSeat_eq_neg_one_iff _ _).mpr h, ne_eq, not_true_eq_false, if_false]

theorem mapSeatAt_present (availableRowSeats : List Seat) (first : Int) (i : Nat)
    (h : first + (i : Int) ∈ seatNums availableRowSeats) :
    ∃ k : Nat, ∃ hk : k < availableRowSeats.length,
      availableRowSeats[k].Num = first + (i : Int) ∧
      (∀ t (ht : t < k), availableRowSeats[t].Num ≠ first + (i : Int)) ∧
      mapSeatAt availableRowSeats first i =
        { AvailabilityIndicator := 1, RequestedForNow := false,
          Seat := some availableRowSeats[k] } := by
  obtain ⟨k, hk, h1, h2, h3⟩ := indexOfRowSeatFrom_present 0 availableRowSeats _ h
  refine ⟨k, hk, h2, h3, ?_⟩
  have hidx : indexOfRowSeat availableRowSeats (first + (i : Int)) = (k : Int) := by
    unfold indexOfRowSeat; rw [h1]; omega
  unfold mapSeatAt
  simp only [hidx, getAt_natCast, List.getElem?_eq_getElem hk]
  rw [if_pos (by omega)]

theorem markedEntry_markedEntry (e : MappedRowSeat) :
    markedEntry (markedEntry e) = markedEntry e := rfl

/-- The second loop on requested seats that all occur among the available seats at offsets
inside the row: it succeeds and marks exactly the requested offsets. -/
theorem markRequested_ok (availableRowSeats : List Seat) (first : Int) :
    ∀ (requestedRowSeats : List Seat) (allRowSeats : List MappedRowSeat),
      (∀ r ∈ requestedRowSeats, r.Num ∈ seatNums availableRowSeats ∧
        0 ≤ r.Num - first ∧ r.Num - first < (allRowSeats.length : Int)) →
      ∃ result, markRequested availableRowSeats first requestedRowSeats allRowSeats = .ok result ∧
        result.length = allRowSeats.length ∧
        ∀ (i : Nat) (hi : i < allRowSeats.length),
          result[i]? = some (if first + (i : Int) ∈ seatNums requestedRowSeats
            then markedEntry allRowSeats[i] else allRowSeats[i]) := by
  intro requestedRowSeats
  induction requestedRowSeats with
  | nil =>
    intro all _
    exact ⟨all, rfl, rfl, fun i hi => by simp [seatNums, List.getElem?_eq_getElem hi]⟩
  | cons r rest ih =>
    intro all hall
    obtain ⟨hmem, hlo, hhi⟩ := hall r (List.mem_cons_self _ _)
    have hidx : ¬ indexOfRowSeat availableRowSeats r.Num = -1 := by
      rw [indexOfRowSeat_eq_neg_one_iff]; exact fun h => h hmem
    have hpos : (r.Num - first).toNat < all.length := by omega
    have hget : getAt all (r.Num - first) = some all[(r.Num - first).toNat] := by
      have hneg : ¬ (r.Num - first < 0) := by omega
      unfold getAt
      rw [if_neg hneg, List.getElem?_eq_getElem hpos]
    rw [markRequested, if_neg hidx, hget]
    simp only
    obtain ⟨result, h1, h2, h3⟩ := ih
      (all.set (r.Num - first).toNat (markedEntry all[(r.Num - first).toNat]))
      (fun x hx => by
        obtain ⟨a, b, c⟩ := hall x (List.mem_cons_of_mem _ hx)
        exact ⟨a, b, by rw [List.length_set]; exact c⟩)
    refine ⟨result, h1, by rw [h2, List.length_set], ?_⟩
    intro i hi
    rw [h3 i (by rw [List.length_set]; exact hi)]
    congr 1
    have hcons : first + (i : Int) ∈ seatNums (r :: rest) ↔
        (first + (i : Int) = r.Num ∨ first + (i : Int) ∈ seatNums rest) := by
      simp [seatNums]
    by_cases hip : i = (r.Num - first).toNat
    · have hr : first + (i : Int) = r.Num := by omega
      have hb : i < (all.set (r.Num - first).toNat
          (markedEntry all[(r.Num - first).toNat])).length := by
        rw [List.length_set]; exact hi
      have hset : (all.set (r.Num - first).toNat
          (markedEntry all[(r.Num - first).toNat]))[i] = markedEntry all[i] := by
        subst hip
        simp
      rw [hset, if_pos (hcons.mpr (Or.inl hr))]
      by_cases hin : first + (i : Int) ∈ seatNums rest
      · rw [if_pos hin, markedEntry_markedEntry]
      · rw [if_neg hin]
    · have hr : first + (i : Int) ≠ r.Num := by omega
      have hb : i < (all.set (r.Num - first).toNat
          (markedEntry all[(r.Num - first).toNat])).length := by
        rw [List.length_set]; exact hi
      have hset : (all.set (r.Num - first).toNat
          (markedEntry all[(r.Num - first).toNat]))[i] = all[i] := by
        rw [List.getElem_set_ne (fun h => hip h.symm)]
      rw [hset]
      by_cases hin : first + (i : Int) ∈ seatNums rest
      · rw [if_pos hin, if_pos (hcons.mpr (Or.inr hin))]
      · rw [if_neg hin, if_neg (fun h => by
          rcases hcons.mp h with h | h
          · exact hr h
          · exact hin h)]

/-! ## The mapper on sorted rows -/

/-- The second loop returns the error as soon as it meets a requested seat whose number is
not available, provided the requested seats before it lie inside the row. -/
theorem markRequested_error (availableRowSeats : List Seat) (first : Int) :
    ∀ (requestedRowSeats : List Seat) (allRowSeats : List MappedRowSeat),
      (∀ r ∈ requestedRowSeats, r.Num ∈ seatNums availableRowSeats →
        0 ≤ r.Num - first ∧ r.Num - first < (allRowSeats.length : Int)) →
      (∃ r ∈ requestedRowSeats, r.Num ∉ seatNums availableRowSeats) →
      ∃ num, num ∈ seatNums requestedRowSeats ∧ num ∉ seatNums availableRowSeats ∧
        markRequested availableRowSeats first requestedRowSeats allRowSeats =
          .error (.requestedSeatUnavailable num) := by
  intro requestedRowSeats
  induction requestedRowSeats with
  | nil => intro all _ h; obtain ⟨r, hr, _⟩ := h; simp at hr
  | cons r rest ih =>
    intro all hall hex
    by_cases hmem : r.Num ∈ seatNums availableRowSeats
    · obtain ⟨hlo, hhi⟩ := hall r (List.mem_cons_self _ _) hmem
      have hidx : ¬ indexOfRowSeat availableRowSeats r.Num = -1 := by
        rw [indexOfRowSeat_eq_neg_one_iff]; exact fun h => h hmem
      have hpos : (r.Num - first).toNat < all.length := by omega
      have hget : getAt all (r.Num - first) = some all[(r.Num - first).toNat] := by
        have hneg : ¬ (r.Num - first < 0) := by omega
        unfold getAt
        rw [if_neg hneg, List.getElem?_eq_getElem hpos]
      rw [markRequested, if_neg hidx, hget]
      simp only
      have hex2 : ∃ x ∈ rest, x.Num ∉ seatNums availableRowSeats := by
        obtain ⟨x, hx, hxn⟩ := hex
        rcases List.mem_cons.mp hx with rfl | hx
        · exact absurd hmem hxn
        · exact ⟨x, hx, hxn⟩
      obtain ⟨num, h1, h2, h3⟩ := ih
        (all.set (r.Num - first).toNat
          { all[(r.Num - first).toNat] with AvailabilityIndicator := 0, RequestedForNow := true })
        (fun x hx hxm => by
          rw [List.length_set]
          exact hall x (List.mem_cons_of_mem _ hx) hxm) hex2
      exact ⟨num, by
        rw [mem_seatNums] at h1 ⊢
        obtain ⟨s, hs, e⟩ := h1
        exact ⟨s, List.mem_cons_of_mem _ hs, e⟩, h2, h3⟩
    · refine ⟨r.Num, ?_, hmem, ?_⟩
      · rw [mem_seatNums]; exact ⟨r, List.mem_cons_self _ _, rfl⟩
      · rw [markRequested, if_pos ((indexOfRowSeat_eq_neg_one_iff _ _).mpr hmem)]

/-- Whatever the second loop returns on success has the length of the row it started from,
and each entry is the original one or the original one marked. -/
theorem markRequested_entries (availableRowSeats : List Seat) (first : Int) :
    ∀ (requestedRowSeats : List Seat) (allRowSeats result : List MappedRowSeat),
      markRequested availableRowSeats first requestedRowSeats allRowSeats = .ok result →
      result.length = allRowSeats.length ∧
        ∀ (i : Nat) (hi : i < allRowSeats.length),
          result[i]? = some allRowSeats[i] ∨ result[i]? = some (markedEntry allRowSeats[i]) := by
  intro requestedRowSeats
  induction requestedRowSeats with
  | nil =>
    intro all result h
    rw [markRequested] at h
    injection h with h
    subst h
    exact ⟨rfl, fun i hi => Or.inl (List.getElem?_eq_getElem hi)⟩
  | cons r rest ih =>
    intro all result h
    rw [markRequested] at h
    by_cases hidx : indexOfRowSeat availableRowSeats r.Num = -1
    · rw [if_pos hidx] at h
      exact Outcome.noConfusion h
    · rw [if_neg hidx] at h
      cases hget : getAt all (r.Num - first) with
      | none =>
        rw [hget] at h
        exact Outcome.noConfusion h
      | some entry =>
        rw [hget] at h
        simp only at h
        have hneg : ¬ (r.Num - first < 0) := by
          intro hc
          simp [getAt, hc] at hget
        unfold getAt at hget
        rw [if_neg hneg] at hget
        obtain ⟨hpos, hentry⟩ := List.getElem?_eq_some.mp hget
        obtain ⟨h1, h2⟩ := ih _ result h
        rw [List.length_set] at h1
        refine ⟨h1, ?_⟩
        intro i hi
        have := h2 i (by rw [List.length_set]; exact hi)
        by_cases hip : i = (r.Num - first).toNat
        · subst hip
          have hb : (r.Num - first).toNat < (all.set (r.Num - first).toNat
              { entry with AvailabilityIndicator := 0, RequestedForNow := true }).length := by
            rw [List.length_set]; exact hi
          have hset : (all.set (r.Num - first).toNat
              { entry with AvailabilityIndicator := 0, RequestedForNow := true })[
                (r.Num - first).toNat] = markedEntry all[(r.Num - first).toNat] := by
            rw [List.getElem_set_self, hentry]
            rfl
          rw [hset, markedEntry_markedEntry] at this
          right
          rcases this with h | h <;> exact h
        · have hb : i < (all.set (r.Num - first).toNat
              { entry with AvailabilityIndicator := 0, RequestedForNow := true }).length := by
            rw [List.length_set]; exact hi
          have hset : (all.set (r.Num - first).toNat
              { entry with AvailabilityIndicator := 0, RequestedForNow := true })[i] =
              all[i] := by
            rw [List.getElem_set_ne (fun h => hip h.symm)]
          rw [hset] at this
          exact this

theorem sorted_head_le (availableRowSeats : List Seat) (firstSeat : Seat)
    (hsorted : availableRowSeats.Pairwise (fun a b => a.Num ≤ b.Num))
    (hfirst : availableRowSeats.head? = some firstSeat) :
    ∀ s ∈ availableRowSeats, firstSeat.Num ≤ s.Num := by
  cases availableRowSeats with
  | nil => simp at hfirst
  | cons x rest =>
    simp at hfirst
    subst hfirst
    intro s hs
    rcases List.mem_cons.mp hs with rfl | hs
    · exact le_refl _
    · exact (List.pairwise_cons.mp hsorted).1 s hs

theorem sorted_le_last : ∀ (availableRowSeats : List Seat) (lastSeat : Seat),
    availableRowSeats.Pairwise (fun a b => a.Num ≤ b.Num) →
    availableRowSeats.getLast? = some lastSeat →
    ∀ s ∈ availableRowSeats, s.Num ≤ lastSeat.Num := by
  intro l
  induction l with
  | nil => intro z _ h; simp at h
  | cons x rest ih =>
    intro z hsorted hlast s hs
    cases rest with
    | nil =>
      simp at hlast hs
      subst hlast; subst hs
      exact le_refl _
    | cons y rest2 =>
      have hlast2 : (y :: rest2).getLast? = some z := by
        simpa [List.getLast?_cons_cons] using hlast
      have hz : z ∈ y :: rest2 := List.mem_of_getLast?_eq_some hlast2
      rcases List.mem_cons.mp hs with rfl | hs
      · exact (List.pairwise_cons.mp hsorted).1 z hz
      · exact ih z (List.pairwise_cons.mp hsorted).2 hlast2 s hs

/-- The mapper on a non-empty row sorted by seat number whose requested numbers are all
available: it succeeds, the row spans first to last, and the requested offsets are marked. -/
theorem mapAll_sorted (availableRowSeats requestedRowSeats : List Seat)
    (firstSeat lastSeat : Seat)
    (hfirst : availableRowSeats.head? = some firstSeat)
    (hlast : availableRowSeats.getLast? = some lastSeat)
    (hsorted : availableRowSeats.Pairwise (fun a b => a.Num ≤ b.Num))
    (hreq : ∀ r ∈ requestedRowSeats, r.Num ∈ seatNums availableRowSeats) :
    ∃ mapped, mapAllRowSeatsForAvailability availableRowSeats requestedRowSeats = .ok mapped ∧
      (mapped.length : Int) = lastSeat.Num - firstSeat.Num + 1 ∧
      ∀ (i : Nat), i < mapped.length →
        mapped[i]? = some (if firstSeat.Num + (i : Int) ∈ seatNums requestedRowSeats
          then markedEntry (mapSeatAt availableRowSeats firstSeat.Num i)
          else mapSeatAt availableRowSeats firstSeat.Num i) := by
  have hfl : firstSeat.Num ≤ lastSeat.Num :=
    sorted_head_le _ _ hsorted hfirst lastSeat (List.mem_of_getLast?_eq_some hlast)
  have hsize : ¬ (lastSeat.Num - firstSeat.Num + 1 < 0) := by omega
  unfold mapAllRowSeatsForAvailability
  rw [hlast, hfirst]
  simp only [hsize, if_false]
  have hlen : ((List.range (lastSeat.Num - firstSeat.Num + 1).toNat).map
      (mapSeatAt availableRowSeats firstSeat.Num)).length =
      (lastSeat.Num - firstSeat.Num + 1).toNat := by
    rw [List.length_map, List.length_range]
  obtain ⟨result, h1, h2, h3⟩ := markRequested_ok availableRowSeats firstSeat.Num
    requestedRowSeats _ (fun r hr => by
      have hm := hreq r hr
      obtain ⟨s, hs, e⟩ := mem_seatNums.mp hm
      have hlo := sorted_head_le _ _ hsorted hfirst s hs
      have hhi := sorted_le_last _ _ hsorted hlast s hs
      rw [hlen]
      exact ⟨hm, by omega, by omega⟩)
  refine ⟨result, h1, by rw [h2, hlen]; omega, ?_⟩
  intro i hi
  rw [h2] at hi
  rw [h3 i hi]
  have hi2 : i < (lastSeat.Num - firstSeat.Num + 1).toNat := by rw [← hlen]; exact hi
  have hget : ((List.range (lastSeat.Num - firstSeat.Num + 1).toNat).map
      (mapSeatAt availableRowSeats firstSeat.Num))[i] =
      mapSeatAt availableRowSeats firstSeat.Num i := by
    simp
  rw [hget]

/-! ## The group-ordering restriction checker: loops -/

theorem checkRowsOfPlan_of_length_eq (rowID : String) (avail req : List Seat)
    (eventTitle : String) (h : avail.length = req.length) :
    ∀ rows, checkRowsOfPlan rowID avail req eventTitle rows = none := by
  intro rows
  induction rows with
  | nil => rfl
  | cons p rest ih =>
    obtain ⟨checkableRow, seats⟩ := p
    rw [checkRowsOfPlan]
    by_cases hr : rowID = checkableRow
    · rw [if_pos hr, if_neg (by simpa using h)]; exact ih
    · rw [if_neg hr]; exact ih

theorem checkRowsOfPlan_of_not_listed (rowID : String) (avail req : List Seat)
    (eventTitle : String) :
    ∀ rows, rowID ∉ rows.map Prod.fst →
      checkRowsOfPlan rowID avail req eventTitle rows = none := by
  intro rows
  induction rows with
  | nil => intro _; rfl
  | cons p rest ih =>
    obtain ⟨checkableRow, seats⟩ := p
    intro h
    simp only [List.map_cons, List.mem_cons, not_or] at h
    rw [checkRowsOfPlan, if_neg h.1]
    exact ih h.2

theorem checkRowsOfPlan_of_listed (rowID : String) (avail req : List Seat)
    (eventTitle : String) (hne : avail.length ≠ req.length) :
    ∀ rows, rowID ∈ rows.map Prod.fst →
      checkRowsOfPlan rowID avail req eventTitle rows =
        some (.fullGroupRestriction eventTitle) := by
  intro rows
  induction rows with
  | nil => intro h; simp at h
  | cons p rest ih =>
    obtain ⟨checkableRow, seats⟩ := p
    intro h
    rw [checkRowsOfPlan]
    by_cases hr : rowID = checkableRow
    · rw [if_pos hr, if_pos hne]
    · rw [if_neg hr]
      simp only [List.map_cons, List.mem_cons] at h
      rcases h with h | h
      · exact absurd h hr
      · exact ih h

theorem checkRestrictedPlans_of_length_eq (rowID : String) (avail req : List Seat)
    (request : List (String × List (String × List Seat))) (h : avail.length = req.length) :
    ∀ restricted, checkRestrictedPlans rowID avail req request restricted = .ok () := by
  intro restricted
  induction restricted with
  | nil => rfl
  | cons p rest ih =>
    obtain ⟨splID, eventTitle⟩ := p
    rw [checkRestrictedPlans, checkRowsOfPlan_of_length_eq rowID avail req eventTitle h]
    exact ih

theorem checkRestrictedPlans_of_not_listed (rowID : String) (avail req : List Seat)
    (request : List (String × List (String × List Seat))) :
    ∀ restricted : List (String × String),
      (∀ p ∈ restricted, rowID ∉ (rowsOfPlan request p.1).map Prod.fst) →
      checkRestrictedPlans rowID avail req request restricted = .ok () := by
  intro restricted
  induction restricted with
  | nil => intro _; rfl
  | cons p rest ih =>
    obtain ⟨splID, eventTitle⟩ := p
    intro h
    rw [checkRestrictedPlans, checkRowsOfPlan_of_not_listed rowID avail req eventTitle _
      (h (splID, eventTitle) (List.mem_cons_self _ _))]
    exact ih (fun q hq => h q (List.mem_cons_of_mem _ hq))

theorem checkRestrictedPlans_of_listed_once (rowID : String) (avail req : List Seat)
    (request : List (String × List (String × List Seat))) (splID eventTitle : String)
    (hne : avail.length ≠ req.length)
    (hlisted : rowID ∈ (rowsOfPlan request splID).map Prod.fst) :
    ∀ restricted : List (String × String),
      (restricted.map Prod.fst).Nodup →
      (splID, eventTitle) ∈ restricted →
      (∀ p ∈ restricted, rowID ∈ (rowsOfPlan request p.1).map Prod.fst → p.1 = splID) →
      checkRestrictedPlans rowID avail req request restricted =
        .error (.fullGroupRestriction eventTitle) := by
  intro restricted
  induction restricted with
  | nil => intro _ h; simp at h
  | cons p rest ih =>
    obtain ⟨planID, title⟩ := p
    intro hnodup hmem honly
    simp only [List.map_cons, List.nodup_cons] at hnodup
    rw [checkRestrictedPlans]
    by_cases hl : rowID ∈ (rowsOfPlan request planID).map Prod.fst
    · have hplan : planID = splID := honly (planID, title) (List.mem_cons_self _ _) hl
      have htitle : title = eventTitle := by
        rcases List.mem_cons.mp hmem with h | h
        · injection h with _ h2; exact h2.symm
        · exfalso
          apply hnodup.1
          rw [hplan]
          exact List.mem_map.mpr ⟨(splID, eventTitle), h, rfl⟩
      rw [checkRowsOfPlan_of_listed rowID avail req title hne _ hl, htitle]
    · rw [checkRowsOfPlan_of_not_listed rowID avail req title _ hl]
      have hmem2 : (splID, eventTitle) ∈ rest := by
        rcases List.mem_cons.mp hmem with h | h
        · injection h with h1 _
          rw [← h1] at hl
          exact absurd hlisted hl
        · exact h
      exact ih hnodup.2 hmem2 (fun q hq => honly q (List.mem_cons_of_mem _ hq))

/-! ## The mapper on contiguous rows -/

theorem ContiguousFrom.num {a : Int} {seats : List Seat} (h : ContiguousFrom a seats)
    (k : Nat) (hk : k < seats.length) : seats[k].Num = a + (k : Int) := by
  have h1 : (seatNums seats)[k]? = some seats[k].Num := by
    simp [seatNums, List.getElem?_eq_getElem hk]
  rw [h] at h1
  rw [List.getElem?_map, List.getElem?_range hk] at h1
  simpa using h1.symm

theorem ContiguousFrom.mem_iff {a : Int} {seats : List Seat} (h : ContiguousFrom a seats)
    (num : Int) : num ∈ seatNums seats ↔ a ≤ num ∧ num < a + (seats.length : Int) := by
  rw [h]
  simp only [List.mem_map, List.mem_range]
  constructor
  · rintro ⟨k, hk, rfl⟩; omega
  · rintro ⟨h1, h2⟩
    exact ⟨(num - a).toNat, by omega, by omega⟩

theorem smallestNum_sorted : ∀ (seats : List Seat) (firstSeat : Seat),
    seats.Pairwise (fun x y => x.Num ≤ y.Num) → seats.head? = some firstSeat →
    smallestNum seats = firstSeat.Num := by
  intro seats
  induction seats with
  | nil => intro f _ h; simp at h
  | cons x rest ih =>
    intro f hs hf
    simp at hf
    subst hf
    cases rest with
    | nil => rfl
    | cons y rest2 =>
      show min x.Num (smallestNum (y :: rest2)) = x.Num
      rw [ih y (List.pairwise_cons.mp hs).2 rfl]
      exact min_eq_left ((List.pairwise_cons.mp hs).1 y (List.mem_cons_self _ _))

theorem largestNum_sorted : ∀ (seats : List Seat) (lastSeat : Seat),
    seats.Pairwise (fun x y => x.Num ≤ y.Num) → seats.getLast? = some lastSeat →
    largestNum seats = lastSeat.Num := by
  intro seats
  induction seats with
  | nil => intro f _ h; simp at h
  | cons x rest ih =>
    intro z hs hz
    cases rest with
    | nil =>
      simp at hz
      subst hz
      rfl
    | cons y rest2 =>
      have hz2 : (y :: rest2).getLast? = some z := by
        simpa [List.getLast?_cons_cons] using hz
      show max x.Num (largestNum (y :: rest2)) = z.Num
      rw [ih z (List.pairwise_cons.mp hs).2 hz2]
      exact max_eq_right ((List.pairwise_cons.mp hs).1 z (List.mem_of_getLast?_eq_some hz2))

theorem mapped_entry_seat (availableRowSeats : List Seat) (first : Int) (i : Nat)
    (seat : Seat) (h : (mapSeatAt availableRowSeats first i).Seat = some seat) :
    seat ∈ availableRowSeats ∧ seat.Num = first + (i : Int) ∧
      (mapSeatAt availableRowSeats first i).AvailabilityIndicator = 1 := by
  by_cases hp : first + (i : Int) ∈ seatNums availableRowSeats
  · obtain ⟨k, hk, hnum, _, hmap⟩ := mapSeatAt_present availableRowSeats first i hp
    rw [hmap] at h ⊢
    simp only [Option.some.injEq] at h
    subst h
    exact ⟨List.getElem_mem _, hnum, rfl⟩
  · rw [mapSeatAt_absent availableRowSeats first i hp] at h
    simp at h

theorem mapAll_nonempty_sorted (availableRowSeats requestedRowSeats : List Seat)
    (hne : availableRowSeats ≠ [])
    (hsorted : availableRowSeats.Pairwise (fun x y => x.Num ≤ y.Num))
    (hreq : ∀ r ∈ requestedRowSeats, r.Num ∈ seatNums availableRowSeats) :
    ∃ mapped, mapAllRowSeatsForAvailability availableRowSeats requestedRowSeats = .ok mapped ∧
      (mapped.length : Int) =
        (availableRowSeats.getLast hne).Num - (availableRowSeats.head hne).Num + 1 ∧
      ∀ (i : Nat) (hi : i < mapped.length),
        mapped[i] = (if (availableRowSeats.head hne).Num + (i : Int) ∈ seatNums requestedRowSeats
          then markedEntry (mapSeatAt availableRowSeats (availableRowSeats.head hne).Num i)
          else mapSeatAt availableRowSeats (availableRowSeats.head hne).Num i) := by
  obtain ⟨mapped, h1, h2, h3⟩ := mapAll_sorted availableRowSeats requestedRowSeats _ _
    (List.head?_eq_head hne) (List.getLast?_eq_getLast _ hne) hsorted hreq
  refine ⟨mapped, h1, h2, ?_⟩
  intro i hi
  have := h3 i hi
  rw [List.getElem?_eq_getElem hi] at this
  injection this

theorem mapAll_error_of_unavailable (availableRowSeats requestedRowSeats : List Seat)
    (hne : availableRowSeats ≠ [])
    (hsorted : availableRowSeats.Pairwise (fun x y => x.Num ≤ y.Num))
    (hex : ∃ r ∈ requestedRowSeats, r.Num ∉ seatNums availableRowSeats) :
    ∃ num, num ∈ seatNums requestedRowSeats ∧ num ∉ seatNums availableRowSeats ∧
      mapAllRowSeatsForAvailability availableRowSeats requestedRowSeats =
        .error (.requestedSeatUnavailable num) := by
  have hfirst := List.head?_eq_head hne
  have hlast := List.getLast?_eq_getLast _ hne
  have hfl : (availableRowSeats.head hne).Num ≤ (availableRowSeats.getLast hne).Num :=
    sorted_head_le _ _ hsorted hfirst _ (List.mem_of_getLast?_eq_some hlast)
  have hsize : ¬ ((availableRowSeats.getLast hne).Num - (availableRowSeats.head hne).Num + 1
      < 0) := by omega
  unfold mapAllRowSeatsForAvailability
  rw [hlast, hfirst]
  simp only [hsize, if_false]
  apply markRequested_error availableRowSeats _ requestedRowSeats _ _ hex
  intro r _ hm
  obtain ⟨s, hs, e⟩ := mem_seatNums.mp hm
  have hlo := sorted_head_le _ _ hsorted hfirst s hs
  have hhi := sorted_le_last _ _ hsorted hlast s hs
  rw [List.length_map, List.length_range]
  omega

theorem lookup_cons_ne {β : Type} (c k : String) (b : β) (es : List (String × β))
    (h : c ≠ k) : ((k, b) :: es).lookup c = es.lookup c := by
  have hb : (c == k) = false := by simpa using h
  rw [List.lookup_cons, hb]

theorem lookup_incrementCount (m : List (String × Int)) (key c : String) :
    (incrementCount m key).lookup c =
      if c = key then some ((m.lookup c).getD 0 + 1) else m.lookup c := by
  induction m with
  | nil =>
    by_cases h : c = key
    · subst h; simp [incrementCount]
    · rw [incrementCount, lookup_cons_ne c key 1 [] h, if_neg h]
  | cons p rest ih =>
    obtain ⟨k, n⟩ := p
    rw [incrementCount]
    by_cases hk : k = key
    · subst hk
      rw [if_pos rfl]
      by_cases h : c = k
      · subst h; simp
      · rw [lookup_cons_ne c k _ _ h, lookup_cons_ne c k _ _ h, if_neg h]
    · rw [if_neg hk]
      by_cases hck : c = k
      · subst hck
        have : ¬ c = key := hk
        simp [this]
      · rw [lookup_cons_ne c k _ _ hck, lookup_cons_ne c k _ _ hck, ih]

theorem requestedCount_nil (pc : String) : requestedCount [] pc = 0 := rfl

theorem requestedCount_cons (v : Seat) (rest : List Seat) (pc : String) :
    requestedCount (v :: rest) pc =
      requestedCount rest pc + (if v.PriceCategoryID = some pc then 1 else 0) := by
  unfold requestedCount
  rw [List.countP_cons]
  by_cases h : v.PriceCategoryID = some pc <;> simp [h]

theorem requestedCount_nonneg (req : List Seat) (pc : String) : 0 ≤ requestedCount req pc := by
  unfold requestedCount; omega

/-- The map built by the first loop of the skip heuristic holds, for every price category,
the number of requested seats carrying it, and no entry for a category no seat carries. -/
theorem lookup_countPriceCategories (req : List Seat) :
    ∀ (counts : List (String × Int)) (pc : String),
      (countPriceCategories req counts).lookup pc =
        if requestedCount req pc = 0 then counts.lookup pc
        else some ((counts.lookup pc).getD 0 + requestedCount req pc) := by
  induction req with
  | nil => intro counts pc; simp [countPriceCategories, requestedCount_nil]
  | cons v rest ih =>
    intro counts pc
    have hnn := requestedCount_nonneg rest pc
    rw [requestedCount_cons]
    cases hv : v.PriceCategoryID with
    | none =>
      rw [countPriceCategories, hv]
      simp only [reduceCtorEq, if_false, add_zero]
      exact ih counts pc
    | some c =>
      rw [countPriceCategories, hv]
      simp only [ih, lookup_incrementCount]
      by_cases hc : pc = c
      · subst hc
        simp only [if_true]
        by_cases h0 : requestedCount rest pc = 0
        · simp [h0]
        · have : ¬ requestedCount rest pc + 1 = 0 := by omega
          simp only [h0, this, if_false, Option.getD_some, Option.some.injEq]
          omega
      · have hc2 : ¬ c = pc := fun e => hc e.symm
        simp [hc, hc2]

theorem lookup_requested_counts (req : List Seat) (pc : String) :
    (countPriceCategories req []).lookup pc =
      if requestedCount req pc = 0 then none else some (requestedCount req pc) := by
  rw [lookup_countPriceCategories]
  simp

theorem skipInPlan_eq_any (belowTenth : Int → Int → Bool) (counts : List (String × Int))
    (all : List (String × List SeatsPerPriceCategories)) (arr : List SeatsPerPriceCategories) :
    skipInPlan belowTenth counts all arr = arr.any (triggersSkip belowTenth counts all) := by
  induction arr with
  | nil => rfl
  | cons v rest ih =>
    rw [skipInPlan, List.any_cons, triggersSkip]
    cases hv : v.PriceCategoryID with
    | none => simpa using ih
    | some pc =>
      simp only
      cases hl : counts.lookup pc with
      | none => simpa using ih
      | some count =>
        simp only
        by_cases h1 : belowTenth v.Count (getCountOfAllSplPriceCategorySeats all pc) = true
        · simp [h1]
        · by_cases h2 : count = v.Count - 1
          · simp [h1, h2]
          · by_cases h3 : count = v.Count
            · simp [h1, h2, h3]
            · simp [h1, h2, h3, ih]

theorem skipInPlans_eq_any (belowTenth : Int → Int → Bool) (counts : List (String × Int))
    (all avail : List (String × List SeatsPerPriceCategories)) :
    skipInPlans belowTenth counts all avail =
      (avail.flatMap Prod.snd).any (triggersSkip belowTenth counts all) := by
  induction avail with
  | nil => rfl
  | cons p rest ih =>
    obtain ⟨k, arr⟩ := p
    rw [skipInPlans, skipInPlan_eq_any, List.flatMap_cons, List.any_append, ih]
    cases arr.any (triggersSkip belowTenth counts all) <;> simp

/-- The skip heuristic returns true exactly when some aggregate of the only-available map,
under whatever plan, triggers one of its three conditions. -/
theorem skip_eq_any (belowTenth : Int → Int → Bool) (req : List Seat)
    (avail all : List (String × List SeatsPerPriceCategories)) :
    skipFragmentationCheck belowTenth req avail all =
      (avail.flatMap Prod.snd).any
        (triggersSkip belowTenth (countPriceCategories req []) all) := by
  unfold skipFragmentationCheck
  exact skipInPlans_eq_any _ _ _ _

theorem skip_true_of_entry (belowTenth : Int → Int → Bool) (req : List Seat)
    (avail all : List (String × List SeatsPerPriceCategories))
    (splID : String) (arr : List SeatsPerPriceCategories) (v : SeatsPerPriceCategories)
    (hplan : (splID, arr) ∈ avail) (hv : v ∈ arr)
    (ht : triggersSkip belowTenth (countPriceCategories req []) all v = true) :
    skipFragmentationCheck belowTenth req avail all = true := by
  rw [skip_eq_any, List.any_eq_true]
  exact ⟨v, List.mem_flatMap.mpr ⟨(splID, arr), hplan, hv⟩, ht⟩

theorem triggersSkip_of_not_carried (belowTenth : Int → Int → Bool) (req : List Seat)
    (all : List (String × List SeatsPerPriceCategories)) (v : SeatsPerPriceCategories)
    (h : carriedBy req v = false) :
    triggersSkip belowTenth (countPriceCategories req []) all v = false := by
  unfold triggersSkip
  unfold carriedBy at h
  cases hv : v.PriceCategoryID with
  | none => rfl
  | some pc =>
    rw [hv] at h
    simp only [decide_eq_false_iff_not, not_lt] at h
    have h0 : requestedCount req pc = 0 := by
      have := requestedCount_nonneg req pc
      omega
    simp only [lookup_requested_counts, h0, if_true]

theorem findCountInPlan_filter (pc : String) (f : SeatsPerPriceCategories → Bool)
    (hf : ∀ v, v.PriceCategoryID = some pc → f v = true) :
    ∀ l : List SeatsPerPriceCategories,
      findCountInPlan pc (l.filter f) = findCountInPlan pc l := by
  intro l
  induction l with
  | nil => rfl
  | cons v rest ih =>
    by_cases hv : v.PriceCategoryID = some pc
    · rw [List.filter_cons_of_pos (hf v hv), findCountInPlan, findCountInPlan, if_pos hv,
        if_pos hv]
    · by_cases hfv : f v = true
      · rw [List.filter_cons_of_pos hfv, findCountInPlan, findCountInPlan, if_neg hv,
          if_neg hv, ih]
      · rw [List.filter_cons_of_neg hfv, findCountInPlan, if_neg hv, ih]

theorem findCountInPlan_append (pc : String) (l1 l2 : List SeatsPerPriceCategories) :
    findCountInPlan pc (l1 ++ l2) =
      match findCountInPlan pc l1 with
      | some c => some c
      | none => findCountInPlan pc l2 := by
  induction l1 with
  | nil => rfl
  | cons v rest ih =>
    rw [List.cons_append, findCountInPlan, findCountInPlan]
    by_cases hv : v.PriceCategoryID = some pc
    · rw [if_pos hv, if_pos hv]
    · rw [if_neg hv, if_neg hv, ih]

theorem getCount_eq_findCount (all : List (String × List SeatsPerPriceCategories))
    (pc : String) :
    getCountOfAllSplPriceCategorySeats all pc =
      (findCountInPlan pc (all.flatMap Prod.snd)).getD 0 := by
  induction all with
  | nil => rfl
  | cons p rest ih =>
    obtain ⟨k, arr⟩ := p
    rw [getCountOfAllSplPriceCategorySeats, List.flatMap_cons, findCountInPlan_append]
    cases findCountInPlan pc arr with
    | none => simpa using ih
    | some c => rfl

theorem getCount_carriedEntries (req : List Seat)
    (all : List (String × List SeatsPerPriceCategories)) (pc : String)
    (hpc : 0 < requestedCount req pc) :
    getCountOfAllSplPriceCategorySeats all pc =
      (findCountInPlan pc (carriedEntries req all)).getD 0 := by
  rw [getCount_eq_findCount]
  unfold carriedEntries
  rw [findCountInPlan_filter pc (carriedBy req)]
  intro v hv
  unfold carriedBy
  rw [hv]
  simpa using hpc

theorem triggersSkip_congr (belowTenth : Int → Int → Bool) (req : List Seat)
    (all all2 : List (String × List SeatsPerPriceCategories))
    (hall : carriedEntries req all = carriedEntries req all2) (v : SeatsPerPriceCategories) :
    triggersSkip belowTenth (countPriceCategories req []) all v =
      triggersSkip belowTenth (countPriceCategories req []) all2 v := by
  by_cases hc : carriedBy req v = true
  · unfold triggersSkip
    unfold carriedBy at hc
    cases hv : v.PriceCategoryID with
    | none => rfl
    | some pc =>
      rw [hv] at hc
      simp only [decide_eq_true_eq] at hc
      simp only
      rw [getCount_carriedEntries req all pc hc, getCount_carriedEntries req all2 pc hc, hall]
  · have hc2 : carriedBy req v = false := by simpa using hc
    rw [triggersSkip_of_not_carried _ _ _ _ hc2, triggersSkip_of_not_carried _ _ _ _ hc2]

/-- The skip heuristic reads the two maps only through their aggregates of the price
categories the requested seats carry. -/
theorem skip_congr_carriedEntries (belowTenth : Int → Int → Bool) (req : List Seat)
    (avail avail2 all all2 : List (String × List SeatsPerPriceCategories))
    (hav : carriedEntries req avail = carriedEntries req avail2)
    (hall : carriedEntries req all = carriedEntries req all2) :
    skipFragmentationCheck belowTenth req avail all =
      skipFragmentationCheck belowTenth req avail2 all2 := by
  have key : ∀ (m a : List (String × List SeatsPerPriceCategories)),
      (m.flatMap Prod.snd).any (triggersSkip belowTenth (countPriceCategories req []) a) =
        (carriedEntries req m).any (triggersSkip belowTenth (countPriceCategories req []) a) := by
    intro m a
    unfold carriedEntries
    rw [List.any_filter]
    congr 1
    funext v
    by_cases hc : carriedBy req v = true
    · simp [hc]
    · have hc2 : carriedBy req v = false := by simpa using hc
      simp [hc2, triggersSkip_of_not_carried _ _ _ _ hc2]
  rw [skip_eq_any, skip_eq_any, key avail all, key avail2 all2, hav]
  congr 1
  funext v
  exact triggersSkip_congr belowTenth req all all2 hall v

theorem carriedEntries_filter_plan (req : List Seat) (splID : String) :
    ∀ m : List (String × List SeatsPerPriceCategories),
      (∀ e ∈ m, e.1 ≠ splID → ∀ v ∈ e.2, carriedBy req v = false) →
      carriedEntries req m = carriedEntries req (m.filter (fun e => e.1 == splID)) := by
  intro m
  induction m with
  | nil => intro _; rfl
  | cons e rest ih =>
    intro h
    have ihr := ih (fun x hx => h x (List.mem_cons_of_mem _ hx))
    unfold carriedEntries at ihr ⊢
    by_cases he : e.1 = splID
    · have hb : (e.1 == splID) = true := by simpa using he
      simp only [List.filter_cons, hb, if_true]
      rw [List.flatMap_cons, List.flatMap_cons, List.filter_append, List.filter_append, ihr]
    · have hb : (e.1 == splID) = false := by simpa using he
      simp only [List.filter_cons, hb, Bool.false_eq_true, if_false]
      rw [List.flatMap_cons, List.filter_append, ihr]
      have hnil : List.filter (carriedBy req) e.2 = [] := by
        rw [List.filter_eq_nil_iff]
        intro v hv
        rw [h e (List.mem_cons_self _ _) he v hv]
        simp
      rw [hnil, List.nil_append]

theorem validateRows_cons_of_passes (belowTenth : Int → Int → Bool)
    (availMap : List (String × List Seat)) (restricted : List (String × String))
    (request : List (String × List (String × List Seat)))
    (availPC allPC : List (String × List SeatsPerPriceCategories))
    (row : String × List Seat) (rest : List (String × List Seat))
    (h : RowPasses belowTenth restricted request availPC allPC row.1
      (sliceAt availMap row.1) row.2) :
    validateRows belowTenth availMap restricted request availPC allPC (row :: rest) =
      validateRows belowTenth availMap restricted request availPC allPC rest := by
  obtain ⟨rowID, seats⟩ := row
  obtain ⟨hcheck, hrest⟩ := h
  simp only at hcheck hrest
  rw [validateRows, hcheck]
  simp only
  by_cases hskip : skipFragmentationCheck belowTenth seats availPC allPC = true
  · rw [if_pos hskip]
  · rw [if_neg hskip]
    rcases hrest with h | ⟨mapped, hm, hc⟩
    · exact absurd h hskip
    · rw [hm]
      simp only
      rw [hc]

theorem validateRows_cons_of_not_passes (belowTenth : Int → Int → Bool)
    (availMap : List (String × List Seat)) (restricted : List (String × String))
    (request : List (String × List (String × List Seat)))
    (availPC allPC : List (String × List SeatsPerPriceCategories))
    (row : String × List Seat) (rest : List (String × List Seat))
    (h : ¬ RowPasses belowTenth restricted request availPC allPC row.1
      (sliceAt availMap row.1) row.2) :
    validateRows belowTenth availMap restricted request availPC allPC (row :: rest) ≠
      .ok () := by
  obtain ⟨rowID, seats⟩ := row
  unfold RowPasses at h
  simp only at h
  rw [validateRows]
  cases hcheck : checkEventFullGroupOrderingRestriction rowID (sliceAt availMap rowID) seats
      restricted request with
  | error e => simp
  | panic => simp
  | ok u =>
    simp only
    by_cases hskip : skipFragmentationCheck belowTenth seats availPC allPC = true
    · exact absurd ⟨hcheck, Or.inl hskip⟩ h
    · rw [if_neg hskip]
      cases hm : mapAllRowSeatsForAvailability (sliceAt availMap rowID) seats with
      | error e => simp
      | panic => simp
      | ok mapped =>
        simp only
        cases hc : checkMappedRowForFragmentation mapped with
        | error e => simp
        | panic => simp
        | ok u2 => exact absurd ⟨hcheck, Or.inr ⟨mapped, hm, hc⟩⟩ h

/-- The loop over the rows succeeds exactly when every visited row passes. -/
theorem validateRows_ok_iff (belowTenth : Int → Int → Bool)
    (availMap : List (String × List Seat)) (restricted : List (String × String))
    (request : List (String × List (String × List Seat)))
    (availPC allPC : List (String × List SeatsPerPriceCategories)) :
    ∀ rows : List (String × List Seat),
      validateRows belowTenth availMap restricted request availPC allPC rows = .ok () ↔
        ∀ row ∈ rows, RowPasses belowTenth restricted request availPC allPC row.1
          (sliceAt availMap row.1) row.2 := by
  intro rows
  induction rows with
  | nil => simp [validateRows]
  | cons row rest ih =>
    by_cases h : RowPasses belowTenth restricted request availPC allPC row.1
        (sliceAt availMap row.1) row.2
    · rw [validateRows_cons_of_passes _ _ _ _ _ _ _ _ h, ih]
      constructor
      · intro hall r hr
        rcases List.mem_cons.mp hr with rfl | hr
        · exact h
        · exact hall r hr
      · intro hall r hr
        exact hall r (List.mem_cons_of_mem _ hr)
    · constructor
      · intro hok
        exact absurd hok (validateRows_cons_of_not_passes _ _ _ _ _ _ _ _ h)
      · intro hall
        exact absurd (hall row (List.mem_cons_self _ _)) h

theorem mapSet_fresh {ν : Type} (m : List (String × ν)) (key : String) (value : ν)
    (h : key ∉ m.map Prod.fst) : mapSet m key value = m ++ [(key, value)] := by
  induction m with
  | nil => rfl
  | cons p rest ih =>
    obtain ⟨k, v⟩ := p
    simp only [List.map_cons, List.mem_cons, not_or] at h
    rw [mapSet, if_neg (fun e => h.1 e.symm), ih h.2]
    rfl

theorem lookup_of_mem_nodup {β : Type} (m : List (String × β)) (k : String) (v : β)
    (hnodup : (m.map Prod.fst).Nodup) (hmem : (k, v) ∈ m) : m.lookup k = some v := by
  induction m with
  | nil => simp at hmem
  | cons p rest ih =>
    obtain ⟨k2, v2⟩ := p
    simp only [List.map_cons, List.nodup_cons] at hnodup
    rcases List.mem_cons.mp hmem with h | h
    · injection h with h1 h2
      subst h1; subst h2
      simp
    · have hne : k ≠ k2 := by
        intro e
        apply hnodup.1
        rw [← e]
        exact List.mem_map.mpr ⟨(k, v), h, rfl⟩
      rw [lookup_cons_ne k k2 v2 rest hne]
      exact ih hnodup.2 h

theorem loadRowsOfPlan_fresh (s : Storage) (orgID : String)
    (request : List (String × List (String × List Seat))) (splID : String)
    (rowSeats : String → String → List Seat)
    (hload : ∀ rowID, s.GetRowSeatsBySeatingPlanID splID orgID rowID =
      .ok (rowSeats splID rowID)) :
    ∀ (rows : List (String × List Seat)) (A R : List (String × List Seat)),
      (rows.map Prod.fst).Nodup →
      (∀ r ∈ rows, r.1 ∉ A.map Prod.fst ∧ r.1 ∉ R.map Prod.fst) →
      (∀ r ∈ rows, sliceAt (rowsOfPlan request splID) r.1 = r.2) →
      loadRowsOfPlan s orgID request splID rows (A, R) =
        .ok (A ++ rows.map (fun r => (r.1, rowSeats splID r.1)), R ++ rows) := by
  intro rows
  induction rows with
  | nil => intro A R _ _ _; simp [loadRowsOfPlan]
  | cons r rest ih =>
    intro A R hnodup hfresh hval
    obtain ⟨rowID, seats⟩ := r
    simp only [List.map_cons, List.nodup_cons] at hnodup
    have hf := hfresh (rowID, seats) (List.mem_cons_self _ _)
    have hv := hval (rowID, seats) (List.mem_cons_self _ _)
    simp only at hf hv
    rw [loadRowsOfPlan, hload rowID]
    simp only
    rw [mapSet_fresh A rowID _ hf.1, mapSet_fresh R rowID _ hf.2, hv]
    rw [ih _ _ hnodup.2 ?_ (fun x hx => hval x (List.mem_cons_of_mem _ hx))]
    · simp
    · intro x hx
      have hxf := hfresh x (List.mem_cons_of_mem _ hx)
      have hne : x.1 ≠ rowID := by
        intro e
        apply hnodup.1
        rw [← e]
        exact List.mem_map.mpr ⟨x, hx, rfl⟩
      simp only [List.map_append, List.map_cons, List.map_nil, List.mem_append,
        List.mem_singleton, not_or]
      exact ⟨⟨hxf.1, hne⟩, ⟨hxf.2, hne⟩⟩

theorem loadPlans_fresh (s : Storage) (orgID : String)
    (request : List (String × List (String × List Seat)))
    (rowSeats : String → String → List Seat)
    (hload : ∀ splID rowID, s.GetRowSeatsBySeatingPlanID splID orgID rowID =
      .ok (rowSeats splID rowID)) :
    ∀ (plans : List (String × List (String × List Seat))) (A R : List (String × List Seat)),
      (rowIDsOf plans).Nodup →
      (∀ k ∈ rowIDsOf plans, k ∉ A.map Prod.fst ∧ k ∉ R.map Prod.fst) →
      (∀ p ∈ plans, ∀ r ∈ p.2, sliceAt (rowsOfPlan request p.1) r.1 = r.2) →
      loadPlans s orgID request plans (A, R) =
        .ok (A ++ loadedRowsOf rowSeats plans, R ++ requestedRowsOf plans) := by
  intro plans
  induction plans with
  | nil => intro A R _ _ _; simp [loadPlans, loadedRowsOf, requestedRowsOf]
  | cons p rest ih =>
    intro A R hnodup hfresh hval
    obtain ⟨splID, rows⟩ := p
    unfold rowIDsOf at hnodup hfresh
    rw [List.flatMap_cons] at hnodup hfresh
    simp only at hnodup hfresh
    rw [List.nodup_append] at hnodup
    obtain ⟨hn1, hn2, hdisj⟩ := hnodup
    rw [loadPlans, loadRowsOfPlan_fresh s orgID request splID rowSeats (hload splID) rows A R
      hn1 (fun r hr => hfresh r.1 (List.mem_append_left _ (List.mem_map.mpr ⟨r, hr, rfl⟩)))
      (fun r hr => hval (splID, rows) (List.mem_cons_self _ _) r hr)]
    simp only
    rw [ih _ _ hn2 ?_ (fun q hq => hval q (List.mem_cons_of_mem _ hq))]
    · simp [loadedRowsOf, requestedRowsOf]
    · intro k hk
      have hkf := hfresh k (List.mem_append_right _ hk)
      have hnot : k ∉ rows.map Prod.fst := fun hin => hdisj hin hk
      simp only [List.map_append, List.map_map, List.mem_append, not_or]
      refine ⟨⟨hkf.1, ?_⟩, ⟨hkf.2, hnot⟩⟩
      intro hin
      apply hnot
      simpa [Function.comp] using hin

theorem rowsOfPlan_of_mem (request : List (String × List (String × List Seat)))
    (hplans : (request.map Prod.fst).Nodup) (p : String × List (String × List Seat))
    (hp : p ∈ request) : rowsOfPlan request p.1 = p.2 := by
  unfold rowsOfPlan
  rw [lookup_of_mem_nodup request p.1 p.2 hplans hp]
  rfl

theorem sliceAt_of_mem {ν : Type} (m : List (String × List ν)) (k : String) (v : List ν)
    (hnodup : (m.map Prod.fst).Nodup) (hmem : (k, v) ∈ m) : sliceAt m k = v := by
  unfold sliceAt
  rw [lookup_of_mem_nodup m k v hnodup hmem]
  rfl

theorem rowIDs_nodup_of_mem (request : List (String × List (String × List Seat)))
    (hunique : (rowIDsOf request).Nodup) :
    ∀ p ∈ request, (p.2.map Prod.fst).Nodup := by
  induction request with
  | nil => intro p hp; simp at hp
  | cons q rest ih =>
    unfold rowIDsOf at hunique
    rw [List.flatMap_cons, List.nodup_append] at hunique
    intro p hp
    rcases List.mem_cons.mp hp with rfl | hp
    · exact hunique.1
    · exact ih hunique.2.1 p hp

/-- With row ids unique across the plans of the request and the row loader succeeding, the
regrouping returns the requested rows of all plans and, under the same row ids, the seats
loaded for them. -/
theorem getRowSeats_of_unique (s : Storage) (orgID : String)
    (request : List (String × List (String × List Seat)))
    (rowSeats : String → String → List Seat)
    (hload : ∀ splID rowID, s.GetRowSeatsBySeatingPlanID splID orgID rowID =
      .ok (rowSeats splID rowID))
    (hplans : (request.map Prod.fst).Nodup) (hunique : (rowIDsOf request).Nodup) :
    getRowSeatsForSeatingPlanAndRequestedSeats s orgID request =
      .ok (loadedRowsOf rowSeats request, requestedRowsOf request) := by
  unfold getRowSeatsForSeatingPlanAndRequestedSeats
  rw [loadPlans_fresh s orgID request rowSeats hload request [] [] hunique
    (fun k _ => by simp) ?_]
  · simp
  · intro p hp r hr
    rw [rowsOfPlan_of_mem request hplans p hp]
    exact sliceAt_of_mem p.2 r.1 r.2 (rowIDs_nodup_of_mem request hunique p hp) hr

theorem loadedRowsOf_keys (rowSeats : String → String → List Seat)
    (request : List (String × List (String × List Seat))) :
    (loadedRowsOf rowSeats request).map Prod.fst = rowIDsOf request := by
  unfold loadedRowsOf rowIDsOf
  rw [List.map_flatMap]
  congr 1
  funext p
  rw [List.map_map]
  rfl

theorem loadPriceCategories_fresh (s : Storage) (orgID : String) (onlyAvailable : Bool)
    (counts : String → Bool → List SeatsPerPriceCategories)
    (hcounts : ∀ splID, s.GetSeatsCountGroupedByPriceCategories splID orgID onlyAvailable =
      .ok (counts splID onlyAvailable)) :
    ∀ (plans : List (String × List (String × List Seat)))
      (acc : List (String × List SeatsPerPriceCategories)),
      (plans.map Prod.fst).Nodup →
      (∀ p ∈ plans, p.1 ∉ acc.map Prod.fst) →
      loadPriceCategories s orgID onlyAvailable plans acc =
        .ok (acc ++ plans.map (fun p => (p.1, counts p.1 onlyAvailable))) := by
  intro plans
  induction plans with
  | nil => intro acc _ _; simp [loadPriceCategories]
  | cons p rest ih =>
    intro acc hnodup hfresh
    obtain ⟨splID, rows⟩ := p
    simp only [List.map_cons, List.nodup_cons] at hnodup
    rw [loadPriceCategories, hcounts splID]
    simp only
    rw [mapSet_fresh acc splID _ (hfresh (splID, rows) (List.mem_cons_self _ _)),
      ih _ hnodup.2 ?_]
    · simp
    · intro q hq
      have hne : q.1 ≠ splID := by
        intro e
        apply hnodup.1
        rw [← e]
        exact List.mem_map.mpr ⟨q, hq, rfl⟩
      simp only [List.map_append, List.map_cons, List.map_nil, List.mem_append,
        List.mem_singleton, not_or]
      exact ⟨hfresh q (List.mem_cons_of_mem _ hq), hne⟩

theorem getSeatsWithPriceCategories_of_nodup (s : Storage) (orgID : String)
    (request : List (String × List (String × List Seat))) (onlyAvailable : Bool)
    (counts : String → Bool → List SeatsPerPriceCategories)
    (hcounts : ∀ splID, s.GetSeatsCountGroupedByPriceCategories splID orgID onlyAvailable =
      .ok (counts splID onlyAvailable))
    (hplans : (request.map Prod.fst).Nodup) :
    getSeatsWithPriceCategoriesForSpl s orgID request onlyAvailable =
      .ok (request.map (fun p => (p.1, counts p.1 onlyAvailable))) := by
  unfold getSeatsWithPriceCategoriesForSpl
  rw [loadPriceCategories_fresh s orgID onlyAvailable counts hcounts request [] hplans
    (fun p _ => by simp)]
  simp

theorem getRowSeats_single (s : Storage) (orgID splID rowID : String)
    (seats availableSeats : List Seat)
    (hrow : s.GetRowSeatsBySeatingPlanID splID orgID rowID = .ok availableSeats) :
    getRowSeatsForSeatingPlanAndRequestedSeats s orgID [(splID, [(rowID, seats)])] =
      .ok ([(rowID, availableSeats)], [(rowID, seats)]) := by
  simp [getRowSeatsForSeatingPlanAndRequestedSeats, loadPlans, loadRowsOfPlan, hrow, mapSet,
    sliceAt, rowsOfPlan]

theorem getSeatsWithPriceCategories_single (s : Storage) (orgID splID : String)
    (rows : List (String × List Seat)) (onlyAvailable : Bool)
    (res : List SeatsPerPriceCategories)
    (h : s.GetSeatsCountGroupedByPriceCategories splID orgID onlyAvailable = .ok res) :
    getSeatsWithPriceCategoriesForSpl s orgID [(splID, rows)] onlyAvailable =
      .ok [(splID, res)] := by
  simp [getSeatsWithPriceCategoriesForSpl, loadPriceCategories, h, mapSet]

theorem sliceAt_single {ν : Type} (k : String) (v : List ν) : sliceAt [(k, v)] k = v := by
  simp [sliceAt]

/-- A request of a single row whose loaders succeed: `ValidateSeatRules` is the loop over
that one row. -/
theorem validate_single (belowTenth : Int → Int → Bool) (s : Storage)
    (rangeOrder : List (String × List Seat) → List (String × List Seat))
    (orgID : String) (restricted : List (String × String))
    (splID rowID : String) (seats availableSeats : List Seat)
    (availPC allPC : List SeatsPerPriceCategories)
    (hrange : ∀ m, (rangeOrder m).Perm m)
    (hrow : s.GetRowSeatsBySeatingPlanID splID orgID rowID = .ok availableSeats)
    (hav : s.GetSeatsCountGroupedByPriceCategories splID orgID true = .ok availPC)
    (hall : s.GetSeatsCountGroupedByPriceCategories splID orgID false = .ok allPC) :
    ValidateSeatRules belowTenth s rangeOrder orgID restricted [(splID, [(rowID, seats)])] =
      validateRows belowTenth [(rowID, availableSeats)] restricted
        [(splID, [(rowID, seats)])] [(splID, availPC)] [(splID, allPC)] [(rowID, seats)] := by
  unfold ValidateSeatRules
  rw [getRowSeats_single s orgID splID rowID seats availableSeats hrow,
    getSeatsWithPriceCategories_single s orgID splID _ true availPC hav,
    getSeatsWithPriceCategories_single s orgID splID _ false allPC hall]
  simp only
  rw [(hrange [(rowID, seats)]).eq_singleton]

theorem checkRestrictedPlans_ne_panic (rowID : String) (avail req : List Seat)
    (request : List (String × List (String × List Seat))) :
    ∀ restricted, checkRestrictedPlans rowID avail req request restricted ≠ .panic := by
  intro restricted
  induction restricted with
  | nil => simp [checkRestrictedPlans]
  | cons p rest ih =>
    obtain ⟨splID, eventTitle⟩ := p
    rw [checkRestrictedPlans]
    cases checkRowsOfPlan rowID avail req eventTitle (rowsOfPlan request splID) with
    | none => simpa using ih
    | some e => simp

theorem checkEvent_ne_panic (rowID : String) (avail req : List Seat)
    (restricted : List (String × String))
    (request : List (String × List (String × List Seat))) :
    checkEventFullGroupOrderingRestriction rowID avail req restricted request ≠ .panic := by
  unfold checkEventFullGroupOrderingRestriction
  split
  · simp
  · exact checkRestrictedPlans_ne_panic rowID avail req request restricted

theorem markRequested_not_ok (availableRowSeats : List Seat) (first : Int) :
    ∀ (requestedRowSeats : List Seat) (allRowSeats result : List MappedRowSeat),
      (∃ r ∈ requestedRowSeats, r.Num ∉ seatNums availableRowSeats) →
      markRequested availableRowSeats first requestedRowSeats allRowSeats ≠ .ok result := by
  intro requestedRowSeats
  induction requestedRowSeats with
  | nil => intro all result h; obtain ⟨r, hr, _⟩ := h; simp at hr
  | cons r rest ih =>
    intro all result hex
    rw [markRequested]
    by_cases hidx : indexOfRowSeat availableRowSeats r.Num = -1
    · rw [if_pos hidx]; simp
    · rw [if_neg hidx]
      have hmem : r.Num ∈ seatNums availableRowSeats := by
        by_contra hn
        exact hidx ((indexOfRowSeat_eq_neg_one_iff _ _).mpr hn)
      have hex2 : ∃ x ∈ rest, x.Num ∉ seatNums availableRowSeats := by
        obtain ⟨x, hx, hxn⟩ := hex
        rcases List.mem_cons.mp hx with rfl | hx
        · exact absurd hmem hxn
        · exact ⟨x, hx, hxn⟩
      cases getAt all (r.Num - first) with
      | none => simp
      | some entry => exact ih _ result hex2

/-- The mapper never returns a mapped sequence when a requested seat has a number that is
not available. -/
theorem mapAll_not_ok_of_missing (availableRowSeats requestedRowSeats : List Seat)
    (mapped : List MappedRowSeat)
    (hex : ∃ r ∈ requestedRowSeats, r.Num ∉ seatNums availableRowSeats) :
    mapAllRowSeatsForAvailability availableRowSeats requestedRowSeats ≠ .ok mapped := by
  unfold mapAllRowSeatsForAvailability
  split
  · simp only
    split
    · simp
    · exact markRequested_not_ok _ _ _ _ _ hex
  · simp

theorem mapAll_sorted_seatsCarried (availableRowSeats requestedRowSeats : List Seat)
    (mapped : List MappedRowSeat) (hne : availableRowSeats ≠ [])
    (hsorted : availableRowSeats.Pairwise (fun x y => x.Num ≤ y.Num))
    (hok : mapAllRowSeatsForAvailability availableRowSeats requestedRowSeats = .ok mapped) :
    SeatsCarried mapped := by
  have hreq : ∀ r ∈ requestedRowSeats, r.Num ∈ seatNums availableRowSeats := by
    intro r hr
    by_contra hn
    exact mapAll_not_ok_of_missing _ _ mapped ⟨r, hr, hn⟩ hok
  obtain ⟨mapped2, h1, _, h3⟩ := mapAll_nonempty_sorted availableRowSeats requestedRowSeats
    hne hsorted hreq
  rw [hok] at h1
  injection h1 with h1
  subst h1
  intro e he hrq
  obtain ⟨i, hi, hget⟩ := List.getElem_of_mem he
  rw [← hget, h3 i hi] at hrq ⊢
  by_cases hin : (availableRowSeats.head hne).Num + (i : Int) ∈ seatNums requestedRowSeats
  · rw [if_pos hin]
    obtain ⟨r, hr, hnum⟩ := mem_seatNums.mp hin
    have hav : (availableRowSeats.head hne).Num + (i : Int) ∈ seatNums availableRowSeats := by
      rw [← hnum]; exact hreq r hr
    obtain ⟨k, hk, _, _, hmap⟩ := mapSeatAt_present availableRowSeats _ i hav
    rw [hmap]
    simp [markedEntry]
  · rw [if_neg hin] at hrq
    exfalso
    by_cases hav : (availableRowSeats.head hne).Num + (i : Int) ∈ seatNums availableRowSeats
    · obtain ⟨k, hk, _, _, hmap⟩ := mapSeatAt_present availableRowSeats _ i hav
      rw [hmap] at hrq
      simp at hrq
    · rw [mapSeatAt_absent availableRowSeats _ i hav] at hrq
      simp at hrq

theorem checkMapped_ne_panic (rowSeats : List MappedRowSeat) (hc : SeatsCarried rowSeats) :
    checkMappedRowForFragmentation rowSeats ≠ .panic := by
  by_cases hex : ∃ p, fragmentedAt rowSeats p = true
  · obtain ⟨id, h⟩ := checkMapped_error rowSeats hc hex
    rw [h]; simp
  · have : checkMappedRowForFragmentation rowSeats = .ok () :=
      (checkMapped_ok_iff rowSeats).mpr (fun p => by
        by_contra hp
        exact hex ⟨p, by simpa using hp⟩)
    rw [this]; simp

/-- The loop over the rows does not panic when the available seats of every visited row are
a non-empty list sorted ascending by seat number. -/
theorem validateRows_ne_panic (belowTenth : Int → Int → Bool)
    (availMap : List (String × List Seat)) (restricted : List (String × String))
    (request : List (String × List (String × List Seat)))
    (availPC allPC : List (String × List SeatsPerPriceCategories)) :
    ∀ rows : List (String × List Seat),
      (∀ row ∈ rows, sliceAt availMap row.1 ≠ [] ∧
        (sliceAt availMap row.1).Pairwise (fun x y => x.Num ≤ y.Num)) →
      validateRows belowTenth availMap restricted request availPC allPC rows ≠ .panic := by
  intro rows
  induction rows with
  | nil => intro _; simp [validateRows]
  | cons row rest ih =>
    intro hall
    obtain ⟨rowID, seats⟩ := row
    have hrest := ih (fun x hx => hall x (List.mem_cons_of_mem _ hx))
    obtain ⟨hne, hsorted⟩ := hall (rowID, seats) (List.mem_cons_self _ _)
    simp only at hne hsorted
    rw [validateRows]
    cases hcheck : checkEventFullGroupOrderingRestriction rowID (sliceAt availMap rowID) seats
        restricted request with
    | error e => simp
    | panic => exact absurd hcheck (checkEvent_ne_panic _ _ _ _ _)
    | ok u =>
      simp only
      by_cases hskip : skipFragmentationCheck belowTenth seats availPC allPC = true
      · rw [if_pos hskip]; exact hrest
      · rw [if_neg hskip]
        cases hm : mapAllRowSeatsForAvailability (sliceAt availMap rowID) seats with
        | error e => simp
        | panic =>
          exfalso
          by_cases hreq : ∀ r ∈ seats, r.Num ∈ seatNums (sliceAt availMap rowID)
          · obtain ⟨mapped, hok, _⟩ := mapAll_nonempty_sorted (sliceAt availMap rowID) seats
              hne hsorted hreq
            rw [hm] at hok
            exact Outcome.noConfusion hok
          · have hex : ∃ r ∈ seats, r.Num ∉ seatNums (sliceAt availMap rowID) := by
              by_contra hc
              apply hreq
              intro r hr
              by_contra hn
              exact hc ⟨r, hr, hn⟩
            obtain ⟨num, _, _, herr⟩ := mapAll_error_of_unavailable (sliceAt availMap rowID)
              seats hne hsorted hex
            rw [hm] at herr
            exact Outcome.noConfusion herr
        | ok mapped =>
          simp only
          cases hc : checkMappedRowForFragmentation mapped with
          | error e => simp
          | panic =>
            exact absurd hc (checkMapped_ne_panic mapped
              (mapAll_sorted_seatsCarried _ _ mapped hne hsorted hm))
          | ok u2 => exact hrest

/-! ## The skip heuristic on a single price category -/

theorem requestedCount_pos_mem (req : List Seat) (pc : String)
    (h : requestedCount req pc ≠ 0) : ∃ s ∈ req, s.PriceCategoryID = some pc := by
  unfold requestedCount at h
  have h2 : 0 < req.countP (fun s => decide (s.PriceCategoryID = some pc)) := by
    rcases Nat.eq_zero_or_pos (req.countP (fun s => decide (s.PriceCategoryID = some pc))) with h0 | h0
    · rw [h0] at h; exact absurd rfl h
    · exact h0
  rcases List.countP_pos_iff.mp h2 with ⟨s, hs, hp⟩
  exact ⟨s, hs, by simpa using hp⟩

theorem triggersSkip_category (belowTenth : Int → Int → Bool) (req : List Seat)
    (all : List (String × List SeatsPerPriceCategories)) (v : SeatsPerPriceCategories)
    (h : triggersSkip belowTenth (countPriceCategories req []) all v = true) :
    ∃ pc, v.PriceCategoryID = some pc ∧ requestedCount req pc ≠ 0 := by
  unfold triggersSkip at h
  cases hv : v.PriceCategoryID with
  | none => rw [hv] at h; simp at h
  | some pc =>
    rw [hv] at h
    simp only at h
    rw [lookup_requested_counts] at h
    by_cases h0 : requestedCount req pc = 0
    · rw [if_pos h0] at h; simp at h
    · exact ⟨pc, rfl, h0⟩

theorem triggersSkip_of_category (belowTenth : Int → Int → Bool) (req : List Seat)
    (all : List (String × List SeatsPerPriceCategories)) (v : SeatsPerPriceCategories)
    (pc : String) (hv : v.PriceCategoryID = some pc) (h0 : requestedCount req pc ≠ 0) :
    triggersSkip belowTenth (countPriceCategories req []) all v =
      (belowTenth v.Count (getCountOfAllSplPriceCategorySeats all pc)
        || decide (requestedCount req pc = v.Count - 1)
        || decide (requestedCount req pc = v.Count)) := by
  unfold triggersSkip
  rw [hv]
  simp only
  rw [lookup_requested_counts, if_neg h0]

theorem getCount_of_single (all : List (String × List SeatsPerPriceCategories)) (pc : String)
    (vT : SeatsPerPriceCategories)
    (hT : (all.flatMap Prod.snd).filter (fun v => decide (v.PriceCategoryID = some pc)) = [vT]) :
    getCountOfAllSplPriceCategorySeats all pc = vT.Count := by
  have hmem : vT ∈ (all.flatMap Prod.snd).filter (fun v => decide (v.PriceCategoryID = some pc)) := by
    rw [hT]; exact List.mem_singleton.mpr rfl
  have hcat : vT.PriceCategoryID = some pc := by
    have := (List.mem_filter.mp hmem).2
    simpa using this
  rw [getCount_eq_findCount,
    ← findCountInPlan_filter pc (fun v => decide (v.PriceCategoryID = some pc))
      (fun v hv => by simp [hv]) (all.flatMap Prod.snd), hT]
  simp [findCountInPlan, hcat]

/-! ## Failing loaders -/

theorem loadRowsOfPlan_cases (s : Storage) (orgID : String)
    (request : List (String × List (String × List Seat))) (splID : String) :
    ∀ (rows : List (String × List Seat))
      (maps : List (String × List Seat) × List (String × List Seat)),
      ((∃ maps2, loadRowsOfPlan s orgID request splID rows maps = .ok maps2) ∧
        ∀ r ∈ rows, ∃ seats, s.GetRowSeatsBySeatingPlanID splID orgID r.1 = .ok seats) ∨
      (∃ r ∈ rows, ∃ c, s.GetRowSeatsBySeatingPlanID splID orgID r.1 = .error c ∧
        loadRowsOfPlan s orgID request splID rows maps = .error (.querySeats c)) := by
  intro rows
  induction rows with
  | nil => intro maps; exact Or.inl ⟨⟨maps, rfl⟩, fun r hr => absurd hr (List.not_mem_nil r)⟩
  | cons r rest ih =>
    intro maps
    obtain ⟨rowID, seats0⟩ := r
    obtain ⟨am, rm⟩ := maps
    cases hl : s.GetRowSeatsBySeatingPlanID splID orgID rowID with
    | error c =>
      refine Or.inr ⟨(rowID, seats0), List.mem_cons_self _ _, c, hl, ?_⟩
      simp only [loadRowsOfPlan, hl]
    | ok seatsForRow =>
      have hstep : loadRowsOfPlan s orgID request splID ((rowID, seats0) :: rest) (am, rm) =
          loadRowsOfPlan s orgID request splID rest
            (mapSet am rowID seatsForRow,
              mapSet rm rowID (sliceAt (rowsOfPlan request splID) rowID)) := by
        simp only [loadRowsOfPlan, hl]
      rw [hstep]
      rcases ih (mapSet am rowID seatsForRow,
          mapSet rm rowID (sliceAt (rowsOfPlan request splID) rowID)) with ⟨hok, hall⟩ | ⟨r, hr, c, hc, he⟩
      · refine Or.inl ⟨hok, ?_⟩
        intro r hr
        rcases List.mem_cons.mp hr with h | h
        · rw [h]; exact ⟨seatsForRow, hl⟩
        · exact hall r h
      · exact Or.inr ⟨r, List.mem_cons_of_mem _ hr, c, hc, he⟩

theorem loadPlans_cases (s : Storage) (orgID : String)
    (request : List (String × List (String × List Seat))) :
    ∀ (plans : List (String × List (String × List Seat)))
      (maps : List (String × List Seat) × List (String × List Seat)),
      ((∃ maps2, loadPlans s orgID request plans maps = .ok maps2) ∧
        ∀ p ∈ plans, ∀ r ∈ p.2, ∃ seats,
          s.GetRowSeatsBySeatingPlanID p.1 orgID r.1 = .ok seats) ∨
      (∃ p ∈ plans, ∃ r ∈ p.2, ∃ c, s.GetRowSeatsBySeatingPlanID p.1 orgID r.1 = .error c ∧
        loadPlans s orgID request plans maps = .error (.querySeats c)) := by
  intro plans
  induction plans with
  | nil => intro maps; exact Or.inl ⟨⟨maps, rfl⟩, fun p hp => absurd hp (List.not_mem_nil p)⟩
  | cons p rest ih =>
    intro maps
    obtain ⟨splID, rows⟩ := p
    rcases loadRowsOfPlan_cases s orgID request splID rows maps with
      ⟨⟨maps2, hok⟩, hall⟩ | ⟨r, hr, c, hc, he⟩
    · have hstep : loadPlans s orgID request ((splID, rows) :: rest) maps =
          loadPlans s orgID request rest maps2 := by
        simp only [loadPlans, hok]
      rw [hstep]
      rcases ih maps2 with ⟨hok2, hall2⟩ | ⟨p, hp, r, hr, c, hc, he⟩
      · refine Or.inl ⟨hok2, ?_⟩
        intro p hp
        rcases List.mem_cons.mp hp with h | h
        · rw [h]; exact hall
        · exact hall2 p h
      · exact Or.inr ⟨p, List.mem_cons_of_mem _ hp, r, hr, c, hc, he⟩
    · refine Or.inr ⟨(splID, rows), List.mem_cons_self _ _, r, hr, c, hc, ?_⟩
      simp only [loadPlans, he]

theorem loadPriceCategories_cases (s : Storage) (orgID : String) (onlyAvailable : Bool) :
    ∀ (plans : List (String × List (String × List Seat)))
      (m : List (String × List SeatsPerPriceCategories)),
      ((∃ m2, loadPriceCategories s orgID onlyAvailable plans m = .ok m2) ∧
        ∀ p ∈ plans, ∃ res,
          s.GetSeatsCountGroupedByPriceCategories p.1 orgID onlyAvailable = .ok res) ∨
      (∃ p ∈ plans, ∃ c,
        s.GetSeatsCountGroupedByPriceCategories p.1 orgID onlyAvailable = .error c ∧
        loadPriceCategories s orgID onlyAvailable plans m =
          .error (.querySeatsPriceCategories c)) := by
  intro plans
  induction plans with
  | nil => intro m; exact Or.inl ⟨⟨m, rfl⟩, fun p hp => absurd hp (List.not_mem_nil p)⟩
  | cons p rest ih =>
    intro m
    obtain ⟨splID, rows⟩ := p
    cases hl : s.GetSeatsCountGroupedByPriceCategories splID orgID onlyAvailable with
    | error c =>
      refine Or.inr ⟨(splID, rows), List.mem_cons_self _ _, c, hl, ?_⟩
      simp only [loadPriceCategories, hl]
    | ok res =>
      have hstep : loadPriceCategories s orgID onlyAvailable ((splID, rows) :: rest) m =
          loadPriceCategories s orgID onlyAvailable rest (mapSet m splID res) := by
        simp only [loadPriceCategories, hl]
      rw [hstep]
      rcases ih (mapSet m splID res) with ⟨hok, hall⟩ | ⟨p, hp, c, hc, he⟩
      · refine Or.inl ⟨hok, ?_⟩
        intro p hp
        rcases List.mem_cons.mp hp with h | h
        · rw [h]; exact ⟨res, hl⟩
        · exact hall p h
      · exact Or.inr ⟨p, List.mem_cons_of_mem _ hp, c, hc, he⟩

/-! ## The regrouped maps -/

theorem requestedRowsOf_keys (request : List (String × List (String × List Seat))) :
    (requestedRowsOf request).map Prod.fst = rowIDsOf request := by
  induction request with
  | nil => rfl
  | cons p rest ih =>
    unfold requestedRowsOf rowIDsOf at ih ⊢
    rw [List.flatMap_cons, List.flatMap_cons, List.map_append, ih]

theorem mem_requestedRowsOf (request : List (String × List (String × List Seat)))
    (p : String × List (String × List Seat)) (hp : p ∈ request)
    (r : String × List Seat) (hr : r ∈ p.2) : r ∈ requestedRowsOf request := by
  unfold requestedRowsOf
  exact List.mem_flatMap.mpr ⟨p, hp, hr⟩

theorem mem_loadedRowsOf (rowSeats : String → String → List Seat)
    (request : List (String × List (String × List Seat)))
    (p : String × List (String × List Seat)) (hp : p ∈ request)
    (r : String × List Seat) (hr : r ∈ p.2) :
    (r.1, rowSeats p.1 r.1) ∈ loadedRowsOf rowSeats request := by
  unfold loadedRowsOf
  exact List.mem_flatMap.mpr ⟨p, hp, List.mem_map.mpr ⟨r, hr, rfl⟩⟩

/-! ## The detector reads the indicators only -/

theorem map_isAvailable_of_indicators (row1 row2 : List MappedRowSeat)
    (h : row1.map (fun s => s.AvailabilityIndicator) =
      row2.map (fun s => s.AvailabilityIndicator)) :
    row1.map isAvailable = row2.map isAvailable := by
  have h1 : ∀ row : List MappedRowSeat, row.map isAvailable =
      (row.map (fun s => s.AvailabilityIndicator)).map (fun n => decide (n ≠ 0)) := by
    intro row
    rw [List.map_map]
    rfl
  rw [h1 row1, h1 row2, h]

theorem fragmentedAt_eq_of_map (rowSeats : List MappedRowSeat) (p : Nat) :
    fragmentedAt rowSeats p =
      match (rowSeats.map isAvailable)[p]? with
      | some a => !a && (lone (((rowSeats.map isAvailable).take p).reverse) ||
          lone ((rowSeats.map isAvailable).drop (p + 1)))
      | none => false := by
  unfold fragmentedAt leftView rightView
  rw [List.getElem?_map, List.map_reverse, List.map_take, List.map_drop]
  cases rowSeats[p]? <;> rfl

theorem fragmentedAt_congr (row1 row2 : List MappedRowSeat)
    (h : row1.map isAvailable = row2.map isAvailable) (p : Nat) :
    fragmentedAt row1 p = fragmentedAt row2 p := by
  rw [fragmentedAt_eq_of_map, fragmentedAt_eq_of_map, h]

theorem checkMapped_error_iff (rowSeats : List MappedRowSeat) (hc : SeatsCarried rowSeats) :
    (∃ id, checkMappedRowForFragmentation rowSeats = .error (.fragmentation id)) ↔
      ∃ p, fragmentedAt rowSeats p = true := by
  constructor
  · rintro ⟨id, hid⟩
    by_contra hno
    have hall : ∀ p, fragmentedAt rowSeats p = false := by
      intro p
      cases hf : fragmentedAt rowSeats p with
      | false => rfl
      | true => exact absurd ⟨p, hf⟩ hno
    rw [(checkMapped_ok_iff rowSeats).mpr hall] at hid
    cases hid
  · exact checkMapped_error rowSeats hc

/-! ## The seat named by a fragmentation error -/

theorem conflictAt_frag (entry : MappedRowSeat) (id : String)
    (h : conflictAt entry = .error (.fragmentation id)) :
    ∃ seat, entry.Seat = some seat ∧ seat.ID = id := by
  unfold conflictAt at h
  cases hs : entry.Seat with
  | none => rw [hs] at h; cases h
  | some seat =>
    rw [hs] at h
    simp only at h
    injection h with h1
    injection h1 with h2
    exact ⟨seat, rfl, h2⟩

theorem getAt_some {α : Type} (xs : List α) (i : Int) (x : α) (h : getAt xs i = some x) :
    xs[i.toNat]? = some x := by
  unfold getAt at h
  by_cases hneg : i < 0
  · rw [if_pos hneg] at h; cases h
  · rw [if_neg hneg] at h; exact h

theorem leftConflict_frag (rowSeats : List MappedRowSeat) (id : String) :
    ∀ k : Nat, leftConflict rowSeats k = .error (.fragmentation id) →
      id = "" ∨ ∃ (j : Nat) (entry : MappedRowSeat) (seat : Seat),
        rowSeats[j]? = some entry ∧ entry.RequestedForNow = true ∧
          entry.Seat = some seat ∧ seat.ID = id := by
  intro k
  induction k with
  | zero =>
    intro h
    unfold leftConflict at h
    injection h with h1
    injection h1 with h2
    exact Or.inl h2.symm
  | succ k ih =>
    intro h
    unfold leftConflict at h
    cases hcur : rowSeats[k + 1]? with
    | none => rw [hcur] at h; cases h
    | some cur =>
      rw [hcur] at h
      simp only at h
      by_cases hreq : cur.RequestedForNow = true
      · rw [if_pos hreq] at h
        cases hprev : rowSeats[k]? with
        | none => rw [hprev] at h; cases h
        | some prev =>
          rw [hprev] at h
          simp only at h
          by_cases hp : prev.RequestedForNow = true
          · rw [if_pos hp] at h
            rcases conflictAt_frag cur id h with ⟨seat, hs, hid⟩
            exact Or.inr ⟨k + 1, cur, seat, hcur, hreq, hs, hid⟩
          · rw [if_neg hp] at h
            exact ih h
      · rw [if_neg hreq] at h
        exact ih h

theorem rightConflict_frag (rowSeats : List MappedRowSeat) (id : String) :
    ∀ (n : Nat) (k : Int), rightConflict rowSeats n k = .error (.fragmentation id) →
      id = "" ∨ ∃ (j : Nat) (entry : MappedRowSeat) (seat : Seat),
        rowSeats[j]? = some entry ∧ entry.RequestedForNow = true ∧
          entry.Seat = some seat ∧ seat.ID = id := by
  intro n
  induction n with
  | zero =>
    intro k h
    unfold rightConflict at h
    injection h with h1
    injection h1 with h2
    exact Or.inl h2.symm
  | succ n ih =>
    intro k h
    unfold rightConflict at h
    cases hcur : getAt rowSeats k with
    | none => rw [hcur] at h; cases h
    | some cur =>
      rw [hcur] at h
      simp only at h
      by_cases hreq : cur.RequestedForNow = true
      · rw [if_pos hreq] at h
        cases hnext : getAt rowSeats (k + 1) with
        | none => rw [hnext] at h; cases h
        | some next =>
          rw [hnext] at h
          simp only at h
          by_cases hp : (!next.RequestedForNow) = true
          · rw [if_pos hp] at h
            rcases conflictAt_frag cur id h with ⟨seat, hs, hid⟩
            exact Or.inr ⟨k.toNat, cur, seat, getAt_some rowSeats k cur hcur, hreq, hs, hid⟩
          · rw [if_neg hp] at h
            exact ih (k + 1) h
      · rw [if_neg hreq] at h
        exact ih (k + 1) h

theorem leftLoop_ne_error (i : Int) (rowSeats : List MappedRowSeat) (e : SeatRuleError) :
    ∀ (remaining : Nat) (j movesCount : Int) (start : Bool) (spaces : Int),
      leftLoop i rowSeats remaining j movesCount start spaces ≠ .error e := by
  intro remaining
  induction remaining with
  | zero => intro j movesCount start spaces h; unfold leftLoop at h; cases h
  | succ n ih =>
    intro j movesCount start spaces h
    unfold leftLoop at h
    split at h
    · cases h
    · split at h
      · cases h
      · split at h
        · exact ih _ _ _ _ h
        · split at h
          · exact ih _ _ _ _ h
          · exact ih _ _ _ _ h

theorem rightLoop_ne_error (i : Int) (rowSeats : List MappedRowSeat) (e : SeatRuleError) :
    ∀ (remaining : Nat) (j movesCount : Int) (start : Bool) (spaces : Int),
      rightLoop i rowSeats remaining j movesCount start spaces ≠ .error e := by
  intro remaining
  induction remaining with
  | zero => intro j movesCount start spaces h; unfold rightLoop at h; cases h
  | succ n ih =>
    intro j movesCount start spaces h
    unfold rightLoop at h
    split at h
    · cases h
    · split at h
      · cases h
      · split at h
        · exact ih _ _ _ _ h
        · split at h
          · exact ih _ _ _ _ h
          · exact ih _ _ _ _ h

theorem requestedAt_eq (rowSeats : List MappedRowSeat) (k : Nat) (hk : k < rowSeats.length) :
    requestedAt rowSeats k = rowSeats[k].RequestedForNow := by
  unfold requestedAt
  rw [List.getElem?_eq_getElem hk]

theorem seatAt_eq (rowSeats : List MappedRowSeat) (k : Nat) (hk : k < rowSeats.length) :
    seatAt rowSeats k = rowSeats[k].Seat := by
  unfold seatAt
  rw [List.getElem?_eq_getElem hk]

theorem conflictAt_of_seat (entry : MappedRowSeat) (seat : Seat) (h : entry.Seat = some seat) :
    conflictAt entry = .error (.fragmentation seat.ID) := by
  unfold conflictAt
  rw [h]

theorem leftConflict_step (rowSeats : List MappedRowSeat) (k : Nat)
    (hk : k + 1 < rowSeats.length) :
    leftConflict rowSeats (k + 1) =
      if requestedAt rowSeats (k + 1) = true ∧ requestedAt rowSeats k = true then
        conflictAt rowSeats[k + 1]
      else leftConflict rowSeats k := by
  have hk0 : k < rowSeats.length := by omega
  rw [leftConflict, List.getElem?_eq_getElem hk, List.getElem?_eq_getElem hk0,
    requestedAt_eq rowSeats (k + 1) hk, requestedAt_eq rowSeats k hk0]
  by_cases h1 : rowSeats[k + 1].RequestedForNow = true
  · by_cases h2 : rowSeats[k].RequestedForNow = true
    · simp [h1, h2]
    · simp [h1, h2]
  · simp [h1]

theorem rightConflict_step (rowSeats : List MappedRowSeat) (n k : Nat)
    (hk : k + 1 < rowSeats.length) :
    rightConflict rowSeats (n + 1) (k : Int) =
      if requestedAt rowSeats k = true ∧ requestedAt rowSeats (k + 1) = false then
        conflictAt rowSeats[k]
      else rightConflict rowSeats n ((k + 1 : Nat) : Int) := by
  have hk0 : k < rowSeats.length := by omega
  have e1 : getAt rowSeats (k : Int) = some rowSeats[k] := by
    rw [getAt_natCast, List.getElem?_eq_getElem hk0]
  have hcast : ((k : Int) + 1) = ((k + 1 : Nat) : Int) := by push_cast; rfl
  have e2 : getAt rowSeats ((k : Int) + 1) = some rowSeats[k + 1] := by
    rw [hcast, getAt_natCast, List.getElem?_eq_getElem hk]
  rw [rightConflict, e1, e2, requestedAt_eq rowSeats (k + 1) hk, requestedAt_eq rowSeats k hk0,
    hcast]
  by_cases h1 : rowSeats[k].RequestedForNow = true
  · by_cases h2 : rowSeats[k + 1].RequestedForNow = true
    · simp [h1, h2]
    · simp [h1, h2]
  · simp [h1]

theorem leftConflict_at_pair (rowSeats : List MappedRowSeat) (m : Nat) (hm : m < rowSeats.length)
    (hm1 : 1 ≤ m)
    (hpair : requestedAt rowSeats m = true ∧ requestedAt rowSeats (m - 1) = true) :
    ∀ k, k < rowSeats.length → m ≤ k →
      (∀ t, m < t → t ≤ k →
        ¬(requestedAt rowSeats t = true ∧ requestedAt rowSeats (t - 1) = true)) →
      leftConflict rowSeats k = conflictAt rowSeats[m] := by
  intro k
  induction k with
  | zero => intro _ hmk; omega
  | succ k ih =>
    intro hk hmk hfirst
    rw [leftConflict_step rowSeats k hk]
    by_cases he : m = k + 1
    · subst he
      rw [if_pos (by simpa using hpair)]
    · have hno := hfirst (k + 1) (by omega) (Nat.le_refl _)
      rw [if_neg (by simpa using hno)]
      exact ih (by omega) (by omega) (fun t ht1 ht2 => hfirst t ht1 (by omega))

theorem leftConflict_no_pair (rowSeats : List MappedRowSeat) :
    ∀ k, k < rowSeats.length →
      (∀ t, 1 ≤ t → t ≤ k →
        ¬(requestedAt rowSeats t = true ∧ requestedAt rowSeats (t - 1) = true)) →
      leftConflict rowSeats k = .error (.fragmentation "") := by
  intro k
  induction k with
  | zero => intro _ _; rfl
  | succ k ih =>
    intro hk hno
    rw [leftConflict_step rowSeats k hk]
    have h1 := hno (k + 1) (by omega) (Nat.le_refl _)
    rw [if_neg (by simpa using h1)]
    exact ih (by omega) (fun t ht1 ht2 => hno t ht1 (by omega))

theorem rightConflict_at_edge (rowSeats : List MappedRowSeat) (m : Nat)
    (hm0 : m < rowSeats.length) (hm : m + 1 < rowSeats.length)
    (hedge : requestedAt rowSeats m = true ∧ requestedAt rowSeats (m + 1) = false) :
    ∀ (n k : Nat), k + n + 1 = rowSeats.length → k ≤ m →
      (∀ t, k ≤ t → t < m →
        ¬(requestedAt rowSeats t = true ∧ requestedAt rowSeats (t + 1) = false)) →
      rightConflict rowSeats n (k : Int) = conflictAt rowSeats[m] := by
  intro n
  induction n with
  | zero => intro k hk hkm; omega
  | succ n ih =>
    intro k hk hkm hfirst
    rw [rightConflict_step rowSeats n k (by omega)]
    by_cases he : k = m
    · subst he
      rw [if_pos hedge]
    · have hno := hfirst k (Nat.le_refl _) (by omega)
      rw [if_neg hno]
      exact ih (k + 1) (by omega) (by omega) (fun t ht1 ht2 => hfirst t (by omega) ht2)

theorem rightConflict_no_edge (rowSeats : List MappedRowSeat) :
    ∀ (n k : Nat), k + n + 1 = rowSeats.length →
      (∀ t, k ≤ t → t + 1 < rowSeats.length →
        ¬(requestedAt rowSeats t = true ∧ requestedAt rowSeats (t + 1) = false)) →
      rightConflict rowSeats n (k : Int) = .error (.fragmentation "") := by
  intro n
  induction n with
  | zero => intro _ _ _; rfl
  | succ n ih =>
    intro k hk hno
    rw [rightConflict_step rowSeats n k (by omega)]
    rw [if_neg (hno k (Nat.le_refl _) (by omega))]
    exact ih (k + 1) (by omega) (fun t ht1 ht2 => hno t (by omega) ht2)

/-! ## Checking the starts of unavailable runs only -/

theorem fragmentationCheck_ok_of_not_fragmented (rowSeats : List MappedRowSeat) (i : Nat)
    (hi : i < rowSeats.length) (hu : isAvailable rowSeats[i] = false)
    (hf : fragmentedAt rowSeats i = false) :
    fragmentationCheck (i : Int) rowSeats = .ok () := by
  unfold fragmentedAt at hf
  rw [List.getElem?_eq_getElem hi] at hf
  simp only [hu, Bool.not_false, Bool.true_and, Bool.or_eq_false_iff] at hf
  rw [fragmentationCheck_eq rowSeats i hi, hf.1, hf.2]
  simp

theorem checkAtIndices_all_ok (rowSeats : List MappedRowSeat) :
    ∀ l : List Nat, (∀ i ∈ l, fragmentationCheck (i : Int) rowSeats = .ok ()) →
      checkAtIndices rowSeats l = .ok () := by
  intro l
  induction l with
  | nil => intro _; rfl
  | cons i rest ih =>
    intro h
    rw [checkAtIndices, h i (List.mem_cons_self _ _)]
    exact ih (fun j hj => h j (List.mem_cons_of_mem _ hj))

theorem checkAtIndices_first (rowSeats : List MappedRowSeat) (p : Nat) (t : List Nat)
    (hp : fragmentationCheck (p : Int) rowSeats ≠ .ok ()) :
    ∀ s : List Nat, (∀ i ∈ s, fragmentationCheck (i : Int) rowSeats = .ok ()) →
      checkAtIndices rowSeats (s ++ p :: t) = fragmentationCheck (p : Int) rowSeats := by
  intro s
  induction s with
  | nil =>
    intro _
    rw [List.nil_append, checkAtIndices]
    cases hfc : fragmentationCheck (p : Int) rowSeats with
    | ok u => exact absurd hfc hp
    | error e => rfl
    | panic => rfl
  | cons i rest ih =>
    intro h
    rw [List.cons_append, checkAtIndices, h i (List.mem_cons_self _ _)]
    exact ih (fun j hj => h j (List.mem_cons_of_mem _ hj))

theorem availableAt_of_lt (rowSeats : List MappedRowSeat) (i : Nat) (hi : i < rowSeats.length) :
    availableAt rowSeats (i : Int) = isAvailable rowSeats[i] := by
  rw [availableAt_natCast, List.getElem?_eq_getElem hi]
  rfl

theorem leftView_succ (rowSeats : List MappedRowSeat) (q : Nat) (hq : q < rowSeats.length) :
    leftView rowSeats (q + 1) = isAvailable rowSeats[q] :: leftView rowSeats q := by
  unfold leftView
  rw [List.take_succ, List.getElem?_eq_getElem hq]
  simp only [Option.toList, List.reverse_append, List.reverse_cons, List.reverse_nil,
    List.nil_append, List.singleton_append, List.map_cons]

theorem rightView_pred (rowSeats : List MappedRowSeat) (q : Nat)
    (hq : q + 1 < rowSeats.length) :
    rightView rowSeats q = isAvailable rowSeats[q + 1] :: rightView rowSeats (q + 1) := by
  unfold rightView
  rw [List.drop_eq_getElem_cons hq]
  simp only [List.map_cons]

theorem first_fragmented_starts_run (rowSeats : List MappedRowSeat) (p : Nat)
    (hp : fragmentedAt rowSeats p = true)
    (hfirst : ∀ q, q < p → fragmentedAt rowSeats q = false) :
    startsUnavailableRun rowSeats p = true := by
  rcases fragmentedAt_true rowSeats p hp with ⟨hlen, hu, hl⟩
  unfold startsUnavailableRun
  rw [availableAt_of_lt rowSeats p hlen, hu]
  simp only [Bool.not_false, Bool.true_and, Bool.or_eq_true, decide_eq_true_eq]
  by_cases h0 : p = 0
  · exact Or.inl h0
  · right
    obtain ⟨q, rfl⟩ : ∃ q, p = q + 1 := ⟨p - 1, by omega⟩
    have hq : q < rowSeats.length := by omega
    have hcast : (((q + 1 : Nat) : Int) - 1) = (q : Int) := by push_cast; ring
    rw [hcast, availableAt_of_lt rowSeats q hq]
    cases hav : isAvailable rowSeats[q] with
    | true => rfl
    | false =>
      exfalso
      have hfq := hfirst q (by omega)
      have : fragmentedAt rowSeats q = true := by
        apply fragmentedAt_intro rowSeats q hq hav
        rw [leftView_succ rowSeats q hq, hav] at hl
        rw [rightView_pred rowSeats q hlen, hu]
        simpa [lone] using hl
      rw [this] at hfq
      cases hfq

theorem run_starts_of_rowOneTwoThree :
    (List.range rowOneTwoThree.length).filter (startsUnavailableRun rowOneTwoThree) = [1] := by
  decide

/-! ## Rows without an available position -/

theorem lone_false_of_all_false : ∀ l : List Bool, (∀ a ∈ l, a = false) → lone l = false := by
  intro l
  induction l with
  | nil => intro _; rfl
  | cons a rest ih =>
    intro h
    have ha := h a (List.mem_cons_self _ _)
    subst ha
    simp only [lone]
    exact ih (fun b hb => h b (List.mem_cons_of_mem _ hb))

theorem checkMapped_ok_of_all_unavailable (rowSeats : List MappedRowSeat)
    (h : ∀ e ∈ rowSeats, e.AvailabilityIndicator = 0) :
    checkMappedRowForFragmentation rowSeats = .ok () := by
  have hav : ∀ e ∈ rowSeats, isAvailable e = false := by
    intro e he
    unfold isAvailable
    rw [h e he]
    decide
  rw [checkMapped_ok_iff]
  intro p
  unfold fragmentedAt
  cases hp : rowSeats[p]? with
  | none => rfl
  | some s =>
    simp only
    have hl : lone (leftView rowSeats p) = false := by
      apply lone_false_of_all_false
      intro a ha
      unfold leftView at ha
      rcases List.mem_map.mp ha with ⟨e, he, rfl⟩
      exact hav e (List.mem_of_mem_take (List.mem_reverse.mp he))
    have hr : lone (rightView rowSeats p) = false := by
      apply lone_false_of_all_false
      intro a ha
      unfold rightView at ha
      rcases List.mem_map.mp ha with ⟨e, he, rfl⟩
      exact hav e (List.mem_of_mem_drop he)
    rw [hl, hr]
    simp

theorem seatNums_subset_of_whole_row (availableRowSeats requestedRowSeats : List Seat)
    (hdistinct : (seatNums requestedRowSeats).Nodup)
    (hamong : ∀ r ∈ requestedRowSeats, r.Num ∈ seatNums availableRowSeats)
    (hcount : requestedRowSeats.length = availableRowSeats.length) :
    ∀ num, num ∈ seatNums availableRowSeats → num ∈ seatNums requestedRowSeats := by
  have hsub : seatNums requestedRowSeats ⊆ seatNums availableRowSeats := by
    intro num hnum
    rcases mem_seatNums.mp hnum with ⟨r, hr, rfl⟩
    exact hamong r hr
  have hperm : (seatNums requestedRowSeats).Perm (seatNums availableRowSeats) :=
    (List.subperm_of_subset hdistinct hsub).perm_of_length_le
      (by unfold seatNums; rw [List.length_map, List.length_map, hcount])
  intro num hnum
  exact hperm.mem_iff.mpr hnum

/-- The loop run after a violation on the left side, as the code has it: it reports the seat
at the first position `k` from `i` downwards (`1 <= k <= i`) with positions `k` and `k-1`
both requested now, and no seat id when there is no such position. -/
theorem left_conflict_attribution (rowSeats : List MappedRowSeat) (i : Nat)
    (hi : i < rowSeats.length) (hleft : lone (leftView rowSeats i) = true) :
    (∀ (k : Nat) (seat : Seat), 1 ≤ k → k ≤ i →
      requestedAt rowSeats k = true → requestedAt rowSeats (k - 1) = true →
      (∀ t, k < t → t ≤ i →
        ¬(requestedAt rowSeats t = true ∧ requestedAt rowSeats (t - 1) = true)) →
      seatAt rowSeats k = some seat →
      fragmentationCheck (i : Int) rowSeats = .error (.fragmentation seat.ID)) ∧
    ((∀ t, 1 ≤ t → t ≤ i →
        ¬(requestedAt rowSeats t = true ∧ requestedAt rowSeats (t - 1) = true)) →
      fragmentationCheck (i : Int) rowSeats = .error (.fragmentation "")) := by
  have hfc : fragmentationCheck (i : Int) rowSeats = leftConflict rowSeats i := by
    rw [fragmentationCheck_eq rowSeats i hi, if_pos hleft]
  constructor
  · intro k seat hk1 hki hr1 hr2 hfirst hseat
    have hk : k < rowSeats.length := by omega
    rw [hfc, leftConflict_at_pair rowSeats k hk hk1 ⟨hr1, hr2⟩ i hi hki hfirst]
    rw [seatAt_eq rowSeats k hk] at hseat
    exact conflictAt_of_seat _ seat hseat
  · intro hno
    rw [hfc]
    exact leftConflict_no_pair rowSeats i hi hno

theorem left_conflict_attribution_example :
    fragmentationCheck ((3 : Nat) : Int) rowPairThenLone = .error (.fragmentation "b") :=
  (left_conflict_attribution rowPairThenLone 3 (by decide) (by decide)).1 1
    { ID := "b", Num := 2, PriceCategoryID := none }
    (by decide) (by decide) (by decide) (by decide)
    (fun t ht1 ht2 => by
      have h0 : t = 2 ∨ t = 3 := by omega
      rcases h0 with h0 | h0 <;> subst h0 <;> decide)
    (by decide)

/-! ## The status code through the steps of `seatToUpdateParams` -/

theorem ifSet_StatusCode {α : Type} (ptr : Option α)
    (body : α → UpdateSeatParams → UpdateSeatParams) (params : UpdateSeatParams)
    (h : ∀ v p, (body v p).StatusCode = p.StatusCode) :
    (ifSet ptr body params).StatusCode = params.StatusCode := by
  cases ptr with
  | none => rfl
  | some v => exact h v params

theorem ifSet_SetStatusCode {α : Type} (ptr : Option α)
    (body : α → UpdateSeatParams → UpdateSeatParams) (params : UpdateSeatParams)
    (h : ∀ v p, (body v p).SetStatusCode = p.SetStatusCode) :
    (ifSet ptr body params).SetStatusCode = params.SetStatusCode := by
  cases ptr with
  | none => rfl
  | some v => exact h v params

theorem ifSet_some {α : Type} (value : α)
    (body : α → UpdateSeatParams → UpdateSeatParams) (params : UpdateSeatParams) :
    ifSet (some value) body params = body value params := rfl

theorem ifSet_none {α : Type}
    (body : α → UpdateSeatParams → UpdateSeatParams) (params : UpdateSeatParams) :
    ifSet (none : Option α) body params = params := rfl

/-! ## The invariant of the mapper -/

theorem getAt_nonneg {α : Type} (xs : List α) (i : Int) (x : α) (h : getAt xs i = some x) :
    0 ≤ i := by
  unfold getAt at h
  by_cases hneg : i < 0
  · rw [if_pos hneg] at h; cases h
  · omega

theorem mapSeatAt_wellFormed (availableRowSeats : List Seat) (first : Int) (i : Nat) :
    EntryWellFormed availableRowSeats first i (mapSeatAt availableRowSeats first i) := by
  by_cases h : first + (i : Int) ∈ seatNums availableRowSeats
  · obtain ⟨k, hk, _, _, hmap⟩ := mapSeatAt_present availableRowSeats first i h
    rw [hmap]
    refine ⟨fun _ => by simp, fun hr => by simp at hr, fun _ => by simp⟩
  · rw [mapSeatAt_absent availableRowSeats first i h]
    refine ⟨fun hin => absurd hin h, fun hr => by simp at hr, fun hi => by simp at hi⟩

theorem markRequested_wellFormed (availableRowSeats : List Seat) (first : Int) :
    ∀ (requestedRowSeats : List Seat) (allRowSeats result : List MappedRowSeat),
      (∀ (i : Nat) (e : MappedRowSeat), allRowSeats[i]? = some e →
        EntryWellFormed availableRowSeats first i e) →
      markRequested availableRowSeats first requestedRowSeats allRowSeats = .ok result →
      ∀ (i : Nat) (e : MappedRowSeat), result[i]? = some e →
        EntryWellFormed availableRowSeats first i e := by
  intro requestedRowSeats
  induction requestedRowSeats with
  | nil =>
    intro allRowSeats result hinv hok
    unfold markRequested at hok
    injection hok with hok
    subst hok
    exact hinv
  | cons r rest ih =>
    intro allRowSeats result hinv hok
    unfold markRequested at hok
    by_cases hidx : indexOfRowSeat availableRowSeats r.Num = -1
    · rw [if_pos hidx] at hok; cases hok
    · rw [if_neg hidx] at hok
      have hmem : r.Num ∈ seatNums availableRowSeats := by
        by_contra hn
        exact hidx ((indexOfRowSeat_eq_neg_one_iff availableRowSeats r.Num).mpr hn)
      cases hget : getAt allRowSeats (r.Num - first) with
      | none => rw [hget] at hok; cases hok
      | some entry =>
        rw [hget] at hok
        simp only at hok
        have hnn := getAt_nonneg allRowSeats _ entry hget
        have hk := getAt_some allRowSeats _ entry hget
        have hcast : first + (((r.Num - first).toNat : Nat) : Int) = r.Num := by
          rw [Int.toNat_of_nonneg hnn]; ring
        have hentry := hinv _ entry hk
        apply ih _ result ?_ hok
        intro i e hi
        rw [List.getElem?_set] at hi
        by_cases hik : (r.Num - first).toNat = i
        · rw [if_pos hik] at hi
          by_cases hlen : (r.Num - first).toNat < allRowSeats.length
          · rw [if_pos hlen] at hi
            injection hi with hi
            subst hi
            subst hik
            have hseat : entry.Seat ≠ none := hentry.1 (by rw [hcast]; exact hmem)
            exact ⟨fun _ => hseat, fun _ => ⟨rfl, hseat⟩, fun h1 => by simp at h1⟩
          · rw [if_neg hlen] at hi; cases hi
        · rw [if_neg hik] at hi
          exact hinv i e hi

theorem mapAll_wellFormed (availableRowSeats requestedRowSeats : List Seat)
    (mapped : List MappedRowSeat)
    (hok : mapAllRowSeatsForAvailability availableRowSeats requestedRowSeats = .ok mapped) :
    ∀ e ∈ mapped,
      (e.RequestedForNow = true → e.AvailabilityIndicator = 0 ∧ e.Seat ≠ none) ∧
      (e.AvailabilityIndicator = 1 → e.RequestedForNow = false ∧ e.Seat ≠ none) := by
  unfold mapAllRowSeatsForAvailability at hok
  cases hl : availableRowSeats.getLast? with
  | none => rw [hl] at hok; cases hok
  | some lastSeat =>
    cases hf : availableRowSeats.head? with
    | none => rw [hl, hf] at hok; cases hok
    | some firstSeat =>
      rw [hl, hf] at hok
      simp only at hok
      by_cases hsize : lastSeat.Num - firstSeat.Num + 1 < 0
      · rw [if_pos hsize] at hok; cases hok
      · rw [if_neg hsize] at hok
        have hinv := markRequested_wellFormed availableRowSeats firstSeat.Num requestedRowSeats
          _ mapped (by
            intro i e hi
            rw [List.getElem?_map] at hi
            cases hr : (List.range (lastSeat.Num - firstSeat.Num + 1).toNat)[i]? with
            | none => rw [hr] at hi; cases hi
            | some m =>
              rw [hr] at hi
              have hm : m = i := by
                have hlt : i < (List.range (lastSeat.Num - firstSeat.Num + 1).toNat).length := by
                  by_contra hge
                  rw [List.getElem?_eq_none (by omega)] at hr
                  cases hr
                rw [List.length_range] at hlt
                rw [List.getElem?_range hlt] at hr
                injection hr with hr
                exact hr.symm
              subst hm
              simp only [Option.map_some'] at hi
              injection hi with hi
              subst hi
              exact mapSeatAt_wellFormed availableRowSeats firstSeat.Num m) hok
        intro e he
        obtain ⟨i, hi, hget⟩ := List.getElem_of_mem he
        have := hinv i e (by rw [List.getElem?_eq_getElem hi, hget])
        exact this.2

theorem seatsCarried_of_wellFormed (rowSeats : List MappedRowSeat)
    (h : ∀ e ∈ rowSeats,
      (e.RequestedForNow = true → e.AvailabilityIndicator = 0 ∧ e.Seat ≠ none) ∧
      (e.AvailabilityIndicator = 1 → e.RequestedForNow = false ∧ e.Seat ≠ none)) :
    SeatsCarried rowSeats :=
  fun e he hr => ((h e he).1 hr).2

theorem fragmentationCheck_ne_panic (rowSeats : List MappedRowSeat)
    (hc : SeatsCarried rowSeats) (i : Nat) (hi : i < rowSeats.length) :
    fragmentationCheck (i : Int) rowSeats ≠ .panic := by
  rw [fragmentationCheck_eq rowSeats i hi]
  by_cases hl : lone (leftView rowSeats i) = true
  · rw [if_pos hl]
    obtain ⟨id, hid⟩ := leftConflict_error rowSeats hc i hi
    rw [hid]
    intro h; cases h
  · rw [if_neg hl]
    by_cases hr : lone (rightView rowSeats i) = true
    · rw [if_pos hr]
      obtain ⟨id, hid⟩ := rightConflict_error rowSeats hc (rowSeats.length - 1 - i) i (by omega)
      rw [hid]
      intro h; cases h
    · rw [if_neg hr]
      intro h; cases h

/-! ## The mapper after the group-ordering check -/

theorem checkEvent_ok_length_le (rowID : String) (avail req : List Seat)
    (restricted : List (String × String))
    (request : List (String × List (String × List Seat)))
    (h : checkEventFullGroupOrderingRestriction rowID avail req restricted request = .ok ()) :
    req.length ≤ avail.length := by
  unfold checkEventFullGroupOrderingRestriction at h
  by_cases hover : req.length > avail.length
  · rw [if_pos hover] at h; cases h
  · omega

theorem mapAll_ne_panic_of_sorted (availableRowSeats requestedRowSeats : List Seat)
    (hne : availableRowSeats ≠ [])
    (hsorted : availableRowSeats.Pairwise (fun x y => x.Num ≤ y.Num)) :
    mapAllRowSeatsForAvailability availableRowSeats requestedRowSeats ≠ .panic := by
  by_cases hall : ∀ r ∈ requestedRowSeats, r.Num ∈ seatNums availableRowSeats
  · obtain ⟨mapped, hok, _, _⟩ :=
      mapAll_nonempty_sorted availableRowSeats requestedRowSeats hne hsorted hall
    rw [hok]
    intro h; cases h
  · have hex : ∃ r ∈ requestedRowSeats, r.Num ∉ seatNums availableRowSeats := by
      by_contra hno
      apply hall
      intro r hr
      by_contra hn
      exact hno ⟨r, hr, hn⟩
    obtain ⟨num, _, _, herr⟩ :=
      mapAll_error_of_unavailable availableRowSeats requestedRowSeats hne hsorted hex
    rw [herr]
    intro h; cases h

/-! ## The mapper over the integers: position states, length and errors -/

/-- The mapper over the integers on a non-empty available list sorted ascending by seat
number with unique numbers, the requested numbers all occurring in it: it succeeds and
position `i` of its result describes seat number (first available number + `i`). -/
theorem position_states_over_int (availableRowSeats requestedRowSeats : List Seat)
    (hne : availableRowSeats ≠ [])
    (hsorted : availableRowSeats.Pairwise (fun x y => x.Num ≤ y.Num))
    (huniq : (seatNums availableRowSeats).Nodup)
    (hreq : ∀ r ∈ requestedRowSeats, r.Num ∈ seatNums availableRowSeats) :
    ∃ mapped, mapAllRowSeatsForAvailability availableRowSeats requestedRowSeats = .ok mapped ∧
      ∀ (i : Nat) (hi : i < mapped.length),
        ((availableRowSeats.head hne).Num + (i : Int) ∈ seatNums availableRowSeats →
          (availableRowSeats.head hne).Num + (i : Int) ∉ seatNums requestedRowSeats →
            mapped[i].AvailabilityIndicator = 1 ∧ mapped[i].RequestedForNow = false ∧
            ∀ seat ∈ availableRowSeats,
              seat.Num = (availableRowSeats.head hne).Num + (i : Int) →
                mapped[i].Seat = some seat) ∧
        ((availableRowSeats.head hne).Num + (i : Int) ∉ seatNums availableRowSeats →
            mapped[i].AvailabilityIndicator = 0 ∧ mapped[i].RequestedForNow = false ∧
            mapped[i].Seat = none) ∧
        ((availableRowSeats.head hne).Num + (i : Int) ∈ seatNums availableRowSeats →
          (availableRowSeats.head hne).Num + (i : Int) ∈ seatNums requestedRowSeats →
            mapped[i].AvailabilityIndicator = 0 ∧ mapped[i].RequestedForNow = true) := by
  obtain ⟨mapped, h1, _, h3⟩ := mapAll_nonempty_sorted availableRowSeats requestedRowSeats
    hne hsorted hreq
  refine ⟨mapped, h1, ?_⟩
  intro i hi
  rw [h3 i hi]
  refine ⟨?_, ?_, ?_⟩
  · intro hav hnr
    rw [if_neg hnr]
    obtain ⟨k, hk, hnum, _, hmap⟩ := mapSeatAt_present availableRowSeats _ i hav
    rw [hmap]
    refine ⟨rfl, rfl, ?_⟩
    intro seat hseat hsn
    have hinj := List.inj_on_of_nodup_map huniq
    have : availableRowSeats[k] = seat :=
      hinj (List.getElem_mem _) hseat (by rw [hnum, hsn])
    rw [this]
  · intro hna
    have hnr : (availableRowSeats.head hne).Num + (i : Int) ∉ seatNums requestedRowSeats := by
      intro hr
      obtain ⟨r, hr1, hr2⟩ := mem_seatNums.mp hr
      exact hna (hr2 ▸ hreq r hr1)
    rw [if_neg hnr, mapSeatAt_absent availableRowSeats _ i hna]
    exact ⟨rfl, rfl, rfl⟩
  · intro _ hr
    rw [if_pos hr]
    exact ⟨rfl, rfl⟩

/-- The mapper over the integers on a non-empty list of available seats sorted ascending by
seat number and a requested subset of it: the result has length (largest available number -
smallest available number + 1), and a seat carried at position `i` has number (smallest
available number + `i`). -/
theorem length_sorted_over_int (availableRowSeats requestedRowSeats : List Seat)
    (hne : availableRowSeats ≠ [])
    (hsorted : availableRowSeats.Pairwise (fun x y => x.Num ≤ y.Num))
    (hsub : ∀ r ∈ requestedRowSeats, r ∈ availableRowSeats) :
    ∃ mapped, mapAllRowSeatsForAvailability availableRowSeats requestedRowSeats = .ok mapped ∧
      (mapped.length : Int) =
        largestNum availableRowSeats - smallestNum availableRowSeats + 1 ∧
      ∀ (i : Nat) (hi : i < mapped.length) (seat : Seat), mapped[i].Seat = some seat →
        seat.Num = smallestNum availableRowSeats + (i : Int) := by
  obtain ⟨mapped, h1, h2, h3⟩ := mapAll_nonempty_sorted availableRowSeats requestedRowSeats
    hne hsorted (fun r hr => mem_seatNums.mpr ⟨r, hsub r hr, rfl⟩)
  have hs := smallestNum_sorted availableRowSeats _ hsorted (List.head?_eq_head hne)
  have hl := largestNum_sorted availableRowSeats _ hsorted (List.getLast?_eq_getLast _ hne)
  refine ⟨mapped, h1, by rw [hs, hl]; exact h2, ?_⟩
  intro i hi seat hseat
  rw [h3 i hi] at hseat
  rw [hs]
  have hseat2 : (mapSeatAt availableRowSeats (availableRowSeats.head hne).Num i).Seat =
      some seat := by
    split at hseat
    · exact hseat
    · exact hseat
  exact (mapped_entry_seat availableRowSeats _ i seat hseat2).2.1

/-- The mapper over the integers on a non-empty available list sorted ascending by seat
number: it returns an error exactly when some requested seat has a number that does not
occur among the available seats, otherwise a mapped sequence. -/
theorem error_iff_over_int (availableRowSeats requestedRowSeats : List Seat)
    (hne : availableRowSeats ≠ [])
    (hsorted : availableRowSeats.Pairwise (fun x y => x.Num ≤ y.Num)) :
    ((∃ e, mapAllRowSeatsForAvailability availableRowSeats requestedRowSeats = .error e) ↔
        ∃ r ∈ requestedRowSeats, r.Num ∉ seatNums availableRowSeats) ∧
      ((∃ mapped, mapAllRowSeatsForAvailability availableRowSeats requestedRowSeats =
          .ok mapped) ↔
        ∀ r ∈ requestedRowSeats, r.Num ∈ seatNums availableRowSeats) := by
  by_cases hall : ∀ r ∈ requestedRowSeats, r.Num ∈ seatNums availableRowSeats
  · obtain ⟨mapped, hok, _⟩ := mapAll_nonempty_sorted availableRowSeats requestedRowSeats
      hne hsorted hall
    refine ⟨⟨?_, ?_⟩, ⟨fun _ => hall, fun _ => ⟨mapped, hok⟩⟩⟩
    · rintro ⟨e, he⟩
      rw [hok] at he
      exact Outcome.noConfusion he
    · rintro ⟨r, hr, hnot⟩
      exact absurd (hall r hr) hnot
  · have hex : ∃ r ∈ requestedRowSeats, r.Num ∉ seatNums availableRowSeats := by
      by_contra hc
      apply hall
      intro r hr
      by_contra hn
      exact hc ⟨r, hr, hn⟩
    obtain ⟨num, _, _, herr⟩ := mapAll_error_of_unavailable availableRowSeats
      requestedRowSeats hne hsorted hex
    refine ⟨⟨fun _ => hex, fun _ => ⟨_, herr⟩⟩, ⟨?_, fun h => absurd h hall⟩⟩
    rintro ⟨mapped, hok⟩
    rw [herr] at hok
    exact Outcome.noConfusion hok

/-- The mapper over the integers on a row requested whole: every position of the result is
unavailable and the detector returns no error on it. -/
theorem whole_row_over_int (availableRowSeats requestedRowSeats : List Seat)
    (hne : availableRowSeats ≠ [])
    (hsorted : availableRowSeats.Pairwise (fun x y => x.Num < y.Num))
    (hdistinct : (seatNums requestedRowSeats).Nodup)
    (hamong : ∀ r ∈ requestedRowSeats, r.Num ∈ seatNums availableRowSeats)
    (hcount : requestedRowSeats.length = availableRowSeats.length) :
    ∃ mapped,
      mapAllRowSeatsForAvailability availableRowSeats requestedRowSeats = .ok mapped ∧
      (∀ e ∈ mapped, e.AvailabilityIndicator = 0) ∧
      checkMappedRowForFragmentation mapped = .ok () := by
  rcases mapAll_nonempty_sorted availableRowSeats requestedRowSeats hne
      (hsorted.imp (fun h => Int.le_of_lt h)) hamong with ⟨mapped, hok, _, hentries⟩
  have hall : ∀ e ∈ mapped, e.AvailabilityIndicator = 0 := by
    intro e he
    rcases List.getElem_of_mem he with ⟨i, hi, rfl⟩
    rw [hentries i hi]
    by_cases hreq : (availableRowSeats.head hne).Num + (i : Int) ∈ seatNums requestedRowSeats
    · rw [if_pos hreq]
      rfl
    · rw [if_neg hreq]
      have habs : (availableRowSeats.head hne).Num + (i : Int) ∉ seatNums availableRowSeats :=
        fun hin => hreq (seatNums_subset_of_whole_row availableRowSeats requestedRowSeats
          hdistinct hamong hcount _ hin)
      rw [mapSeatAt_absent availableRowSeats _ i habs]
  exact ⟨mapped, hok, hall, checkMapped_ok_of_all_unavailable mapped hall⟩

/-- The mapper over the integers on a row that lists a requested seat, passed the
group-ordering check and whose available seats are sorted: the offsets of the requested
seats lie inside the result and the mapper does not panic. -/
theorem stays_in_range_over_int (rowID : String) (availableRowSeats requestedRowSeats : List Seat)
    (splIDBookAllSeatsInGroup : List (String × String))
    (requestedSeatsGroupedByRowsGroupedBySpl : List (String × List (String × List Seat)))
    (hreq : requestedRowSeats ≠ [])
    (hcheck : checkEventFullGroupOrderingRestriction rowID availableRowSeats requestedRowSeats
      splIDBookAllSeatsInGroup requestedSeatsGroupedByRowsGroupedBySpl = .ok ())
    (hsorted : availableRowSeats.Pairwise (fun x y => x.Num ≤ y.Num)) :
    ∃ firstSeat lastSeat,
      availableRowSeats.head? = some firstSeat ∧
      availableRowSeats.getLast? = some lastSeat ∧
      0 < lastSeat.Num - firstSeat.Num + 1 ∧
      (∀ r ∈ requestedRowSeats, r.Num ∈ seatNums availableRowSeats →
        0 ≤ r.Num - firstSeat.Num ∧
          r.Num - firstSeat.Num < lastSeat.Num - firstSeat.Num + 1) ∧
      mapAllRowSeatsForAvailability availableRowSeats requestedRowSeats ≠ .panic ∧
      ∀ mapped, mapAllRowSeatsForAvailability availableRowSeats requestedRowSeats = .ok mapped →
        (mapped.length : Int) = lastSeat.Num - firstSeat.Num + 1 := by
  have hle := checkEvent_ok_length_le rowID availableRowSeats requestedRowSeats
    splIDBookAllSeatsInGroup requestedSeatsGroupedByRowsGroupedBySpl hcheck
  have hne : availableRowSeats ≠ [] := by
    intro he
    rw [he] at hle
    exact hreq (List.length_eq_zero.mp (Nat.le_zero.mp hle))
  have hfirst : availableRowSeats.head? = some (availableRowSeats.head hne) :=
    List.head?_eq_head hne
  have hlast : availableRowSeats.getLast? = some (availableRowSeats.getLast hne) :=
    List.getLast?_eq_getLast _ hne
  have hlow := sorted_head_le availableRowSeats _ hsorted hfirst
  have hhigh := sorted_le_last availableRowSeats _ hsorted hlast
  refine ⟨availableRowSeats.head hne, availableRowSeats.getLast hne, hfirst, hlast, ?_, ?_,
    mapAll_ne_panic_of_sorted availableRowSeats requestedRowSeats hne hsorted, ?_⟩
  · have := hlow _ (List.getLast_mem hne)
    omega
  · intro r _ hin
    obtain ⟨s, hs, hnum⟩ := mem_seatNums.mp hin
    have h1 := hlow s hs
    have h2 := hhigh s hs
    omega
  · intro mapped hok
    have hall : ∀ r ∈ requestedRowSeats, r.Num ∈ seatNums availableRowSeats := by
      intro r hr
      by_contra hn
      exact mapAll_not_ok_of_missing _ _ mapped ⟨r, hr, hn⟩ hok
    obtain ⟨mapped2, hok2, hlen, _⟩ :=
      mapAll_nonempty_sorted availableRowSeats requestedRowSeats hne hsorted hall
    rw [hok] at hok2
    injection hok2 with hok2
    subst hok2
    exact hlen

/-! ## The `int32` mapper and the mapper over the integers -/

theorem wrapInt32_of_isInt32 (x : Int) (h : IsInt32 x) : wrapInt32 x = x := by
  unfold wrapInt32
  unfold IsInt32 at h
  omega

theorem wrapInt32_isInt32 (x : Int) : IsInt32 (wrapInt32 x) := by
  unfold wrapInt32 IsInt32
  omega

theorem wrapInt32_add_wrapInt32 (a b : Int) :
    wrapInt32 (a + wrapInt32 b) = wrapInt32 (a + b) := by
  unfold wrapInt32
  omega

theorem mapSeatAtInt32_eq_at (availableRowSeats : List Seat) (first : Int) (i : Nat) :
    mapSeatAtInt32 availableRowSeats first i =
      mapSeatAt availableRowSeats (wrapInt32 (first + (i : Int))) 0 := by
  unfold mapSeatAtInt32 mapSeatAt
  simp only [wrapInt32_add_wrapInt32, Nat.cast_zero, add_zero]

theorem mapSeatAtInt32_eq (availableRowSeats : List Seat) (first : Int) (i : Nat)
    (h : IsInt32 (first + (i : Int))) :
    mapSeatAtInt32 availableRowSeats first i = mapSeatAt availableRowSeats first i := by
  unfold mapSeatAtInt32 mapSeatAt
  simp only [wrapInt32_add_wrapInt32, wrapInt32_of_isInt32 _ h]

theorem markRequestedInt32_eq (availableRowSeats : List Seat) (first : Int)
    (hoff : ∀ num ∈ seatNums availableRowSeats, wrapInt32 (num - first) = num - first) :
    ∀ (requestedRowSeats : List Seat) (allRowSeats : List MappedRowSeat),
      markRequestedInt32 availableRowSeats first requestedRowSeats allRowSeats =
        markRequested availableRowSeats first requestedRowSeats allRowSeats := by
  intro requestedRowSeats
  induction requestedRowSeats with
  | nil => intro all; rfl
  | cons r rest ih =>
    intro all
    rw [markRequestedInt32, markRequested]
    by_cases hidx : indexOfRowSeat availableRowSeats r.Num = -1
    · rw [if_pos hidx, if_pos hidx]
    · rw [if_neg hidx, if_neg hidx]
      have hmem : r.Num ∈ seatNums availableRowSeats := by
        by_contra hn
        exact hidx ((indexOfRowSeat_eq_neg_one_iff _ _).mpr hn)
      rw [hoff r.Num hmem]
      cases getAt all (r.Num - first) with
      | none => rfl
      | some entry => exact ih _

/-- On a non-empty list of available seats sorted ascending by seat number, whose numbers
are `int32` values spanning fewer than 2^31 numbers, the `int32` arithmetic of the mapper
does not wrap: it computes what the mapper over the integers computes. -/
theorem mapAllRowSeatsForAvailabilityInt32_eq (availableRowSeats requestedRowSeats : List Seat)
    (hne : availableRowSeats ≠ [])
    (hsorted : availableRowSeats.Pairwise (fun x y => x.Num ≤ y.Num))
    (hint : ∀ s ∈ availableRowSeats, IsInt32 s.Num)
    (hspan : (availableRowSeats.getLast hne).Num - (availableRowSeats.head hne).Num + 1 <
      2147483648) :
    mapAllRowSeatsForAvailabilityInt32 availableRowSeats requestedRowSeats =
      mapAllRowSeatsForAvailability availableRowSeats requestedRowSeats := by
  have hfirst : availableRowSeats.head? = some (availableRowSeats.head hne) :=
    List.head?_eq_head hne
  have hlast : availableRowSeats.getLast? = some (availableRowSeats.getLast hne) :=
    List.getLast?_eq_getLast _ hne
  have hlow := sorted_head_le availableRowSeats _ hsorted hfirst
  have hhigh := sorted_le_last availableRowSeats _ hsorted hlast
  have hfl := hlow _ (List.getLast_mem hne)
  have hfi := hint _ (List.head_mem hne)
  have hli := hint _ (List.getLast_mem hne)
  unfold IsInt32 at hfi hli
  have hsize : wrapInt32 ((availableRowSeats.getLast hne).Num -
      (availableRowSeats.head hne).Num + 1) =
      (availableRowSeats.getLast hne).Num - (availableRowSeats.head hne).Num + 1 :=
    wrapInt32_of_isInt32 _ (by unfold IsInt32; omega)
  unfold mapAllRowSeatsForAvailabilityInt32 mapAllRowSeatsForAvailability
  rw [hfirst, hlast]
  simp only
  rw [hsize]
  by_cases hneg : (availableRowSeats.getLast hne).Num - (availableRowSeats.head hne).Num + 1 < 0
  · rw [if_pos hneg, if_pos hneg]
  · rw [if_neg hneg, if_neg hneg]
    have hrows : (List.range ((availableRowSeats.getLast hne).Num -
        (availableRowSeats.head hne).Num + 1).toNat).map
          (mapSeatAtInt32 availableRowSeats (availableRowSeats.head hne).Num) =
        (List.range ((availableRowSeats.getLast hne).Num -
        (availableRowSeats.head hne).Num + 1).toNat).map
          (mapSeatAt availableRowSeats (availableRowSeats.head hne).Num) := by
      apply List.map_congr_left
      intro i hi
      have hlt := List.mem_range.mp hi
      apply mapSeatAtInt32_eq
      unfold IsInt32
      omega
    rw [hrows]
    apply markRequestedInt32_eq
    intro num hnum
    obtain ⟨s, hs, rfl⟩ := mem_seatNums.mp hnum
    have h1 := hlow s hs
    have h2 := hhigh s hs
    exact wrapInt32_of_isInt32 _ (by unfold IsInt32; omega)

/-! ## The `int32` mapper on arbitrary rows -/

theorem markRequestedInt32_entries (availableRowSeats : List Seat) (first : Int) :
    ∀ (requestedRowSeats : List Seat) (allRowSeats result : List MappedRowSeat),
      markRequestedInt32 availableRowSeats first requestedRowSeats allRowSeats = .ok result →
      result.length = allRowSeats.length ∧
        ∀ (i : Nat) (hi : i < allRowSeats.length),
          result[i]? = some allRowSeats[i] ∨ result[i]? = some (markedEntry allRowSeats[i]) := by
  intro requestedRowSeats
  induction requestedRowSeats with
  | nil =>
    intro all result h
    rw [markRequestedInt32] at h
    injection h with h
    subst h
    exact ⟨rfl, fun i hi => Or.inl (List.getElem?_eq_getElem hi)⟩
  | cons r rest ih =>
    intro all result h
    rw [markRequestedInt32] at h
    by_cases hidx : indexOfRowSeat availableRowSeats r.Num = -1
    · rw [if_pos hidx] at h
      exact Outcome.noConfusion h
    · rw [if_neg hidx] at h
      cases hget : getAt all (wrapInt32 (r.Num - first)) with
      | none =>
        rw [hget] at h
        exact Outcome.noConfusion h
      | some entry =>
        rw [hget] at h
        simp only at h
        have hentry0 := getAt_some all _ entry hget
        obtain ⟨hpos, hentry⟩ := List.getElem?_eq_some.mp hentry0
        obtain ⟨h1, h2⟩ := ih _ result h
        rw [List.length_set] at h1
        refine ⟨h1, ?_⟩
        intro i hi
        have := h2 i (by rw [List.length_set]; exact hi)
        by_cases hip : i = (wrapInt32 (r.Num - first)).toNat
        · subst hip
          have hb : (wrapInt32 (r.Num - first)).toNat < (all.set (wrapInt32 (r.Num - first)).toNat
              { entry with AvailabilityIndicator := 0, RequestedForNow := true }).length := by
            rw [List.length_set]; exact hi
          have hset : (all.set (wrapInt32 (r.Num - first)).toNat
              { entry with AvailabilityIndicator := 0, RequestedForNow := true })[
                (wrapInt32 (r.Num - first)).toNat] =
                markedEntry all[(wrapInt32 (r.Num - first)).toNat] := by
            rw [List.getElem_set_self, hentry]
            rfl
          rw [hset, markedEntry_markedEntry] at this
          right
          rcases this with h | h <;> exact h
        · have hb : i < (all.set (wrapInt32 (r.Num - first)).toNat
              { entry with AvailabilityIndicator := 0, RequestedForNow := true }).length := by
            rw [List.length_set]; exact hi
          have hset : (all.set (wrapInt32 (r.Num - first)).toNat
              { entry with AvailabilityIndicator := 0, RequestedForNow := true })[i] =
              all[i] := by
            rw [List.getElem_set_ne (fun h => hip h.symm)]
          rw [hset] at this
          exact this

theorem markRequestedInt32_not_ok (availableRowSeats : List Seat) (first : Int) :
    ∀ (requestedRowSeats : List Seat) (allRowSeats result : List MappedRowSeat),
      (∃ r ∈ requestedRowSeats, r.Num ∉ seatNums availableRowSeats) →
      markRequestedInt32 availableRowSeats first requestedRowSeats allRowSeats ≠ .ok result := by
  intro requestedRowSeats
  induction requestedRowSeats with
  | nil => intro all result h; obtain ⟨r, hr, _⟩ := h; simp at hr
  | cons r rest ih =>
    intro all result hex
    rw [markRequestedInt32]
    by_cases hidx : indexOfRowSeat availableRowSeats r.Num = -1
    · rw [if_pos hidx]; simp
    · rw [if_neg hidx]
      have hmem : r.Num ∈ seatNums availableRowSeats := by
        by_contra hn
        exact hidx ((indexOfRowSeat_eq_neg_one_iff _ _).mpr hn)
      have hex2 : ∃ x ∈ rest, x.Num ∉ seatNums availableRowSeats := by
        obtain ⟨x, hx, hxn⟩ := hex
        rcases List.mem_cons.mp hx with rfl | hx
        · exact absurd hmem hxn
        · exact ⟨x, hx, hxn⟩
      cases getAt all (wrapInt32 (r.Num - first)) with
      | none => simp
      | some entry => exact ih _ result hex2

/-- The `int32` mapper never returns a mapped sequence when a requested seat has a number
that is not available. -/
theorem mapAllInt32_not_ok_of_missing (availableRowSeats requestedRowSeats : List Seat)
    (mapped : List MappedRowSeat)
    (hex : ∃ r ∈ requestedRowSeats, r.Num ∉ seatNums availableRowSeats) :
    mapAllRowSeatsForAvailabilityInt32 availableRowSeats requestedRowSeats ≠ .ok mapped := by
  unfold mapAllRowSeatsForAvailabilityInt32
  split
  · simp only
    split
    · simp
    · exact markRequestedInt32_not_ok _ _ _ _ _ hex
  · simp

/-- A successful result of the `int32` mapper: its length is the wrapped `int32` length, and
an entry of indicator 1 is the one the first loop wrote. -/
theorem mapAllInt32_available_entry (availableRowSeats requestedRowSeats : List Seat)
    (mapped : List MappedRowSeat) (firstSeat lastSeat : Seat)
    (hfirst : availableRowSeats.head? = some firstSeat)
    (hlast : availableRowSeats.getLast? = some lastSeat)
    (hok : mapAllRowSeatsForAvailabilityInt32 availableRowSeats requestedRowSeats = .ok mapped) :
    0 ≤ wrapInt32 (lastSeat.Num - firstSeat.Num + 1) ∧
      (mapped.length : Int) = wrapInt32 (lastSeat.Num - firstSeat.Num + 1) ∧
      ∀ (i : Nat) (hi : i < mapped.length), mapped[i].AvailabilityIndicator = 1 →
        mapped[i] = mapSeatAtInt32 availableRowSeats firstSeat.Num i := by
  unfold mapAllRowSeatsForAvailabilityInt32 at hok
  rw [hlast, hfirst] at hok
  simp only at hok
  by_cases hneg : wrapInt32 (lastSeat.Num - firstSeat.Num + 1) < 0
  · rw [if_pos hneg] at hok
    exact Outcome.noConfusion hok
  · rw [if_neg hneg] at hok
    obtain ⟨hlen, hent⟩ := markRequestedInt32_entries availableRowSeats firstSeat.Num
      requestedRowSeats _ mapped hok
    rw [List.length_map, List.length_range] at hlen
    refine ⟨by omega, by rw [hlen]; omega, ?_⟩
    intro i hi hav
    have hi2 : i < ((List.range (wrapInt32 (lastSeat.Num - firstSeat.Num + 1)).toNat).map
        (mapSeatAtInt32 availableRowSeats firstSeat.Num)).length := by
      rw [List.length_map, List.length_range, ← hlen]; exact hi
    have hbase : ((List.range (wrapInt32 (lastSeat.Num - firstSeat.Num + 1)).toNat).map
        (mapSeatAtInt32 availableRowSeats firstSeat.Num))[i] =
        mapSeatAtInt32 availableRowSeats firstSeat.Num i := by
      simp
    have hcase := hent i hi2
    rw [hbase, List.getElem?_eq_getElem hi] at hcase
    rcases hcase with h | h
    · injection h
    · injection h with h
      rw [h] at hav
      simp [markedEntry] at hav

/-! ## The loop of a run over the rows -/

theorem skipInPlanRun_drawInOrder (belowTenth : Int → Int → Bool)
    (counts : List (String × Int)) (allPC : List (String × List SeatsPerPriceCategories)) :
    ∀ l : List SeatsPerPriceCategories,
      skipInPlanRun belowTenth counts
          (l.map (fun v => { aggregate := v, allSeatsOrder := allPC })) =
        skipInPlan belowTenth counts allPC l := by
  intro l
  induction l with
  | nil => rfl
  | cons v rest ih =>
    rw [List.map_cons, skipInPlanRun, skipInPlan]
    simp only
    cases v.PriceCategoryID with
    | none => exact ih
    | some pc =>
      simp only
      cases counts.lookup pc with
      | none => exact ih
      | some count => simp only [ih]

/-- When every `range` of a call visits the plans in the order of the lists, the call in a
run computes what `skipFragmentationCheck` computes on the lists. -/
theorem skipFragmentationCheckRun_drawInOrder (belowTenth : Int → Int → Bool)
    (req : List Seat) (availablePC allPC : List (String × List SeatsPerPriceCategories)) :
    skipFragmentationCheckRun belowTenth req (drawInOrder availablePC allPC) =
      skipFragmentationCheck belowTenth req availablePC allPC := by
  unfold skipFragmentationCheckRun skipFragmentationCheck drawInOrder
  induction availablePC with
  | nil => rfl
  | cons p rest ih =>
    obtain ⟨splID, l⟩ := p
    rw [List.map_cons, skipInPlansRun, skipInPlans]
    simp only
    rw [skipInPlanRun_drawInOrder, ih]

theorem validateRowsRun_cons_of_passes (belowTenth : Int → Int → Bool)
    (availMap : List (String × List Seat)) (restricted : List (String × String))
    (request : List (String × List (String × List Seat)))
    (visit : RowVisit) (rest : List RowVisit)
    (h : RowPassesRun belowTenth restricted request visit.rowID
      (sliceAt availMap visit.rowID) visit.requestedRowSeats visit.availableOrder) :
    validateRowsRun belowTenth availMap restricted request (visit :: rest) =
      validateRowsRun belowTenth availMap restricted request rest := by
  obtain ⟨hcheck, hrest⟩ := h
  rw [validateRowsRun, hcheck]
  simp only
  by_cases hskip : skipFragmentationCheckRun belowTenth visit.requestedRowSeats
      visit.availableOrder = true
  · rw [if_pos hskip]
  · rw [if_neg hskip]
    rcases hrest with h | ⟨mapped, hm, hc⟩
    · exact absurd h hskip
    · rw [hm]
      simp only
      rw [hc]

theorem validateRowsRun_cons_of_not_passes (belowTenth : Int → Int → Bool)
    (availMap : List (String × List Seat)) (restricted : List (String × String))
    (request : List (String × List (String × List Seat)))
    (visit : RowVisit) (rest : List RowVisit)
    (h : ¬ RowPassesRun belowTenth restricted request visit.rowID
      (sliceAt availMap visit.rowID) visit.requestedRowSeats visit.availableOrder) :
    validateRowsRun belowTenth availMap restricted request (visit :: rest) ≠ .ok () := by
  unfold RowPassesRun at h
  rw [validateRowsRun]
  cases hcheck : checkEventFullGroupOrderingRestriction visit.rowID
      (sliceAt availMap visit.rowID) visit.requestedRowSeats restricted request with
  | error e => simp
  | panic => simp
  | ok u =>
    simp only
    by_cases hskip : skipFragmentationCheckRun belowTenth visit.requestedRowSeats
        visit.availableOrder = true
    · exact absurd ⟨hcheck, Or.inl hskip⟩ h
    · rw [if_neg hskip]
      cases hm : mapAllRowSeatsForAvailabilityInt32 (sliceAt availMap visit.rowID)
          visit.requestedRowSeats with
      | error e => simp
      | panic => simp
      | ok mapped =>
        simp only
        cases hc : checkMappedRowForFragmentation mapped with
        | error e => simp
        | panic => simp
        | ok u2 => exact absurd ⟨hcheck, Or.inr ⟨mapped, hm, hc⟩⟩ h

/-- The loop of a run succeeds exactly when every iteration passes. -/
theorem validateRowsRun_ok_iff (belowTenth : Int → Int → Bool)
    (availMap : List (String × List Seat)) (restricted : List (String × String))
    (request : List (String × List (String × List Seat))) :
    ∀ visits : List RowVisit,
      validateRowsRun belowTenth availMap restricted request visits = .ok () ↔
        ∀ v ∈ visits, RowPassesRun belowTenth restricted request v.rowID
          (sliceAt availMap v.rowID) v.requestedRowSeats v.availableOrder := by
  intro visits
  induction visits with
  | nil => simp [validateRowsRun]
  | cons visit rest ih =>
    by_cases h : RowPassesRun belowTenth restricted request visit.rowID
        (sliceAt availMap visit.rowID) visit.requestedRowSeats visit.availableOrder
    · rw [validateRowsRun_cons_of_passes _ _ _ _ _ _ h, ih]
      constructor
      · intro hall r hr
        rcases List.mem_cons.mp hr with rfl | hr
        · exact h
        · exact hall r hr
      · intro hall r hr
        exact hall r (List.mem_cons_of_mem _ hr)
    · constructor
      · intro hok
        exact absurd hok (validateRowsRun_cons_of_not_passes _ _ _ _ _ _ h)
      · intro hall
        exact absurd (hall visit (List.mem_cons_self _ _)) h

/-- The loop of a run does not panic when the available seats of every visited row are a
non-empty list sorted ascending by seat number, of `int32` numbers spanning fewer than 2^31
numbers. -/
theorem validateRowsRun_ne_panic (belowTenth : Int → Int → Bool)
    (availMap : List (String × List Seat)) (restricted : List (String × String))
    (request : List (String × List (String × List Seat))) :
    ∀ visits : List RowVisit,
      (∀ v ∈ visits, ∃ hne : sliceAt availMap v.rowID ≠ [],
        (sliceAt availMap v.rowID).Pairwise (fun x y => x.Num ≤ y.Num) ∧
        (∀ s ∈ sliceAt availMap v.rowID, IsInt32 s.Num) ∧
        ((sliceAt availMap v.rowID).getLast hne).Num -
          ((sliceAt availMap v.rowID).head hne).Num + 1 < 2147483648) →
      validateRowsRun belowTenth availMap restricted request visits ≠ .panic := by
  intro visits
  induction visits with
  | nil => intro _; simp [validateRowsRun]
  | cons visit rest ih =>
    intro hall
    have hrest := ih (fun x hx => hall x (List.mem_cons_of_mem _ hx))
    obtain ⟨hne, hsorted, hint, hspan⟩ := hall visit (List.mem_cons_self _ _)
    have heq := mapAllRowSeatsForAvailabilityInt32_eq (sliceAt availMap visit.rowID)
      visit.requestedRowSeats hne hsorted hint hspan
    rw [validateRowsRun]
    cases hcheck : checkEventFullGroupOrderingRestriction visit.rowID
        (sliceAt availMap visit.rowID) visit.requestedRowSeats restricted request with
    | error e => simp
    | panic => exact absurd hcheck (checkEvent_ne_panic _ _ _ _ _)
    | ok u =>
      simp only
      by_cases hskip : skipFragmentationCheckRun belowTenth visit.requestedRowSeats
          visit.availableOrder = true
      · rw [if_pos hskip]; exact hrest
      · rw [if_neg hskip]
        cases hm : mapAllRowSeatsForAvailabilityInt32 (sliceAt availMap visit.rowID)
            visit.requestedRowSeats with
        | error e => simp
        | panic =>
          rw [heq] at hm
          exact absurd hm (mapAll_ne_panic_of_sorted _ _ hne hsorted)
        | ok mapped =>
          simp only
          rw [heq] at hm
          cases hc : checkMappedRowForFragmentation mapped with
          | error e => simp
          | panic =>
            exact absurd hc (checkMapped_ne_panic mapped
              (mapAll_sorted_seatsCarried _ _ mapped hne hsorted hm))
          | ok u2 => exact hrest

theorem validateRun_eq_of_loaded (belowTenth : Int → Int → Bool) (s : Storage)
    (visitOrder : List (String × List Seat) → List (String × List SeatsPerPriceCategories) →
      List (String × List SeatsPerPriceCategories) → List RowVisit)
    (orgID : String) (restricted : List (String × String))
    (request : List (String × List (String × List Seat)))
    (availableRowSeats requestedRowsSeats : List (String × List Seat))
    (availPC allPC : List (String × List SeatsPerPriceCategories))
    (hload : getRowSeatsForSeatingPlanAndRequestedSeats s orgID request =
      .ok (availableRowSeats, requestedRowsSeats))
    (hav : getSeatsWithPriceCategoriesForSpl s orgID request true = .ok availPC)
    (hall : getSeatsWithPriceCategoriesForSpl s orgID request false = .ok allPC) :
    ValidateSeatRulesRun belowTenth s visitOrder orgID restricted request =
      validateRowsRun belowTenth availableRowSeats restricted request
        (visitOrder requestedRowsSeats availPC allPC) := by
  unfold ValidateSeatRulesRun
  rw [hload]
  simp only
  rw [hav]
  simp only
  rw [hall]

/-- With every `range` visiting the plans in the order of the lists, the second row of
`crossRequest` is not skipped and the detector rejects it. -/
theorem crossRequest_in_list_order :
    ValidateSeatRulesRun exactBelowTenth crossStorage visitInOrder "org" [] crossRequest =
      .error (.fragmentation "") := by
  decide

/-- The run `crossVisits` on the maps built for `crossRequest` visits every map in one of
its orders. -/
theorem crossVisits_isRunOf :
    IsRunOf [("row", seatsOfC1), ("row2", seatsOfC2)]
      [("spl", [{ Count := 5, PriceCategoryID := some "c1" }]),
       ("spl2", [{ Count := 5, PriceCategoryID := some "c2" }])]
      [("spl", [{ Count := 100, PriceCategoryID := some "c1" },
                { Count := 10, PriceCategoryID := some "c2" }]),
       ("spl2", [{ Count := 10, PriceCategoryID := some "c1" },
                 { Count := 100, PriceCategoryID := some "c2" }])]
      (crossVisits [("row", seatsOfC1), ("row2", seatsOfC2)]
        [("spl", [{ Count := 5, PriceCategoryID := some "c1" }]),
         ("spl2", [{ Count := 5, PriceCategoryID := some "c2" }])]
        [("spl", [{ Count := 100, PriceCategoryID := some "c1" },
                  { Count := 10, PriceCategoryID := some "c2" }]),
         ("spl2", [{ Count := 10, PriceCategoryID := some "c1" },
                   { Count := 100, PriceCategoryID := some "c2" }])]) := by
  decide

/-! ## The invariant of the `int32` mapper -/

theorem markRequestedInt32_wellFormed (availableRowSeats : List Seat) (first : Int)
    (hint : ∀ s ∈ availableRowSeats, IsInt32 s.Num) :
    ∀ (requestedRowSeats : List Seat) (allRowSeats result : List MappedRowSeat),
      (∀ (i : Nat) (e : MappedRowSeat), allRowSeats[i]? = some e →
        EntryWellFormed availableRowSeats (wrapInt32 (first + (i : Int))) 0 e) →
      markRequestedInt32 availableRowSeats first requestedRowSeats allRowSeats = .ok result →
      ∀ (i : Nat) (e : MappedRowSeat), result[i]? = some e →
        EntryWellFormed availableRowSeats (wrapInt32 (first + (i : Int))) 0 e := by
  intro requestedRowSeats
  induction requestedRowSeats with
  | nil =>
    intro allRowSeats result hinv hok
    unfold markRequestedInt32 at hok
    injection hok with hok
    subst hok
    exact hinv
  | cons r rest ih =>
    intro allRowSeats result hinv hok
    unfold markRequestedInt32 at hok
    by_cases hidx : indexOfRowSeat availableRowSeats r.Num = -1
    · rw [if_pos hidx] at hok; cases hok
    · rw [if_neg hidx] at hok
      have hmem : r.Num ∈ seatNums availableRowSeats := by
        by_contra hn
        exact hidx ((indexOfRowSeat_eq_neg_one_iff availableRowSeats r.Num).mpr hn)
      have hrint : IsInt32 r.Num := by
        obtain ⟨s, hs, hsn⟩ := List.mem_map.mp hmem
        rw [← hsn]
        exact hint s hs
      cases hget : getAt allRowSeats (wrapInt32 (r.Num - first)) with
      | none => rw [hget] at hok; cases hok
      | some entry =>
        rw [hget] at hok
        simp only at hok
        have hnn := getAt_nonneg allRowSeats _ entry hget
        have hk := getAt_some allRowSeats _ entry hget
        have hcast : wrapInt32 (first + (((wrapInt32 (r.Num - first)).toNat : Nat) : Int)) =
            r.Num := by
          rw [Int.toNat_of_nonneg hnn, wrapInt32_add_wrapInt32]
          have : first + (r.Num - first) = r.Num := by ring
          rw [this]
          exact wrapInt32_of_isInt32 _ hrint
        have hentry := hinv _ entry hk
        apply ih _ result ?_ hok
        intro i e hi
        rw [List.getElem?_set] at hi
        by_cases hik : (wrapInt32 (r.Num - first)).toNat = i
        · rw [if_pos hik] at hi
          by_cases hlen : (wrapInt32 (r.Num - first)).toNat < allRowSeats.length
          · rw [if_pos hlen] at hi
            injection hi with hi
            subst hi
            subst hik
            have hseat : entry.Seat ≠ none := hentry.1 (by
              rw [hcast, Nat.cast_zero, add_zero]; exact hmem)
            exact ⟨fun _ => hseat, fun _ => ⟨rfl, hseat⟩, fun h1 => by simp at h1⟩
          · rw [if_neg hlen] at hi; cases hi
        · rw [if_neg hik] at hi
          exact hinv i e hi

/-- Every entry of a row the `int32` mapper returns for available seats with `int32` numbers
carries a seat when it is requested now or has indicator 1. -/
theorem mapAllInt32_wellFormed (availableRowSeats requestedRowSeats : List Seat)
    (mapped : List MappedRowSeat)
    (hint : ∀ s ∈ availableRowSeats, IsInt32 s.Num)
    (hok : mapAllRowSeatsForAvailabilityInt32 availableRowSeats requestedRowSeats =
      .ok mapped) :
    ∀ e ∈ mapped,
      (e.RequestedForNow = true → e.AvailabilityIndicator = 0 ∧ e.Seat ≠ none) ∧
      (e.AvailabilityIndicator = 1 → e.RequestedForNow = false ∧ e.Seat ≠ none) := by
  unfold mapAllRowSeatsForAvailabilityInt32 at hok
  cases hl : availableRowSeats.getLast? with
  | none => rw [hl] at hok; cases hok
  | some lastSeat =>
    cases hf : availableRowSeats.head? with
    | none => rw [hl, hf] at hok; cases hok
    | some firstSeat =>
      rw [hl, hf] at hok
      simp only at hok
      by_cases hsize : wrapInt32 (lastSeat.Num - firstSeat.Num + 1) < 0
      · rw [if_pos hsize] at hok; cases hok
      · rw [if_neg hsize] at hok
        have hinv := markRequestedInt32_wellFormed availableRowSeats firstSeat.Num hint
          requestedRowSeats _ mapped (by
            intro i e hi
            rw [List.getElem?_map] at hi
            cases hr : (List.range (wrapInt32 (lastSeat.Num - firstSeat.Num + 1)).toNat)[i]? with
            | none => rw [hr] at hi; cases hi
            | some m =>
              rw [hr] at hi
              have hm : m = i := by
                have hlt : i < (List.range
                    (wrapInt32 (lastSeat.Num - firstSeat.Num + 1)).toNat).length := by
                  by_contra hge
                  rw [List.getElem?_eq_none (by omega)] at hr
                  cases hr
                rw [List.length_range] at hlt
                rw [List.getElem?_range hlt] at hr
                injection hr with hr
                exact hr.symm
              subst hm
              simp only [Option.map_some'] at hi
              injection hi with hi
              subst hi
              rw [mapSeatAtInt32_eq_at]
              exact mapSeatAt_wellFormed availableRowSeats _ 0) hok
        intro e he
        obtain ⟨i, hi, hget⟩ := List.getElem_of_mem he
        have := hinv i e (by rw [List.getElem?_eq_getElem hi, hget])
        exact this.2

/-! ## Runs that visit the aggregate maps in list order -/

/-- On rows where the two mappers agree, the loop of a run whose calls of
`skipFragmentationCheck` visit the aggregate maps in the order of their lists is
`validateRows`. -/
theorem validateRowsRun_in_list_order (belowTenth : Int → Int → Bool)
    (availMap : List (String × List Seat)) (restricted : List (String × String))
    (request : List (String × List (String × List Seat)))
    (availablePC allPC : List (String × List SeatsPerPriceCategories)) :
    ∀ rows : List (String × List Seat),
      (∀ r ∈ rows, mapAllRowSeatsForAvailabilityInt32 (sliceAt availMap r.1) r.2 =
        mapAllRowSeatsForAvailability (sliceAt availMap r.1) r.2) →
      validateRowsRun belowTenth availMap restricted request (visitInOrder rows availablePC allPC) =
        validateRows belowTenth availMap restricted request availablePC allPC rows := by
  intro rows
  induction rows with
  | nil => intro _; rfl
  | cons r rest ih =>
    intro hagree
    obtain ⟨rowID, req⟩ := r
    have hrest := ih (fun x hx => hagree x (List.mem_cons_of_mem _ hx))
    have hr := hagree (rowID, req) (List.mem_cons_self _ _)
    simp only at hr
    unfold visitInOrder at hrest ⊢
    rw [List.map_cons, validateRowsRun, validateRows]
    simp only
    rw [skipFragmentationCheckRun_drawInOrder, hr, hrest]

/-- On rows where the two mappers agree, the run of the validator that visits the rows in
the order `rangeOrder` and the aggregate maps in the order of their lists is
`ValidateSeatRules`. -/
theorem validateRun_in_list_order (belowTenth : Int → Int → Bool) (s : Storage)
    (rangeOrder : List (String × List Seat) → List (String × List Seat))
    (orgID : String) (restricted : List (String × String))
    (request : List (String × List (String × List Seat)))
    (hagree : ∀ availableRowSeats requestedRowsSeats,
      getRowSeatsForSeatingPlanAndRequestedSeats s orgID request =
        .ok (availableRowSeats, requestedRowsSeats) →
      ∀ r ∈ rangeOrder requestedRowsSeats,
        mapAllRowSeatsForAvailabilityInt32 (sliceAt availableRowSeats r.1) r.2 =
          mapAllRowSeatsForAvailability (sliceAt availableRowSeats r.1) r.2) :
    ValidateSeatRulesRun belowTenth s (fun m a t => visitInOrder (rangeOrder m) a t) orgID
        restricted request =
      ValidateSeatRules belowTenth s rangeOrder orgID restricted request := by
  unfold ValidateSeatRulesRun ValidateSeatRules
  cases hload : getRowSeatsForSeatingPlanAndRequestedSeats s orgID request with
  | error e => rfl
  | panic => rfl
  | ok maps =>
    obtain ⟨availableRowSeats, requestedRowsSeats⟩ := maps
    simp only
    cases getSeatsWithPriceCategoriesForSpl s orgID request true with
    | error e => rfl
    | panic => rfl
    | ok availablePC =>
      simp only
      cases getSeatsWithPriceCategoriesForSpl s orgID request false with
      | error e => rfl
      | panic => rfl
      | ok allPC =>
        simp only
        exact validateRowsRun_in_list_order belowTenth availableRowSeats restricted request
          availablePC allPC _ (hagree availableRowSeats requestedRowsSeats hload)

/-! ## The claims -/

/-- C1 as stated fails: in a row of indicators 0, 0, 1 whose two requested entries carry no
seat, position 2 is a lone available seat, yet the detector panics on the nil seat instead of
returning a fragmentation error. -/
theorem checkMapped_lone_seat_counterexample :
    (∀ s ∈ rowWithoutSeats, s.AvailabilityIndicator = 0 ∨ s.AvailabilityIndicator = 1) ∧
    LoneSeatAt rowWithoutSeats 2 ∧
    checkMappedRowForFragmentation rowWithoutSeats = .panic ∧
    ¬ ∃ id, checkMappedRowForFragmentation rowWithoutSeats = .error (.fragmentation id) := by
  have hp : checkMappedRowForFragmentation rowWithoutSeats = .panic := by decide
  refine ⟨by decide, by unfold LoneSeatAt; decide, hp, ?_⟩
  rintro ⟨id, h⟩
  rw [hp] at h
  exact Outcome.noConfusion h

/-- C1, amended: for every mapped row in which each entry requested now carries a seat,
`checkMappedRowForFragmentation` returns a fragmentation error exactly when the row holds an
available position whose two neighbours are each outside the row or unavailable, at least one
of them inside the row; a row without such a position passes. -/
theorem checkMapped_lone_seat_iff (rowSeats : List MappedRowSeat)
    (hseats : ∀ s ∈ rowSeats, s.RequestedForNow = true → s.Seat ≠ none) :
    ((∃ id, checkMappedRowForFragmentation rowSeats = .error (.fragmentation id)) ↔
        ∃ p, LoneSeatAt rowSeats p) ∧
      ((¬ ∃ p, LoneSeatAt rowSeats p) → checkMappedRowForFragmentation rowSeats = .ok ()) := by
  have hok := checkMapped_ok_iff rowSeats
  have hiff := exists_fragmentedAt_iff rowSeats
  refine ⟨⟨?_, ?_⟩, ?_⟩
  · rintro ⟨id, herr⟩
    rw [← hiff]
    by_contra hno
    have : checkMappedRowForFragmentation rowSeats = .ok () :=
      hok.mpr (fun p => by
        by_contra hp
        exact hno ⟨p, by simpa using hp⟩)
    rw [this] at herr
    exact Outcome.noConfusion herr
  · intro hex
    exact checkMapped_error rowSeats hseats (hiff.mpr hex)
  · intro hno
    exact hok.mpr (fun p => by
      by_contra hp
      exact hno (hiff.mp ⟨p, by simpa using hp⟩))

/-- C1 at the row of seat 1 available and seats 2, 3 requested now. -/
theorem checkMapped_lone_seat_iff_witness :
    (∀ s ∈ rowOneTwoThree, s.RequestedForNow = true → s.Seat ≠ none) ∧
    (((∃ id, checkMappedRowForFragmentation rowOneTwoThree = .error (.fragmentation id)) ↔
        ∃ p, LoneSeatAt rowOneTwoThree p) ∧
      ((¬ ∃ p, LoneSeatAt rowOneTwoThree p) →
        checkMappedRowForFragmentation rowOneTwoThree = .ok ())) :=
  ⟨by decide, checkMapped_lone_seat_iff rowOneTwoThree (by decide)⟩

/-- C4: when a row has more requested seats than available seats,
`checkEventFullGroupOrderingRestriction` returns the over-request error with the text
"requested amount of tickets exceed available seats", whatever the restriction map and the
request hold. -/
theorem over_request_error (rowID : String) (availableSeatsByRowID requestedRowSeats : List Seat)
    (splIDBookAllSeatsInGroup : List (String × String))
    (requestedSeatsGroupedByRowsGroupedBySpl : List (String × List (String × List Seat)))
    (hover : requestedRowSeats.length > availableSeatsByRowID.length) :
    checkEventFullGroupOrderingRestriction rowID availableSeatsByRowID requestedRowSeats
        splIDBookAllSeatsInGroup requestedSeatsGroupedByRowsGroupedBySpl =
      .error .overRequest ∧
    SeatRuleError.overRequest.message = "requested amount of tickets exceed available seats" := by
  unfold checkEventFullGroupOrderingRestriction
  rw [if_pos hover]
  exact ⟨rfl, rfl⟩

/-- C4 at a row without available seats of which two seats are requested. -/
theorem over_request_error_witness :
    seatsTwoThree.length > ([] : List Seat).length ∧
    (checkEventFullGroupOrderingRestriction "row" [] seatsTwoThree
        [("plan", "random event title")] [("plan", [("row", seatsTwoThree)])] =
      .error .overRequest ∧
    SeatRuleError.overRequest.message = "requested amount of tickets exceed available seats") :=
  ⟨by decide, over_request_error "row" [] seatsTwoThree
    [("plan", "random event title")] [("plan", [("row", seatsTwoThree)])] (by decide)⟩

/-- C5: for a row the request lists under exactly one plan `splID` of the full-group
restriction map (a map: its keys are distinct), with no more requested than available seats,
`checkEventFullGroupOrderingRestriction` succeeds exactly when the two counts are equal, and
every partial request gets the restriction error whose text names the event title of that
plan. -/
theorem full_group_restriction (rowID : String)
    (availableSeatsByRowID requestedRowSeats : List Seat)
    (splIDBookAllSeatsInGroup : List (String × String))
    (requestedSeatsGroupedByRowsGroupedBySpl : List (String × List (String × List Seat)))
    (splID eventTitle : String)
    (hkeys : (splIDBookAllSeatsInGroup.map Prod.fst).Nodup)
    (hplan : (splID, eventTitle) ∈ splIDBookAllSeatsInGroup)
    (hlisted : rowID ∈ (rowsOfPlan requestedSeatsGroupedByRowsGroupedBySpl splID).map Prod.fst)
    (honly : ∀ p ∈ splIDBookAllSeatsInGroup,
      rowID ∈ (rowsOfPlan requestedSeatsGroupedByRowsGroupedBySpl p.1).map Prod.fst →
        p.1 = splID)
    (hle : requestedRowSeats.length ≤ availableSeatsByRowID.length) :
    (checkEventFullGroupOrderingRestriction rowID availableSeatsByRowID requestedRowSeats
        splIDBookAllSeatsInGroup requestedSeatsGroupedByRowsGroupedBySpl = .ok () ↔
      requestedRowSeats.length = availableSeatsByRowID.length) ∧
    (requestedRowSeats.length < availableSeatsByRowID.length →
      checkEventFullGroupOrderingRestriction rowID availableSeatsByRowID requestedRowSeats
        splIDBookAllSeatsInGroup requestedSeatsGroupedByRowsGroupedBySpl =
          .error (.fullGroupRestriction eventTitle)) ∧
    (SeatRuleError.fullGroupRestriction eventTitle).message =
      "violate event restriction for event " ++ eventTitle ++
        ", only full group seats ordering allowed" := by
  have hnot : ¬ requestedRowSeats.length > availableSeatsByRowID.length := by omega
  have herr : requestedRowSeats.length < availableSeatsByRowID.length →
      checkEventFullGroupOrderingRestriction rowID availableSeatsByRowID requestedRowSeats
        splIDBookAllSeatsInGroup requestedSeatsGroupedByRowsGroupedBySpl =
          .error (.fullGroupRestriction eventTitle) := by
    intro hlt
    unfold checkEventFullGroupOrderingRestriction
    rw [if_neg hnot]
    exact checkRestrictedPlans_of_listed_once rowID availableSeatsByRowID requestedRowSeats
      requestedSeatsGroupedByRowsGroupedBySpl splID eventTitle (by omega) hlisted
      splIDBookAllSeatsInGroup hkeys hplan honly
  refine ⟨⟨?_, ?_⟩, herr, rfl⟩
  · intro hok
    by_contra hne
    rw [herr (by omega)] at hok
    exact Outcome.noConfusion hok
  · intro heq
    unfold checkEventFullGroupOrderingRestriction
    rw [if_neg hnot]
    exact checkRestrictedPlans_of_length_eq rowID availableSeatsByRowID requestedRowSeats
      requestedSeatsGroupedByRowsGroupedBySpl heq.symm splIDBookAllSeatsInGroup

/-- C5 at a restricted row of six available seats of which two are requested. -/
theorem full_group_restriction_witness :
    checkEventFullGroupOrderingRestriction "row" sixSeats seatsOneTwo
        [("plan", "random event title")] [("plan", [("row", seatsOneTwo)])] =
      .error (.fullGroupRestriction "random event title") :=
  (full_group_restriction "row" sixSeats seatsOneTwo
    [("plan", "random event title")] [("plan", [("row", seatsOneTwo)])]
    "plan" "random event title" (by decide) (by decide) (by decide) (by decide)
    (by decide)).2.1 (by decide)

/-- C6 as stated fails: the available seats numbered 0 and 2147483647 are a non-empty list
sorted ascending with unique `int32` numbers and nothing is requested, but the length
2147483647 - 0 + 1 of the row wraps around to a negative `int32` and `make` panics. -/
theorem mapAll_position_states_counterexample :
    wideSeats ≠ [] ∧ wideSeats.Pairwise (fun x y => x.Num ≤ y.Num) ∧
      (seatNums wideSeats).Nodup ∧ (∀ s ∈ wideSeats, IsInt32 s.Num) ∧
      (∀ r ∈ ([] : List Seat), r.Num ∈ seatNums wideSeats) ∧
      mapAllRowSeatsForAvailabilityInt32 wideSeats [] = .panic := by
  decide

/-- C6, amended: for a non-empty available list sorted ascending by seat number with unique
`int32` numbers that span fewer than 2^31 numbers (last - first + 1 < 2^31), and requested
seats whose numbers all occur in it, the mapper succeeds and position `i` of its result describes
seat number (first available number + `i`): indicator 1, not requested and carrying the
available seat with that number when the number is available and not requested; indicator 0,
not requested and no seat when the number is not available; indicator 0 and
`RequestedForNow` when the number is available and requested. -/
theorem mapAll_position_states (availableRowSeats requestedRowSeats : List Seat)
    (hne : availableRowSeats ≠ [])
    (hsorted : availableRowSeats.Pairwise (fun x y => x.Num ≤ y.Num))
    (huniq : (seatNums availableRowSeats).Nodup)
    (hint : ∀ s ∈ availableRowSeats, IsInt32 s.Num)
    (hspan : (availableRowSeats.getLast hne).Num - (availableRowSeats.head hne).Num + 1 <
      2147483648)
    (hreq : ∀ r ∈ requestedRowSeats, r.Num ∈ seatNums availableRowSeats) :
    ∃ mapped,
      mapAllRowSeatsForAvailabilityInt32 availableRowSeats requestedRowSeats = .ok mapped ∧
      ∀ (i : Nat) (hi : i < mapped.length),
        ((availableRowSeats.head hne).Num + (i : Int) ∈ seatNums availableRowSeats →
          (availableRowSeats.head hne).Num + (i : Int) ∉ seatNums requestedRowSeats →
            mapped[i].AvailabilityIndicator = 1 ∧ mapped[i].RequestedForNow = false ∧
            ∀ seat ∈ availableRowSeats,
              seat.Num = (availableRowSeats.head hne).Num + (i : Int) →
                mapped[i].Seat = some seat) ∧
        ((availableRowSeats.head hne).Num + (i : Int) ∉ seatNums availableRowSeats →
            mapped[i].AvailabilityIndicator = 0 ∧ mapped[i].RequestedForNow = false ∧
            mapped[i].Seat = none) ∧
        ((availableRowSeats.head hne).Num + (i : Int) ∈ seatNums availableRowSeats →
          (availableRowSeats.head hne).Num + (i : Int) ∈ seatNums requestedRowSeats →
            mapped[i].AvailabilityIndicator = 0 ∧ mapped[i].RequestedForNow = true) := by
  rw [mapAllRowSeatsForAvailabilityInt32_eq availableRowSeats requestedRowSeats hne hsorted
    hint hspan]
  exact position_states_over_int availableRowSeats requestedRowSeats hne hsorted huniq
    hreq

/-- C6, amended, at the available seats 1, 2, 4, 5 with seats 1 and 2 requested. -/
theorem mapAll_position_states_witness :
    ∃ mapped, mapAllRowSeatsForAvailabilityInt32 seatsWithGap seatsOneTwo = .ok mapped ∧
      ∀ (i : Nat) (hi : i < mapped.length),
        ((seatsWithGap.head (by decide)).Num + (i : Int) ∈ seatNums seatsWithGap →
          (seatsWithGap.head (by decide)).Num + (i : Int) ∉ seatNums seatsOneTwo →
            mapped[i].AvailabilityIndicator = 1 ∧ mapped[i].RequestedForNow = false ∧
            ∀ seat ∈ seatsWithGap,
              seat.Num = (seatsWithGap.head (by decide)).Num + (i : Int) →
                mapped[i].Seat = some seat) ∧
        ((seatsWithGap.head (by decide)).Num + (i : Int) ∉ seatNums seatsWithGap →
            mapped[i].AvailabilityIndicator = 0 ∧ mapped[i].RequestedForNow = false ∧
            mapped[i].Seat = none) ∧
        ((seatsWithGap.head (by decide)).Num + (i : Int) ∈ seatNums seatsWithGap →
          (seatsWithGap.head (by decide)).Num + (i : Int) ∈ seatNums seatsOneTwo →
            mapped[i].AvailabilityIndicator = 0 ∧ mapped[i].RequestedForNow = true) :=
  mapAll_position_states seatsWithGap seatsOneTwo (by decide) (by decide) (by decide)
    (by decide) (by decide) (by decide)

/-- C7 as stated fails: the available seats 1, 3, 2 (unique numbers, not sorted) with seat 2
requested give a sequence of length 2, while largest - smallest + 1 is 3; and for the
available seats 0 and 2147483647 (sorted) with nothing requested the length
largest - smallest + 1 = 2147483648 is no `int32` and `make` panics. -/
theorem mapAll_length_unsorted_counterexample :
    (unsortedSeats ≠ [] ∧ (seatNums unsortedSeats).Nodup ∧
      (∀ r ∈ [({ ID := "s2", Num := 2, PriceCategoryID := none } : Seat)],
        r ∈ unsortedSeats) ∧
      largestNum unsortedSeats - smallestNum unsortedSeats + 1 = 3 ∧
      ∃ mapped, mapAllRowSeatsForAvailabilityInt32 unsortedSeats
          [{ ID := "s2", Num := 2, PriceCategoryID := none }] = .ok mapped ∧
        mapped.length = 2 ∧
        (mapped.length : Int) ≠ largestNum unsortedSeats - smallestNum unsortedSeats + 1) ∧
    (wideSeats ≠ [] ∧ (seatNums wideSeats).Nodup ∧ (∀ s ∈ wideSeats, IsInt32 s.Num) ∧
      wideSeats.Pairwise (fun x y => x.Num ≤ y.Num) ∧
      largestNum wideSeats - smallestNum wideSeats + 1 = 2147483648 ∧
      mapAllRowSeatsForAvailabilityInt32 wideSeats [] = .panic) := by
  refine ⟨⟨by decide, by decide, by decide, by decide, ?_⟩, by decide⟩
  exact ⟨[ { AvailabilityIndicator := 1, RequestedForNow := false,
             Seat := some { ID := "s1", Num := 1, PriceCategoryID := none } },
           { AvailabilityIndicator := 0, RequestedForNow := true,
             Seat := some { ID := "s2", Num := 2, PriceCategoryID := none } } ],
    by decide, by decide, by decide⟩

/-- C7, amended: for a non-empty list of available seats sorted ascending by seat number
(with unique numbers or not) whose `int32` numbers span fewer than 2^31 numbers
(largest - smallest + 1 < 2^31), and every requested subset of it, the mapper returns a
sequence of length (largest available number - smallest available number + 1), and a seat
carried at position `i` has number (smallest available number + `i`). -/
theorem mapAll_length_sorted (availableRowSeats requestedRowSeats : List Seat)
    (hne : availableRowSeats ≠ [])
    (hsorted : availableRowSeats.Pairwise (fun x y => x.Num ≤ y.Num))
    (hint : ∀ s ∈ availableRowSeats, IsInt32 s.Num)
    (hspan : largestNum availableRowSeats - smallestNum availableRowSeats + 1 < 2147483648)
    (hsub : ∀ r ∈ requestedRowSeats, r ∈ availableRowSeats) :
    ∃ mapped,
      mapAllRowSeatsForAvailabilityInt32 availableRowSeats requestedRowSeats = .ok mapped ∧
      (mapped.length : Int) =
        largestNum availableRowSeats - smallestNum availableRowSeats + 1 ∧
      ∀ (i : Nat) (hi : i < mapped.length) (seat : Seat), mapped[i].Seat = some seat →
        seat.Num = smallestNum availableRowSeats + (i : Int) := by
  have hs := smallestNum_sorted availableRowSeats _ hsorted (List.head?_eq_head hne)
  have hl := largestNum_sorted availableRowSeats _ hsorted (List.getLast?_eq_getLast _ hne)
  rw [mapAllRowSeatsForAvailabilityInt32_eq availableRowSeats requestedRowSeats hne hsorted
    hint (by rw [← hs, ← hl]; exact hspan)]
  exact length_sorted_over_int availableRowSeats requestedRowSeats hne hsorted hsub

/-- C7, amended, at the available seats 1, 2, 4, 5 with seats 1 and 2 requested. -/
theorem mapAll_length_sorted_witness :
    ∃ mapped, mapAllRowSeatsForAvailabilityInt32 seatsWithGap seatsOneTwo = .ok mapped ∧
      (mapped.length : Int) = largestNum seatsWithGap - smallestNum seatsWithGap + 1 ∧
      ∀ (i : Nat) (hi : i < mapped.length) (seat : Seat), mapped[i].Seat = some seat →
        seat.Num = smallestNum seatsWithGap + (i : Int) :=
  mapAll_length_sorted seatsWithGap seatsOneTwo (by decide) (by decide) (by decide)
    (by decide) (by decide)

/-- C8 as stated fails: the available seats numbered 0 and 2147483647 are a non-empty sorted
list and the requested seat number 5 does not occur among them, but the mapper returns no
error: the length of the row wraps around to a negative `int32` and `make` panics before
any look-up. -/
theorem mapAll_error_iff_counterexample :
    wideSeats ≠ [] ∧ wideSeats.Pairwise (fun x y => x.Num ≤ y.Num) ∧
      (∀ s ∈ wideSeats, IsInt32 s.Num) ∧
      (∃ r ∈ [({ ID := "s5", Num := 5, PriceCategoryID := none } : Seat)],
        r.Num ∉ seatNums wideSeats) ∧
      mapAllRowSeatsForAvailabilityInt32 wideSeats
        [{ ID := "s5", Num := 5, PriceCategoryID := none }] = .panic := by
  refine ⟨by decide, by decide, by decide,
    ⟨{ ID := "s5", Num := 5, PriceCategoryID := none }, by decide, by decide⟩, by decide⟩

/-- C8, amended: for a non-empty available list sorted ascending by seat number whose
`int32` numbers span fewer than 2^31 numbers (last - first + 1 < 2^31), the mapper returns an error
(and then no mapped sequence) exactly when some requested seat has a number that does not
occur among the available seats; otherwise it returns a mapped sequence. -/
theorem mapAll_error_iff (availableRowSeats requestedRowSeats : List Seat)
    (hne : availableRowSeats ≠ [])
    (hsorted : availableRowSeats.Pairwise (fun x y => x.Num ≤ y.Num))
    (hint : ∀ s ∈ availableRowSeats, IsInt32 s.Num)
    (hspan : (availableRowSeats.getLast hne).Num - (availableRowSeats.head hne).Num + 1 <
      2147483648) :
    ((∃ e, mapAllRowSeatsForAvailabilityInt32 availableRowSeats requestedRowSeats =
          .error e) ↔
        ∃ r ∈ requestedRowSeats, r.Num ∉ seatNums availableRowSeats) ∧
      ((∃ mapped, mapAllRowSeatsForAvailabilityInt32 availableRowSeats requestedRowSeats =
          .ok mapped) ↔
        ∀ r ∈ requestedRowSeats, r.Num ∈ seatNums availableRowSeats) := by
  rw [mapAllRowSeatsForAvailabilityInt32_eq availableRowSeats requestedRowSeats hne hsorted
    hint hspan]
  exact error_iff_over_int availableRowSeats requestedRowSeats hne hsorted

/-- C8, amended, at the available seats 1, 2, 4, 5: requesting seat 3 is an error,
requesting seats 1 and 2 is not. -/
theorem mapAll_error_iff_witness :
    (∃ e, mapAllRowSeatsForAvailabilityInt32 seatsWithGap
        [{ ID := "s3", Num := 3, PriceCategoryID := none }] = .error e) ∧
      ∃ mapped, mapAllRowSeatsForAvailabilityInt32 seatsWithGap seatsOneTwo = .ok mapped :=
  ⟨(mapAll_error_iff seatsWithGap [{ ID := "s3", Num := 3, PriceCategoryID := none }]
      (by decide) (by decide) (by decide) (by decide)).1.mpr
      ⟨{ ID := "s3", Num := 3, PriceCategoryID := none }, by decide, by decide⟩,
   (mapAll_error_iff seatsWithGap seatsOneTwo (by decide) (by decide) (by decide)
      (by decide)).2.mpr (by decide)⟩

/-- C10 as stated fails: for the available seats handed over as 2147483647, -2147483648 the
`int32` length wraps around to 2 and the mapper returns two entries; position 1 has
indicator 1 and carries the seat numbered -2147483648, while the number of the first
available seat + 1 is 2147483648. -/
theorem available_entry_recovers_num_counterexample :
    wrappingSeats.head? = some { ID := "sMax", Num := 2147483647, PriceCategoryID := none } ∧
      (∀ s ∈ wrappingSeats, IsInt32 s.Num) ∧
      mapAllRowSeatsForAvailabilityInt32 wrappingSeats [] =
        .ok [ { AvailabilityIndicator := 1, RequestedForNow := false,
                Seat := some { ID := "sMax", Num := 2147483647, PriceCategoryID := none } },
              { AvailabilityIndicator := 1, RequestedForNow := false,
                Seat := some
                  { ID := "sMin", Num := -2147483648, PriceCategoryID := none } } ] ∧
      (-2147483648 : Int) ≠ 2147483647 + ((1 : Nat) : Int) := by
  decide

/-- C10, amended: in every successful result of the mapper, a position `i` whose
availability indicator is 1 references an available seat whose number is (number of the
first available seat + `i`) in `int32` arithmetic, that is wrapped around into the `int32`
range; when the available list is sorted ascending by seat number it is the number
(first + `i`) itself. -/
theorem available_entry_recovers_num (availableRowSeats requestedRowSeats : List Seat)
    (mapped : List MappedRowSeat) (firstSeat : Seat)
    (hfirst : availableRowSeats.head? = some firstSeat)
    (hint : ∀ s ∈ availableRowSeats, IsInt32 s.Num)
    (hok : mapAllRowSeatsForAvailabilityInt32 availableRowSeats requestedRowSeats = .ok mapped)
    (i : Nat) (hi : i < mapped.length) (hav : mapped[i].AvailabilityIndicator = 1) :
    ∃ seat ∈ availableRowSeats, mapped[i].Seat = some seat ∧
      seat.Num = wrapInt32 (firstSeat.Num + (i : Int)) ∧
      (availableRowSeats.Pairwise (fun x y => x.Num ≤ y.Num) →
        seat.Num = firstSeat.Num + (i : Int)) := by
  have hne : availableRowSeats ≠ [] := by
    intro h; rw [h] at hfirst; simp at hfirst
  have hlast : availableRowSeats.getLast? = some (availableRowSeats.getLast hne) :=
    List.getLast?_eq_getLast _ hne
  obtain ⟨hsize, hlen, hent⟩ := mapAllInt32_available_entry availableRowSeats
    requestedRowSeats mapped firstSeat _ hfirst hlast hok
  have hunmarked := hent i hi hav
  rw [mapSeatAtInt32_eq_at] at hunmarked
  by_cases hp : wrapInt32 (firstSeat.Num + (i : Int)) + ((0 : Nat) : Int) ∈
      seatNums availableRowSeats
  · obtain ⟨k, hk, hnum, _, hmap⟩ := mapSeatAt_present availableRowSeats _ 0 hp
    have hnum2 : availableRowSeats[k].Num = wrapInt32 (firstSeat.Num + (i : Int)) := by
      rw [hnum]; simp
    refine ⟨availableRowSeats[k], List.getElem_mem _, ?_, hnum2, ?_⟩
    · rw [hunmarked, hmap]
    · intro hsorted
      have hlow := sorted_head_le availableRowSeats _ hsorted hfirst
      have hhigh := sorted_le_last availableRowSeats _ hsorted hlast
      have h1 := hlow _ (List.getLast_mem hne)
      have hfi := hint firstSeat (List.mem_of_mem_head? hfirst)
      have hli := hint _ (List.getLast_mem hne)
      rw [hnum2]
      have hilt : (i : Int) < wrapInt32 ((availableRowSeats.getLast hne).Num -
          firstSeat.Num + 1) := by
        rw [← hlen]; exact_mod_cast hi
      unfold IsInt32 at hfi hli
      unfold wrapInt32 at hilt ⊢
      omega
  · rw [hunmarked, mapSeatAt_absent availableRowSeats _ 0 hp] at hav
    simp at hav

/-- C10, amended, at position 1 of the row mapped from the available seats handed over as
2147483647, -2147483648, which carries the seat numbered -2147483648, the wrapped sum; and
at position 3 of the row mapped from the available seats 1, 2, 4, 5 with seats 1 and 2
requested, which carries seat number 4. -/
theorem available_entry_recovers_num_witness :
    (∃ seat ∈ wrappingSeats,
      (({ AvailabilityIndicator := 1, RequestedForNow := false,
          Seat := some { ID := "sMin", Num := -2147483648, PriceCategoryID := none } } :
        MappedRowSeat)).Seat = some seat ∧
      seat.Num = wrapInt32 (2147483647 + ((1 : Nat) : Int)) ∧
      (wrappingSeats.Pairwise (fun x y => x.Num ≤ y.Num) →
        seat.Num = 2147483647 + ((1 : Nat) : Int))) ∧
    (∃ seat ∈ seatsWithGap,
      (({ AvailabilityIndicator := 1, RequestedForNow := false,
          Seat := some { ID := "s4", Num := 4, PriceCategoryID := none } } :
        MappedRowSeat)).Seat = some seat ∧
      seat.Num = wrapInt32 (1 + ((3 : Nat) : Int)) ∧
      (seatsWithGap.Pairwise (fun x y => x.Num ≤ y.Num) →
        seat.Num = 1 + ((3 : Nat) : Int))) :=
  ⟨available_entry_recovers_num wrappingSeats []
    [ { AvailabilityIndicator := 1, RequestedForNow := false,
        Seat := some { ID := "sMax", Num := 2147483647, PriceCategoryID := none } },
      { AvailabilityIndicator := 1, RequestedForNow := false,
        Seat := some { ID := "sMin", Num := -2147483648, PriceCategoryID := none } } ]
    { ID := "sMax", Num := 2147483647, PriceCategoryID := none } (by decide) (by decide)
    (by decide) 1 (by decide) (by decide),
   available_entry_recovers_num seatsWithGap seatsOneTwo
    [ { AvailabilityIndicator := 0, RequestedForNow := true,
        Seat := some { ID := "s1", Num := 1, PriceCategoryID := none } },
      { AvailabilityIndicator := 0, RequestedForNow := true,
        Seat := some { ID := "s2", Num := 2, PriceCategoryID := none } },
      { AvailabilityIndicator := 0, RequestedForNow := false, Seat := none },
      { AvailabilityIndicator := 1, RequestedForNow := false,
        Seat := some { ID := "s4", Num := 4, PriceCategoryID := none } },
      { AvailabilityIndicator := 1, RequestedForNow := false,
        Seat := some { ID := "s5", Num := 5, PriceCategoryID := none } } ]
    { ID := "s1", Num := 1, PriceCategoryID := none } (by decide) (by decide) (by decide) 3
    (by decide) (by decide)⟩

/-- C11, the code at a failing input: two requested seats of category "pc" (R = 2) with an
all-seats total of T = 25 satisfy R < T/10, yet with A = 4 available seats of the category
`skipFragmentationCheck` returns false: the first test compares A, not R, with T/10 (the
comparisons 4 < 2.5 is exact in `float32`). -/
theorem skip_requested_below_tenth_not_skipped :
    requestedCount twoPricedSeats "pc" = 2 ∧ 10 * (2 : Int) < 25 ∧
    skipFragmentationCheck exactBelowTenth twoPricedSeats
      [("spl", [{ Count := 4, PriceCategoryID := some "pc" }])]
      [("spl", [{ Count := 25, PriceCategoryID := some "pc" }])] = false := by
  decide

/-- C12: when R >= 1 requested seats of the row carry the price category `pc` and the
only-available aggregates hold, under some plan, an entry for `pc` whose count is R + 1,
`skipFragmentationCheck` returns true, whatever the all-seats totals and the outcome of the
`float32` comparison are. -/
theorem skip_when_one_seat_stays (belowTenth : Int → Int → Bool)
    (requestedRowSeats : List Seat)
    (availableSeatsByPriceCategoriesPerSpl allSeatsByPriceCategoriesPerSpl :
      List (String × List SeatsPerPriceCategories))
    (pc splID : String) (pcIDsArr : List SeatsPerPriceCategories)
    (v : SeatsPerPriceCategories)
    (hR : 1 ≤ requestedCount requestedRowSeats pc)
    (hplan : (splID, pcIDsArr) ∈ availableSeatsByPriceCategoriesPerSpl)
    (hv : v ∈ pcIDsArr) (hpc : v.PriceCategoryID = some pc)
    (hcount : v.Count = requestedCount requestedRowSeats pc + 1) :
    skipFragmentationCheck belowTenth requestedRowSeats
      availableSeatsByPriceCategoriesPerSpl allSeatsByPriceCategoriesPerSpl = true := by
  apply skip_true_of_entry belowTenth requestedRowSeats _ _ splID pcIDsArr v hplan hv
  unfold triggersSkip
  rw [hpc]
  simp only
  rw [lookup_requested_counts, if_neg (by omega)]
  simp only
  have h1 : requestedCount requestedRowSeats pc = v.Count - 1 := by omega
  simp [h1]

/-- C12 at two requested seats of category "pc" and three available seats of it. -/
theorem skip_when_one_seat_stays_witness :
    skipFragmentationCheck exactBelowTenth twoPricedSeats
      [("spl", [{ Count := 3, PriceCategoryID := some "pc" }])]
      [("spl", [{ Count := 5, PriceCategoryID := some "pc" }])] = true :=
  skip_when_one_seat_stays exactBelowTenth twoPricedSeats _ _ "pc" "spl"
    [{ Count := 3, PriceCategoryID := some "pc" }] { Count := 3, PriceCategoryID := some "pc" }
    (by decide) (by decide) (by decide) rfl (by decide)

/-- C13: when R >= 1 requested seats of the row carry the price category `pc` and the
only-available aggregates hold, under some plan, an entry for `pc` whose count is R,
`skipFragmentationCheck` returns true, whatever the all-seats totals and the outcome of the
`float32` comparison are. -/
theorem skip_when_category_exhausted (belowTenth : Int → Int → Bool)
    (requestedRowSeats : List Seat)
    (availableSeatsByPriceCategoriesPerSpl allSeatsByPriceCategoriesPerSpl :
      List (String × List SeatsPerPriceCategories))
    (pc splID : String) (pcIDsArr : List SeatsPerPriceCategories)
    (v : SeatsPerPriceCategories)
    (hR : 1 ≤ requestedCount requestedRowSeats pc)
    (hplan : (splID, pcIDsArr) ∈ availableSeatsByPriceCategoriesPerSpl)
    (hv : v ∈ pcIDsArr) (hpc : v.PriceCategoryID = some pc)
    (hcount : v.Count = requestedCount requestedRowSeats pc) :
    skipFragmentationCheck belowTenth requestedRowSeats
      availableSeatsByPriceCategoriesPerSpl allSeatsByPriceCategoriesPerSpl = true := by
  apply skip_true_of_entry belowTenth requestedRowSeats _ _ splID pcIDsArr v hplan hv
  unfold triggersSkip
  rw [hpc]
  simp only
  rw [lookup_requested_counts, if_neg (by omega)]
  simp [hcount]

/-- C13 at two requested seats of category "pc" and two available seats of it. -/
theorem skip_when_category_exhausted_witness :
    skipFragmentationCheck exactBelowTenth twoPricedSeats
      [("spl", [{ Count := 2, PriceCategoryID := some "pc" }])]
      [("spl", [{ Count := 2, PriceCategoryID := some "pc" }])] = true :=
  skip_when_category_exhausted exactBelowTenth twoPricedSeats _ _ "pc" "spl"
    [{ Count := 2, PriceCategoryID := some "pc" }] { Count := 2, PriceCategoryID := some "pc" }
    (by decide) (by decide) (by decide) rfl (by decide)

/-- C14, the code at a failing input: three requested seats of category "pc" (R = 3) with
A = 1 available and T = 20 seats of the category satisfy none of R < T/10, R = A - 1, R = A,
yet `skipFragmentationCheck` returns true, because its first test compares A with T/10
(1 < 2 is exact in `float32`). -/
theorem skip_although_no_condition_holds :
    requestedCount threePricedSeats "pc" = 3 ∧ ¬ (10 * (3 : Int) < 20) ∧
    (3 : Int) ≠ 1 - 1 ∧ (3 : Int) ≠ 1 ∧
    skipFragmentationCheck exactBelowTenth threePricedSeats
      [("spl", [{ Count := 1, PriceCategoryID := some "pc" }])]
      [("spl", [{ Count := 20, PriceCategoryID := some "pc" }])] = true := by
  decide

/-- C15: when none of the requested seats of a row carries a price category,
`skipFragmentationCheck` returns false for every pair of aggregate maps; and in any list of
requested seats the seats without a category add to no count: the map of requested counts is
the one of the seats that carry a category. -/
theorem skip_ignores_seats_without_category (belowTenth : Int → Int → Bool)
    (requestedRowSeats : List Seat)
    (hnone : ∀ s ∈ requestedRowSeats, s.PriceCategoryID = none) :
    (∀ availableSeatsByPriceCategoriesPerSpl allSeatsByPriceCategoriesPerSpl,
      skipFragmentationCheck belowTenth requestedRowSeats
        availableSeatsByPriceCategoriesPerSpl allSeatsByPriceCategoriesPerSpl = false) ∧
    (∀ (seats : List Seat) (counts : List (String × Int)),
      countPriceCategories seats counts =
        countPriceCategories (seats.filter (fun s => s.PriceCategoryID.isSome)) counts) := by
  constructor
  · intro avail all
    rw [skip_eq_any]
    rw [Bool.eq_false_iff]
    intro hany
    obtain ⟨v, _, hv⟩ := List.any_eq_true.mp hany
    rw [triggersSkip_of_not_carried] at hv
    · exact Bool.noConfusion hv
    · unfold carriedBy
      cases hpc : v.PriceCategoryID with
      | none => rfl
      | some pc =>
        have h0 : requestedCount requestedRowSeats pc = 0 := by
          unfold requestedCount
          have : requestedRowSeats.countP (fun s => decide (s.PriceCategoryID = some pc)) = 0 := by
            rw [List.countP_eq_zero]
            intro s hs
            simp [hnone s hs]
          rw [this]; rfl
        simp [h0]
  · intro seats
    induction seats with
    | nil => intro counts; rfl
    | cons s rest ih =>
      intro counts
      cases hs : s.PriceCategoryID with
      | none =>
        simp only [List.filter_cons, hs, Option.isSome_none, Bool.false_eq_true, if_false]
        rw [countPriceCategories, hs]
        exact ih counts
      | some pc =>
        simp only [List.filter_cons, hs, Option.isSome_some, if_true]
        rw [countPriceCategories, countPriceCategories, hs]
        exact ih _

/-- C15 at two requested seats without a price category. -/
theorem skip_ignores_seats_without_category_witness :
    skipFragmentationCheck exactBelowTenth seatsTwoThree
      [("spl", [{ Count := 2, PriceCategoryID := some "pc" }])]
      [("spl", [{ Count := 200, PriceCategoryID := some "pc" }])] = false :=
  (skip_ignores_seats_without_category exactBelowTenth seatsTwoThree (by decide)).1 _ _

/-- C16 as stated fails: the skip heuristic scans the aggregates of every plan. With two
requested seats of category "pc" and the aggregates of the plan "spl" unchanged, adding an
aggregate of 2 available seats of "pc" under the plan "other" turns the result from false to
true. -/
theorem skip_reads_other_plans_counterexample :
    ([("spl", [({ Count := 4, PriceCategoryID := some "pc" } : SeatsPerPriceCategories)]),
      ("other", [])].filter (fun e => e.1 == "spl") =
     [("spl", [({ Count := 4, PriceCategoryID := some "pc" } : SeatsPerPriceCategories)]),
      ("other", [{ Count := 2, PriceCategoryID := some "pc" }])].filter
        (fun e => e.1 == "spl")) ∧
    skipFragmentationCheck exactBelowTenth twoPricedSeats
      [("spl", [{ Count := 4, PriceCategoryID := some "pc" }]), ("other", [])]
      [("spl", [{ Count := 19, PriceCategoryID := some "pc" }])] = false ∧
    skipFragmentationCheck exactBelowTenth twoPricedSeats
      [("spl", [{ Count := 4, PriceCategoryID := some "pc" }]),
       ("other", [{ Count := 2, PriceCategoryID := some "pc" }])]
      [("spl", [{ Count := 19, PriceCategoryID := some "pc" }])] = true := by
  decide

/-- C16, amended: the skip decision reads the aggregates of every plan in the two maps, but
only those of the price categories the requested seats of the row carry. If the aggregates
stored under the plan `splID` are the same in two pairs of maps and no aggregate stored under
another plan, in either pair, is of a category carried by a requested seat, the result of
`skipFragmentationCheck` is the same for both pairs. -/
theorem skip_unchanged_by_other_plans (belowTenth : Int → Int → Bool)
    (requestedRowSeats : List Seat) (splID : String)
    (available available2 allSeats allSeats2 : List (String × List SeatsPerPriceCategories))
    (hav : available.filter (fun e => e.1 == splID) =
      available2.filter (fun e => e.1 == splID))
    (hall : allSeats.filter (fun e => e.1 == splID) =
      allSeats2.filter (fun e => e.1 == splID))
    (hothers : ∀ e ∈ available ++ available2 ++ allSeats ++ allSeats2, e.1 ≠ splID →
      ∀ v ∈ e.2, carriedBy requestedRowSeats v = false) :
    skipFragmentationCheck belowTenth requestedRowSeats available allSeats =
      skipFragmentationCheck belowTenth requestedRowSeats available2 allSeats2 := by
  have h1 := carriedEntries_filter_plan requestedRowSeats splID available
    (fun e he => hothers e (by simp [he]))
  have h2 := carriedEntries_filter_plan requestedRowSeats splID available2
    (fun e he => hothers e (by simp [he]))
  have h3 := carriedEntries_filter_plan requestedRowSeats splID allSeats
    (fun e he => hothers e (by simp [he]))
  have h4 := carriedEntries_filter_plan requestedRowSeats splID allSeats2
    (fun e he => hothers e (by simp [he]))
  apply skip_congr_carriedEntries
  · rw [h1, h2, hav]
  · rw [h3, h4, hall]

/-- C16, amended, at two requested seats of category "pc": an aggregate of category "vip"
added under the plan "other" leaves the result as it is. -/
theorem skip_unchanged_by_other_plans_witness :
    skipFragmentationCheck exactBelowTenth twoPricedSeats
      [("spl", [{ Count := 4, PriceCategoryID := some "pc" }]), ("other", [])]
      [("spl", [{ Count := 19, PriceCategoryID := some "pc" }])] =
    skipFragmentationCheck exactBelowTenth twoPricedSeats
      [("spl", [{ Count := 4, PriceCategoryID := some "pc" }]),
       ("other", [{ Count := 2, PriceCategoryID := some "vip" }])]
      [("spl", [{ Count := 19, PriceCategoryID := some "pc" }]),
       ("other", [{ Count := 2, PriceCategoryID := some "vip" }])] :=
  skip_unchanged_by_other_plans exactBelowTenth twoPricedSeats "spl" _ _ _ _
    (by decide) (by decide) (by decide)

/-- C17: when the loaders succeed (`rowSeats` and `counts` are what they return), the plan
ids of the request are distinct and its row ids are unique across the plans, a run of
`ValidateSeatRules` visits every requested row, and it returns success exactly when every
requested row passes the group-ordering check and is skipped by the call of
`skipFragmentationCheck` made for it or passes the mapper and the detector; so a run that
visits the rows in another order gives success together with it. -/
theorem validate_ok_iff_all_rows_pass (belowTenth : Int → Int → Bool) (s : Storage)
    (visitOrder visitOrder2 : List (String × List Seat) →
      List (String × List SeatsPerPriceCategories) →
      List (String × List SeatsPerPriceCategories) → List RowVisit)
    (orgID : String) (splIDBookAllSeatsInGroup : List (String × String))
    (request : List (String × List (String × List Seat)))
    (rowSeats : String → String → List Seat)
    (counts : String → Bool → List SeatsPerPriceCategories)
    (hrows : ∀ splID rowID, s.GetRowSeatsBySeatingPlanID splID orgID rowID =
      .ok (rowSeats splID rowID))
    (hcounts : ∀ splID onlyAvailable,
      s.GetSeatsCountGroupedByPriceCategories splID orgID onlyAvailable =
        .ok (counts splID onlyAvailable))
    (hvisit : ∀ m a t,
      ((visitOrder m a t).map (fun v => (v.rowID, v.requestedRowSeats))).Perm m)
    (hvisit2 : ∀ m a t, (visitOrder2 m a t).Perm (visitOrder m a t))
    (hplans : (request.map Prod.fst).Nodup) (hunique : (rowIDsOf request).Nodup) :
    (∀ p ∈ request, ∀ r ∈ p.2,
      ∃ v ∈ visitOrder (requestedRowsOf request)
          (request.map (fun q => (q.1, counts q.1 true)))
          (request.map (fun q => (q.1, counts q.1 false))),
        v.rowID = r.1 ∧ v.requestedRowSeats = r.2) ∧
    (ValidateSeatRulesRun belowTenth s visitOrder orgID splIDBookAllSeatsInGroup request =
        .ok () ↔
      ∀ p ∈ request, ∀ r ∈ p.2,
        ∀ v ∈ visitOrder (requestedRowsOf request)
            (request.map (fun q => (q.1, counts q.1 true)))
            (request.map (fun q => (q.1, counts q.1 false))),
          v.rowID = r.1 →
          RowPassesRun belowTenth splIDBookAllSeatsInGroup request r.1 (rowSeats p.1 r.1) r.2
            v.availableOrder) ∧
    (ValidateSeatRulesRun belowTenth s visitOrder orgID splIDBookAllSeatsInGroup request =
        .ok () ↔
      ValidateSeatRulesRun belowTenth s visitOrder2 orgID splIDBookAllSeatsInGroup request =
        .ok ()) := by
  have hload := getRowSeats_of_unique s orgID request rowSeats hrows hplans hunique
  have hav := getSeatsWithPriceCategories_of_nodup s orgID request true counts
    (fun splID => hcounts splID true) hplans
  have hall := getSeatsWithPriceCategories_of_nodup s orgID request false counts
    (fun splID => hcounts splID false) hplans
  have hslice : ∀ p ∈ request, ∀ r ∈ p.2,
      sliceAt (loadedRowsOf rowSeats request) r.1 = rowSeats p.1 r.1 := by
    intro p hp r hr
    apply sliceAt_of_mem
    · rw [loadedRowsOf_keys]; exact hunique
    · exact mem_loadedRowsOf rowSeats request p hp r hr
  have hkeys : ((requestedRowsOf request).map Prod.fst).Nodup := by
    rw [requestedRowsOf_keys]; exact hunique
  have hmemv : ∀ v ∈ visitOrder (requestedRowsOf request)
      (request.map (fun q => (q.1, counts q.1 true)))
      (request.map (fun q => (q.1, counts q.1 false))),
      (v.rowID, v.requestedRowSeats) ∈ requestedRowsOf request := by
    intro v hv
    exact (hvisit _ _ _).mem_iff.mp (List.mem_map.mpr ⟨v, hv, rfl⟩)
  have heq1 := validateRun_eq_of_loaded belowTenth s visitOrder orgID
    splIDBookAllSeatsInGroup request _ _ _ _ hload hav hall
  have heq2 := validateRun_eq_of_loaded belowTenth s visitOrder2 orgID
    splIDBookAllSeatsInGroup request _ _ _ _ hload hav hall
  refine ⟨?_, ?_, ?_⟩
  · intro p hp r hr
    have hr2 : (r.1, r.2) ∈ (visitOrder (requestedRowsOf request)
        (request.map (fun q => (q.1, counts q.1 true)))
        (request.map (fun q => (q.1, counts q.1 false)))).map
          (fun v => (v.rowID, v.requestedRowSeats)) :=
      (hvisit _ _ _).mem_iff.mpr (mem_requestedRowsOf request p hp r hr)
    obtain ⟨v, hv, hpair⟩ := List.mem_map.mp hr2
    injection hpair with h1 h2
    exact ⟨v, hv, h1, h2⟩
  · rw [heq1, validateRowsRun_ok_iff]
    constructor
    · intro hpass p hp r hr v hv hid
      have hv2 := hmemv v hv
      have hreq : v.requestedRowSeats = r.2 := by
        have h1 := lookup_of_mem_nodup (requestedRowsOf request) v.rowID v.requestedRowSeats
          hkeys hv2
        have h2 := lookup_of_mem_nodup (requestedRowsOf request) r.1 r.2 hkeys
          (mem_requestedRowsOf request p hp r hr)
        rw [hid, h2] at h1
        exact (Option.some.inj h1).symm
      have := hpass v hv
      rw [hid, hreq, hslice p hp r hr] at this
      exact this
    · intro hpass v hv
      obtain ⟨p, hp, hr⟩ := List.mem_flatMap.mp (hmemv v hv)
      have := hpass p hp (v.rowID, v.requestedRowSeats) hr v hv rfl
      simp only at this
      rw [hslice p hp (v.rowID, v.requestedRowSeats) hr]
      exact this
  · rw [heq1, heq2, validateRowsRun_ok_iff, validateRowsRun_ok_iff]
    constructor
    · intro h v hv
      exact h v ((hvisit2 _ _ _).mem_iff.mp hv)
    · intro h v hv
      exact h v ((hvisit2 _ _ _).mem_iff.mpr hv)

/-- C17 at a request of two rows in two plans whose aggregates differ: in a run whose calls
of `getCountOfAllSplPriceCategorySeats` visit the all-seats map in one order for the first
row and in the reverse order for the second, both rows are skipped and validation succeeds,
also when the rows are visited in reverse order. -/
theorem validate_ok_iff_all_rows_pass_witness :
    ValidateSeatRulesRun exactBelowTenth crossStorage crossVisits "org" [] crossRequest =
        .ok () ∧
    ValidateSeatRulesRun exactBelowTenth crossStorage
        (fun m a t => (crossVisits m a t).reverse) "org" [] crossRequest = .ok () :=
  have h := validate_ok_iff_all_rows_pass exactBelowTenth crossStorage crossVisits
    (fun m a t => (crossVisits m a t).reverse) "org" [] crossRequest
    (fun _ _ => sixSeats)
    (fun splID onlyAvailable =>
      if splID = "spl" then
        (if onlyAvailable then [{ Count := 5, PriceCategoryID := some "c1" }]
          else [{ Count := 100, PriceCategoryID := some "c1" },
                { Count := 10, PriceCategoryID := some "c2" }])
      else
        (if onlyAvailable then [{ Count := 5, PriceCategoryID := some "c2" }]
          else [{ Count := 10, PriceCategoryID := some "c1" },
                { Count := 100, PriceCategoryID := some "c2" }]))
    (fun _ _ => rfl) (fun _ _ => rfl)
    (fun m a t => by
      unfold crossVisits
      rw [List.map_map]
      have hid : ((fun (v : RowVisit) => (v.rowID, v.requestedRowSeats)) ∘
          fun (r : String × List Seat) =>
            ({ rowID := r.1, requestedRowSeats := r.2,
               availableOrder := drawInOrder a (if r.1 = "row" then t else t.reverse) } :
              RowVisit)) = id := by
        funext r
        rfl
      rw [hid, List.map_id])
    (fun m a t => List.reverse_perm _) (by decide) (by decide)
  have hok := h.2.1.mpr (by
    intro p hp r hr v hv hid
    unfold crossVisits at hv
    obtain ⟨row, hrow, rfl⟩ := List.mem_map.mp hv
    simp only at hid
    have hrow2 : row = ("row", seatsOfC1) ∨ row = ("row2", seatsOfC2) := by
      simpa [requestedRowsOf, crossRequest] using hrow
    have hp2 : p = ("spl", [("row", seatsOfC1)]) ∨ p = ("spl2", [("row2", seatsOfC2)]) := by
      simpa [crossRequest] using hp
    rcases hp2 with rfl | rfl
    · have hr2 : r = ("row", seatsOfC1) := by simpa using hr
      subst hr2
      rcases hrow2 with rfl | rfl
      · exact ⟨by decide, Or.inl (by decide)⟩
      · exact absurd hid (by decide)
    · have hr2 : r = ("row2", seatsOfC2) := by simpa using hr
      subst hr2
      rcases hrow2 with rfl | rfl
      · exact absurd hid (by decide)
      · exact ⟨by decide, Or.inl (by decide)⟩)
  ⟨hok, h.2.2.mp hok⟩

/-- C18: the group-ordering check runs before the skip heuristic. If a row of the regrouped
request fails `checkEventFullGroupOrderingRestriction` with the error `e`,
`ValidateSeatRules` does not return success, whatever the skip heuristic returns for the
row; and when the request consists of that single row and the aggregates load, the error
returned is `e`. -/
theorem group_check_runs_before_skip (belowTenth : Int → Int → Bool) (s : Storage)
    (rangeOrder : List (String × List Seat) → List (String × List Seat))
    (orgID : String) (splIDBookAllSeatsInGroup : List (String × String))
    (request : List (String × List (String × List Seat)))
    (availableRowSeats requestedRowsSeats : List (String × List Seat))
    (rowID : String) (requestedRowSeats : List Seat) (e : SeatRuleError)
    (hload : getRowSeatsForSeatingPlanAndRequestedSeats s orgID request =
      .ok (availableRowSeats, requestedRowsSeats))
    (hrange : ∀ m, (rangeOrder m).Perm m)
    (hrow : (rowID, requestedRowSeats) ∈ requestedRowsSeats)
    (hfail : checkEventFullGroupOrderingRestriction rowID (sliceAt availableRowSeats rowID)
      requestedRowSeats splIDBookAllSeatsInGroup request = .error e) :
    ValidateSeatRules belowTenth s rangeOrder orgID splIDBookAllSeatsInGroup request ≠
        .ok () ∧
      (∀ splID availPC allPC, request = [(splID, [(rowID, requestedRowSeats)])] →
        s.GetSeatsCountGroupedByPriceCategories splID orgID true = .ok availPC →
        s.GetSeatsCountGroupedByPriceCategories splID orgID false = .ok allPC →
        ValidateSeatRules belowTenth s rangeOrder orgID splIDBookAllSeatsInGroup request =
          .error e) := by
  constructor
  · unfold ValidateSeatRules
    rw [hload]
    simp only
    cases getSeatsWithPriceCategoriesForSpl s orgID request true with
    | error e2 => simp
    | panic => simp
    | ok availPC =>
      simp only
      cases getSeatsWithPriceCategoriesForSpl s orgID request false with
      | error e2 => simp
      | panic => simp
      | ok allPC =>
        simp only
        intro hok
        have hpass := (validateRows_ok_iff _ _ _ _ _ _ _).mp hok (rowID, requestedRowSeats)
          ((hrange _).mem_iff.mpr hrow)
        have hcheck := hpass.1
        simp only at hcheck
        rw [hfail] at hcheck
        exact Outcome.noConfusion hcheck
  · intro splID availPC allPC hreq hav hall
    subst hreq
    cases hrowload : s.GetRowSeatsBySeatingPlanID splID orgID rowID with
    | error err =>
      simp [getRowSeatsForSeatingPlanAndRequestedSeats, loadPlans, loadRowsOfPlan, hrowload]
        at hload
    | ok availableSeats =>
      rw [getRowSeats_single s orgID splID rowID requestedRowSeats availableSeats hrowload]
        at hload
      injection hload with hload
      injection hload with h1 h2
      subst h1
      rw [sliceAt_single] at hfail
      rw [validate_single belowTenth s rangeOrder orgID splIDBookAllSeatsInGroup splID rowID
        requestedRowSeats availableSeats availPC allPC hrange hrowload hav hall]
      rw [validateRows, sliceAt_single, hfail]

/-- C18 at a row of six available seats under a full-group restriction, of which two seats
are requested: the skip heuristic would return true, the restriction error is returned. -/
theorem group_check_runs_before_skip_witness :
    skipFragmentationCheck exactBelowTenth twoPricedSeats
      [("spl", [{ Count := 4, PriceCategoryID := some "pc" }])]
      [("spl", [{ Count := 45, PriceCategoryID := some "pc" }])] = true ∧
    ValidateSeatRules exactBelowTenth pricedStorage id "org" [("spl", "random event title")]
      [("spl", [("row", twoPricedSeats)])] =
        .error (.fullGroupRestriction "random event title") :=
  ⟨by decide,
   (group_check_runs_before_skip exactBelowTenth pricedStorage id "org"
      [("spl", "random event title")] [("spl", [("row", twoPricedSeats)])]
      [("row", sixSeats)] [("row", twoPricedSeats)] "row" twoPricedSeats
      (.fullGroupRestriction "random event title") (by decide)
      (fun m => List.Perm.refl m) (by decide) (by decide)).2 "spl"
      [{ Count := 4, PriceCategoryID := some "pc" }]
      [{ Count := 45, PriceCategoryID := some "pc" }] rfl rfl rfl⟩

/-- C19: when a row passed the group-ordering check and the skip heuristic returns true for
it, the loop of `ValidateSeatRules` goes on to the next row without running the mapper and
the detector; a request that consists of this single row (its loaders succeeding) returns
success, whatever the mapper and the detector would report. -/
theorem skipped_row_is_not_checked (belowTenth : Int → Int → Bool) (s : Storage)
    (rangeOrder : List (String × List Seat) → List (String × List Seat))
    (orgID : String) (splIDBookAllSeatsInGroup : List (String × String))
    (splID rowID : String) (requestedRowSeats availableSeats : List Seat)
    (availPC allPC : List SeatsPerPriceCategories)
    (hrange : ∀ m, (rangeOrder m).Perm m)
    (hrow : s.GetRowSeatsBySeatingPlanID splID orgID rowID = .ok availableSeats)
    (hav : s.GetSeatsCountGroupedByPriceCategories splID orgID true = .ok availPC)
    (hall : s.GetSeatsCountGroupedByPriceCategories splID orgID false = .ok allPC)
    (hcheck : checkEventFullGroupOrderingRestriction rowID availableSeats requestedRowSeats
      splIDBookAllSeatsInGroup [(splID, [(rowID, requestedRowSeats)])] = .ok ())
    (hskip : skipFragmentationCheck belowTenth requestedRowSeats [(splID, availPC)]
      [(splID, allPC)] = true) :
    ValidateSeatRules belowTenth s rangeOrder orgID splIDBookAllSeatsInGroup
        [(splID, [(rowID, requestedRowSeats)])] = .ok () ∧
      ∀ rest : List (String × List Seat),
        validateRows belowTenth [(rowID, availableSeats)] splIDBookAllSeatsInGroup
            [(splID, [(rowID, requestedRowSeats)])] [(splID, availPC)] [(splID, allPC)]
            ((rowID, requestedRowSeats) :: rest) =
          validateRows belowTenth [(rowID, availableSeats)] splIDBookAllSeatsInGroup
            [(splID, [(rowID, requestedRowSeats)])] [(splID, availPC)] [(splID, allPC)]
            rest := by
  have hstep : ∀ rest : List (String × List Seat),
      validateRows belowTenth [(rowID, availableSeats)] splIDBookAllSeatsInGroup
          [(splID, [(rowID, requestedRowSeats)])] [(splID, availPC)] [(splID, allPC)]
          ((rowID, requestedRowSeats) :: rest) =
        validateRows belowTenth [(rowID, availableSeats)] splIDBookAllSeatsInGroup
          [(splID, [(rowID, requestedRowSeats)])] [(splID, availPC)] [(splID, allPC)]
          rest := by
    intro rest
    rw [validateRows, sliceAt_single, hcheck]
    simp only
    rw [if_pos hskip]
  refine ⟨?_, hstep⟩
  rw [validate_single belowTenth s rangeOrder orgID splIDBookAllSeatsInGroup splID rowID
    requestedRowSeats availableSeats availPC allPC hrange hrow hav hall, hstep []]
  rfl

/-- C19 at seats 2 and 3 of six available seats, 4 available seats of the category out of
45: the mapper and the detector report fragmentation, validation succeeds. -/
theorem skipped_row_is_not_checked_witness :
    (∃ mapped, mapAllRowSeatsForAvailability sixSeats twoPricedSeats = .ok mapped ∧
      checkMappedRowForFragmentation mapped = .error (.fragmentation "")) ∧
    ValidateSeatRules exactBelowTenth pricedStorage id "org" []
      [("spl", [("row", twoPricedSeats)])] = .ok () :=
  ⟨⟨[ { AvailabilityIndicator := 1, RequestedForNow := false,
        Seat := some { ID := "s1", Num := 1, PriceCategoryID := none } },
      { AvailabilityIndicator := 0, RequestedForNow := true,
        Seat := some { ID := "s2", Num := 2, PriceCategoryID := none } },
      { AvailabilityIndicator := 0, RequestedForNow := true,
        Seat := some { ID := "s3", Num := 3, PriceCategoryID := none } },
      { AvailabilityIndicator := 1, RequestedForNow := false,
        Seat := some { ID := "s4", Num := 4, PriceCategoryID := none } },
      { AvailabilityIndicator := 1, RequestedForNow := false,
        Seat := some { ID := "s5", Num := 5, PriceCategoryID := none } },
      { AvailabilityIndicator := 1, RequestedForNow := false,
        Seat := some { ID := "s6", Num := 6, PriceCategoryID := none } } ],
     by decide, by decide⟩,
   (skipped_row_is_not_checked exactBelowTenth pricedStorage id "org" [] "spl" "row"
      twoPricedSeats sixSeats [{ Count := 4, PriceCategoryID := some "pc" }]
      [{ Count := 45, PriceCategoryID := some "pc" }] (fun m => List.Perm.refl m) rfl rfl rfl
      (by decide) (by decide)).1⟩

/-- C20 as stated fails: seat number 9 is requested in a row whose available seats are 1..6,
the loaders succeed, and the run of `ValidateSeatRules` returns success, because the
requested seat is the last available one of its price category and the skip heuristic waives
the row before the mapper looks the seat up. The request has one plan and one row, so every
`range` has a single order. -/
theorem unavailable_seat_skipped_counterexample :
    getRowSeatsForSeatingPlanAndRequestedSeats lastSeatStorage "org"
        [("spl", [("row", seatNine)])] = .ok ([("row", sixSeats)], [("row", seatNine)]) ∧
    (∃ r ∈ seatNine, r.Num ∉ seatNums sixSeats) ∧
    ValidateSeatRulesRun exactBelowTenth lastSeatStorage visitInOrder "org" []
        [("spl", [("row", seatNine)])] = .ok () := by
  refine ⟨by decide, ⟨{ ID := "s9", Num := 9, PriceCategoryID := some "pc" }, by decide,
    by decide⟩, by decide⟩

/-- C20, amended: when the loaders succeed, a run of `ValidateSeatRules` visits a row that
holds a requested seat whose number is not found among the available seats of the row, and
the call of `skipFragmentationCheck` made for that row does not waive it, the run does not
return success; it returns an error when the available seats of every visited row are a
non-empty list sorted ascending by seat number whose numbers span fewer than 2^31 numbers
(last - first + 1 < 2^31). -/
theorem unavailable_seat_is_fatal (belowTenth : Int → Int → Bool) (s : Storage)
    (visitOrder : List (String × List Seat) → List (String × List SeatsPerPriceCategories) →
      List (String × List SeatsPerPriceCategories) → List RowVisit)
    (orgID : String) (splIDBookAllSeatsInGroup : List (String × String))
    (request : List (String × List (String × List Seat)))
    (availableRowSeats requestedRowsSeats : List (String × List Seat))
    (availPC allPC : List (String × List SeatsPerPriceCategories))
    (visit : RowVisit)
    (hload : getRowSeatsForSeatingPlanAndRequestedSeats s orgID request =
      .ok (availableRowSeats, requestedRowsSeats))
    (hav : getSeatsWithPriceCategoriesForSpl s orgID request true = .ok availPC)
    (hall : getSeatsWithPriceCategoriesForSpl s orgID request false = .ok allPC)
    (hvisit : visit ∈ visitOrder requestedRowsSeats availPC allPC)
    (hmissing : ∃ r ∈ visit.requestedRowSeats,
      r.Num ∉ seatNums (sliceAt availableRowSeats visit.rowID))
    (hnoskip : skipFragmentationCheckRun belowTenth visit.requestedRowSeats
      visit.availableOrder = false) :
    ValidateSeatRulesRun belowTenth s visitOrder orgID splIDBookAllSeatsInGroup request ≠
        .ok () ∧
      ((∀ v ∈ visitOrder requestedRowsSeats availPC allPC,
          ∃ hne : sliceAt availableRowSeats v.rowID ≠ [],
            (sliceAt availableRowSeats v.rowID).Pairwise (fun x y => x.Num ≤ y.Num) ∧
            (∀ x ∈ sliceAt availableRowSeats v.rowID, IsInt32 x.Num) ∧
            ((sliceAt availableRowSeats v.rowID).getLast hne).Num -
              ((sliceAt availableRowSeats v.rowID).head hne).Num + 1 < 2147483648) →
        ∃ e, ValidateSeatRulesRun belowTenth s visitOrder orgID splIDBookAllSeatsInGroup
          request = .error e) := by
  have heq := validateRun_eq_of_loaded belowTenth s visitOrder orgID
    splIDBookAllSeatsInGroup request _ _ _ _ hload hav hall
  have hnot : validateRowsRun belowTenth availableRowSeats splIDBookAllSeatsInGroup request
      (visitOrder requestedRowsSeats availPC allPC) ≠ .ok () := by
    intro hok
    have hpass := (validateRowsRun_ok_iff _ _ _ _ _).mp hok visit hvisit
    rcases hpass.2 with h | ⟨mapped, hm, _⟩
    · rw [hnoskip] at h
      exact Bool.noConfusion h
    · exact mapAllInt32_not_ok_of_missing _ _ mapped hmissing hm
  rw [heq]
  refine ⟨hnot, ?_⟩
  intro hrows
  have hnp := validateRowsRun_ne_panic belowTenth availableRowSeats splIDBookAllSeatsInGroup
    request (visitOrder requestedRowsSeats availPC allPC) hrows
  cases hres : validateRowsRun belowTenth availableRowSeats splIDBookAllSeatsInGroup request
      (visitOrder requestedRowsSeats availPC allPC) with
  | ok u => exact absurd hres hnot
  | error e => exact ⟨e, rfl⟩
  | panic => exact absurd hres hnp

/-- C20, amended, at seat number 9 requested in a row of the available seats 1..6, with 4
available seats of the category out of 19: the row is not skipped and the mapper's error is
returned. -/
theorem unavailable_seat_is_fatal_witness :
    ∃ e, ValidateSeatRulesRun exactBelowTenth plainStorage visitInOrder "org" []
      [("spl", [("row", seatNine)])] = .error e :=
  (unavailable_seat_is_fatal exactBelowTenth plainStorage visitInOrder "org" []
    [("spl", [("row", seatNine)])] [("row", sixSeats)] [("row", seatNine)]
    [("spl", [{ Count := 4, PriceCategoryID := some "pc" }])]
    [("spl", [{ Count := 19, PriceCategoryID := some "pc" }])]
    { rowID := "row", requestedRowSeats := seatNine,
      availableOrder := drawInOrder [("spl", [{ Count := 4, PriceCategoryID := some "pc" }])]
        [("spl", [{ Count := 19, PriceCategoryID := some "pc" }])] }
    (by decide) (by decide) (by decide) (by decide)
    ⟨{ ID := "s9", Num := 9, PriceCategoryID := some "pc" }, by decide, by decide⟩
    (by decide)).2 (by
      intro v hv
      have hv2 := List.mem_singleton.mp hv
      subst hv2
      exact ⟨by decide, by decide, by decide, by decide⟩)

/-- C21: if the row loader fails for a row of the request, or the aggregate loader fails for
a plan of the request, then `ValidateSeatRules` returns an error that wraps the error of a
failed loader call: its text is the context followed by that error. The result is the same
whatever the restriction map, the comparison of the skip heuristic and the visiting order of
the rows are: no rule check decides it. -/
theorem loader_failure_is_returned (s : Storage) (orgID : String)
    (request : List (String × List (String × List Seat)))
    (hfail :
      (∃ p ∈ request, ∃ r ∈ p.2, ∃ c,
        s.GetRowSeatsBySeatingPlanID p.1 orgID r.1 = .error c) ∨
      (∃ p ∈ request, ∃ b c,
        s.GetSeatsCountGroupedByPriceCategories p.1 orgID b = .error c)) :
    ∃ e cause,
      ((e = .querySeats cause ∧ e.message = "error while querying seats " ++ cause ∧
          ∃ p ∈ request, ∃ r ∈ p.2,
            s.GetRowSeatsBySeatingPlanID p.1 orgID r.1 = .error cause) ∨
        (e = .querySeatsPriceCategories cause ∧
          e.message = "error while querying seats price categories " ++ cause ∧
          ∃ p ∈ request, ∃ b,
            s.GetSeatsCountGroupedByPriceCategories p.1 orgID b = .error cause)) ∧
      ∀ (belowTenth : Int → Int → Bool)
        (rangeOrder : List (String × List Seat) → List (String × List Seat))
        (restricted : List (String × String)),
        ValidateSeatRules belowTenth s rangeOrder orgID restricted request = .error e := by
  rcases loadPlans_cases s orgID request request ([], []) with
    ⟨⟨maps, hok⟩, hrows⟩ | ⟨p, hp, r, hr, c, hc, he⟩
  · rcases loadPriceCategories_cases s orgID true request [] with
      ⟨⟨availPC, hokA⟩, hallA⟩ | ⟨p, hp, c, hc, he⟩
    · rcases loadPriceCategories_cases s orgID false request [] with
        ⟨⟨allPC, hokT⟩, hallT⟩ | ⟨p, hp, c, hc, he⟩
      · exfalso
        rcases hfail with ⟨p, hp, r, hr, c, hc⟩ | ⟨p, hp, b, c, hc⟩
        · rcases hrows p hp r hr with ⟨seats, hs⟩
          rw [hs] at hc; cases hc
        · cases b with
          | true => rcases hallA p hp with ⟨res, hs⟩; rw [hs] at hc; cases hc
          | false => rcases hallT p hp with ⟨res, hs⟩; rw [hs] at hc; cases hc
      · refine ⟨.querySeatsPriceCategories c, c, Or.inr ⟨rfl, rfl, p, hp, false, hc⟩, ?_⟩
        intro belowTenth rangeOrder restricted
        obtain ⟨am, rm⟩ := maps
        simp only [ValidateSeatRules, getRowSeatsForSeatingPlanAndRequestedSeats, hok,
          getSeatsWithPriceCategoriesForSpl, hokA, he]
    · refine ⟨.querySeatsPriceCategories c, c, Or.inr ⟨rfl, rfl, p, hp, true, hc⟩, ?_⟩
      intro belowTenth rangeOrder restricted
      obtain ⟨am, rm⟩ := maps
      simp only [ValidateSeatRules, getRowSeatsForSeatingPlanAndRequestedSeats, hok,
        getSeatsWithPriceCategoriesForSpl, he]
  · refine ⟨.querySeats c, c, Or.inl ⟨rfl, rfl, p, hp, r, hr, hc⟩, ?_⟩
    intro belowTenth rangeOrder restricted
    simp only [ValidateSeatRules, getRowSeatsForSeatingPlanAndRequestedSeats, he]

/-- C21 at a database whose row loader fails with "connection lost". -/
theorem loader_failure_is_returned_witness :
    ∃ e cause,
      ((e = .querySeats cause ∧ e.message = "error while querying seats " ++ cause ∧
          ∃ p ∈ [("spl", [("row", seatsTwoThree)])], ∃ r ∈ p.2,
            brokenStorage.GetRowSeatsBySeatingPlanID p.1 "org" r.1 = .error cause) ∨
        (e = .querySeatsPriceCategories cause ∧
          e.message = "error while querying seats price categories " ++ cause ∧
          ∃ p ∈ [("spl", [("row", seatsTwoThree)])], ∃ b,
            brokenStorage.GetSeatsCountGroupedByPriceCategories p.1 "org" b = .error cause)) ∧
      ∀ (belowTenth : Int → Int → Bool)
        (rangeOrder : List (String × List Seat) → List (String × List Seat))
        (restricted : List (String × String)),
        ValidateSeatRules belowTenth brokenStorage rangeOrder "org" restricted
          [("spl", [("row", seatsTwoThree)])] = .error e :=
  loader_failure_is_returned brokenStorage "org" [("spl", [("row", seatsTwoThree)])]
    (Or.inl ⟨("spl", [("row", seatsTwoThree)]), List.mem_cons_self _ _,
      ("row", seatsTwoThree), List.mem_cons_self _ _, "connection lost", rfl⟩)

/-- C22, the code at a failing input: requesting seats 2 and 3 of the six available seats
1..6 builds a row that has no violation while the two seats are counted as available and has
one once they are marked, yet the error carries no conflicting seat id. The mirror image,
seats 4 and 5, is reported with the conflicting seat "s5". -/
theorem request_caused_fragmentation_without_id :
    mapAllRowSeatsForAvailability sixSeats seatsTwoThree = .ok rowTwoThreeRequested ∧
      checkMappedRowForFragmentation (withRequestedAvailable rowTwoThreeRequested) = .ok () ∧
      checkMappedRowForFragmentation rowTwoThreeRequested = .error (.fragmentation "") ∧
      mapAllRowSeatsForAvailability sixSeats seatsFourFive = .ok rowFourFiveRequested ∧
      checkMappedRowForFragmentation (withRequestedAvailable rowFourFiveRequested) = .ok () ∧
      checkMappedRowForFragmentation rowFourFiveRequested = .error (.fragmentation "s5") := by
  decide

/-- C23 as stated fails: in both rows index 0 has no violation on its left and one on its
right. In the first row positions 0 and 1 are both requested now, so the first `k >= 0` with
`k` and `k+1` both requested is 0, the seat "a"; the detector reports the seat "b" of
position 1. In the second row no two adjacent positions are both requested now; the detector
reports the seat "a". -/
theorem right_conflict_pair_counterexample :
    (lone (leftView rowRequestedThenFree 0) = false ∧
      lone (rightView rowRequestedThenFree 0) = true ∧
      requestedAt rowRequestedThenFree 0 = true ∧ requestedAt rowRequestedThenFree 1 = true ∧
      seatAt rowRequestedThenFree 0 = some { ID := "a", Num := 1, PriceCategoryID := none } ∧
      fragmentationCheck 0 rowRequestedThenFree = .error (.fragmentation "b")) ∧
    (lone (leftView rowRequestedBeforeFree 0) = false ∧
      lone (rightView rowRequestedBeforeFree 0) = true ∧
      (∀ k, k < 2 → ¬(requestedAt rowRequestedBeforeFree k = true ∧
        requestedAt rowRequestedBeforeFree (k + 1) = true)) ∧
      fragmentationCheck 0 rowRequestedBeforeFree = .error (.fragmentation "a")) := by
  decide

/-- C23, amended: on a violation found at index `i` on the right side, the left side having
none, `fragmentationCheck` reports as conflicting seat the seat at the first position `k`
from `i` upwards, `k + 1` inside the row, with position `k` requested now and position `k+1`
not requested now; it reports no seat id when no such position exists. -/
theorem right_conflict_attribution (rowSeats : List MappedRowSeat) (i : Nat)
    (hi : i < rowSeats.length) (hleft : lone (leftView rowSeats i) = false)
    (hright : lone (rightView rowSeats i) = true) :
    (∀ (k : Nat) (seat : Seat), i ≤ k → k + 1 < rowSeats.length →
      requestedAt rowSeats k = true → requestedAt rowSeats (k + 1) = false →
      (∀ t, i ≤ t → t < k →
        ¬(requestedAt rowSeats t = true ∧ requestedAt rowSeats (t + 1) = false)) →
      seatAt rowSeats k = some seat →
      fragmentationCheck (i : Int) rowSeats = .error (.fragmentation seat.ID)) ∧
    ((∀ t, i ≤ t → t + 1 < rowSeats.length →
        ¬(requestedAt rowSeats t = true ∧ requestedAt rowSeats (t + 1) = false)) →
      fragmentationCheck (i : Int) rowSeats = .error (.fragmentation "")) := by
  have hfc : fragmentationCheck (i : Int) rowSeats =
      rightConflict rowSeats (rowSeats.length - 1 - i) (i : Int) := by
    rw [fragmentationCheck_eq rowSeats i hi, if_neg (by rw [hleft]; simp), if_pos hright]
  constructor
  · intro k seat hik hk1 hr1 hr2 hfirst hseat
    have hk : k < rowSeats.length := by omega
    rw [hfc, rightConflict_at_edge rowSeats k hk hk1 ⟨hr1, hr2⟩ (rowSeats.length - 1 - i) i
      (by omega) hik hfirst]
    rw [seatAt_eq rowSeats k hk] at hseat
    exact conflictAt_of_seat _ seat hseat
  · intro hno
    rw [hfc]
    exact rightConflict_no_edge rowSeats (rowSeats.length - 1 - i) i (by omega) hno

/-- C23, amended, at seats 1 and 2 requested and seat 3 available, checked at index 0: the
seat "b" of position 1 is reported. -/
theorem right_conflict_attribution_witness :
    fragmentationCheck ((0 : Nat) : Int) rowRequestedThenFree = .error (.fragmentation "b") :=
  (right_conflict_attribution rowRequestedThenFree 0 (by decide) (by decide) (by decide)).1 1
    { ID := "b", Num := 2, PriceCategoryID := none }
    (by decide) (by decide) (by decide) (by decide)
    (fun t _ ht => by
      have h0 : t = 0 := by omega
      subst h0
      decide)
    (by decide)

/-- C24: for a row whose priced requested seats all carry the one category `c` (at least one
of them), with exactly one aggregate `vA` for `c` among the available seats of all plans and
exactly one aggregate `vT` for `c` among all seats, and the comparison exact at these two
counts, `skipFragmentationCheck` returns true if and only if `10 * A < T`, or `R = A - 1`,
or `R = A`: the threshold is measured against the available count `A`. -/
theorem skip_iff_for_single_category (belowTenth : Int → Int → Bool) (req : List Seat)
    (avail all : List (String × List SeatsPerPriceCategories)) (c : String)
    (vA vT : SeatsPerPriceCategories)
    (hone : ∀ s ∈ req, s.PriceCategoryID = none ∨ s.PriceCategoryID = some c)
    (hR : 1 ≤ requestedCount req c)
    (hA : (avail.flatMap Prod.snd).filter (fun v => decide (v.PriceCategoryID = some c)) = [vA])
    (hT : (all.flatMap Prod.snd).filter (fun v => decide (v.PriceCategoryID = some c)) = [vT])
    (hexact : belowTenth vA.Count vT.Count = decide (10 * vA.Count < vT.Count)) :
    skipFragmentationCheck belowTenth req avail all = true ↔
      (10 * vA.Count < vT.Count ∨ requestedCount req c = vA.Count - 1 ∨
        requestedCount req c = vA.Count) := by
  have hR0 : requestedCount req c ≠ 0 := by omega
  have hmemA : vA ∈ (avail.flatMap Prod.snd).filter
      (fun v => decide (v.PriceCategoryID = some c)) := by
    rw [hA]; exact List.mem_singleton.mpr rfl
  have hcatA : vA.PriceCategoryID = some c := by
    have := (List.mem_filter.mp hmemA).2
    simpa using this
  have htrig : triggersSkip belowTenth (countPriceCategories req []) all vA = true ↔
      (10 * vA.Count < vT.Count ∨ requestedCount req c = vA.Count - 1 ∨
        requestedCount req c = vA.Count) := by
    rw [triggersSkip_of_category belowTenth req all vA c hcatA hR0,
      getCount_of_single all c vT hT, hexact]
    simp only [Bool.or_eq_true, decide_eq_true_eq, or_assoc]
  rw [skip_eq_any, List.any_eq_true]
  constructor
  · rintro ⟨v, hv, ht⟩
    rcases triggersSkip_category belowTenth req all v ht with ⟨pc, hpc, hne⟩
    rcases requestedCount_pos_mem req pc hne with ⟨s, hs, hsc⟩
    have hpcc : pc = c := by
      rcases hone s hs with h | h
      · rw [h] at hsc; cases hsc
      · rw [h] at hsc; exact (Option.some.inj hsc).symm
    have hvA : v = vA := by
      have hvm : v ∈ (avail.flatMap Prod.snd).filter
          (fun v => decide (v.PriceCategoryID = some c)) :=
        List.mem_filter.mpr ⟨hv, by simp [hpc, hpcc]⟩
      rw [hA] at hvm
      exact List.mem_singleton.mp hvm
    rw [hvA] at ht
    exact htrig.mp ht
  · intro h
    exact ⟨vA, (List.mem_filter.mp hmemA).1, htrig.mpr h⟩

/-- C24 at two requested seats of category "pc", 4 available seats of it and 45 in all. -/
theorem skip_iff_for_single_category_witness :
    skipFragmentationCheck exactBelowTenth twoPricedSeats
        [("spl", [{ Count := 4, PriceCategoryID := some "pc" }])]
        [("spl", [{ Count := 45, PriceCategoryID := some "pc" }])] = true ↔
      ((10 : Int) * 4 < 45 ∨ requestedCount twoPricedSeats "pc" = 4 - 1 ∨
        requestedCount twoPricedSeats "pc" = 4) :=
  skip_iff_for_single_category exactBelowTenth twoPricedSeats
    [("spl", [{ Count := 4, PriceCategoryID := some "pc" }])]
    [("spl", [{ Count := 45, PriceCategoryID := some "pc" }])] "pc"
    { Count := 4, PriceCategoryID := some "pc" } { Count := 45, PriceCategoryID := some "pc" }
    (by decide) (by decide) (by decide) (by decide) (by decide)

/-- C25: for a row that the request lists under no seating plan of the full-group
restriction map, `checkEventFullGroupOrderingRestriction` returns no error whenever the
requested seats are not more than the available seats, partial requests included. -/
theorem unrestricted_row_passes_group_check (rowID : String) (avail req : List Seat)
    (restricted : List (String × String))
    (request : List (String × List (String × List Seat)))
    (hnot : ∀ p ∈ restricted, rowID ∉ (rowsOfPlan request p.1).map Prod.fst)
    (hle : req.length ≤ avail.length) :
    checkEventFullGroupOrderingRestriction rowID avail req restricted request = .ok () := by
  unfold checkEventFullGroupOrderingRestriction
  rw [if_neg (by omega)]
  exact checkRestrictedPlans_of_not_listed rowID avail req request restricted hnot

/-- C25 at two requested seats of six available ones, in a row listed under the plan "spl2"
only, the restriction being on the plan "spl". -/
theorem unrestricted_row_passes_group_check_witness :
    checkEventFullGroupOrderingRestriction "row" sixSeats seatsTwoThree
      [("spl", "Event")] [("spl", [("other", seatsTwoThree)]), ("spl2", [("row", seatsTwoThree)])]
      = .ok () :=
  unrestricted_row_passes_group_check "row" sixSeats seatsTwoThree [("spl", "Event")]
    [("spl", [("other", seatsTwoThree)]), ("spl2", [("row", seatsTwoThree)])]
    (by decide) (by decide)

/-- C26: for every mapped row, evaluating `fragmentationCheck` only at the first index of
each maximal run of unavailable positions, in ascending order, yields the same outcome as
`checkMappedRowForFragmentation`, which evaluates it at every unavailable index: the same
pass or fail result and the same error with the same conflicting seat id. -/
theorem boundary_scan_equals_full_scan (rowSeats : List MappedRowSeat) :
    checkRunBoundariesOnly rowSeats = checkMappedRowForFragmentation rowSeats := by
  have hok : ∀ i ∈ (List.range rowSeats.length).filter (startsUnavailableRun rowSeats),
      fragmentedAt rowSeats i = false → fragmentationCheck (i : Int) rowSeats = .ok () := by
    intro i hi hf
    rcases List.mem_filter.mp hi with ⟨hr, hs⟩
    have hlen : i < rowSeats.length := List.mem_range.mp hr
    unfold startsUnavailableRun at hs
    rw [availableAt_of_lt rowSeats i hlen] at hs
    have hu : isAvailable rowSeats[i] = false := by
      cases hav : isAvailable rowSeats[i] with
      | false => rfl
      | true => rw [hav] at hs; simp at hs
    exact fragmentationCheck_ok_of_not_fragmented rowSeats i hlen hu hf
  unfold checkRunBoundariesOnly
  by_cases hex : ∃ p, fragmentedAt rowSeats p = true
  · rcases checkMapped_first rowSeats hex with ⟨p, hp, hfirst, heq⟩
    rw [heq]
    have hlen : p < rowSeats.length := (fragmentedAt_true rowSeats p hp).1
    have hmem : p ∈ (List.range rowSeats.length).filter (startsUnavailableRun rowSeats) :=
      List.mem_filter.mpr ⟨List.mem_range.mpr hlen,
        first_fragmented_starts_run rowSeats p hp hfirst⟩
    rcases List.append_of_mem hmem with ⟨s, t, hst⟩
    have hsorted : ((List.range rowSeats.length).filter
        (startsUnavailableRun rowSeats)).Pairwise (fun a b => a < b) :=
      (List.pairwise_lt_range rowSeats.length).sublist (List.filter_sublist _)
    rw [hst] at hsorted
    have hlt : ∀ a ∈ s, a < p := fun a ha =>
      (List.pairwise_append.mp hsorted).2.2 a ha p (List.mem_cons_self _ _)
    rw [hst]
    apply checkAtIndices_first rowSeats p t (fragmentationCheck_of_fragmentedAt rowSeats p hp).1
    intro a ha
    apply hok a
    · rw [hst]; exact List.mem_append_left _ ha
    · exact hfirst a (hlt a ha)
  · have hall : ∀ p, fragmentedAt rowSeats p = false := by
      intro p
      cases hf : fragmentedAt rowSeats p with
      | false => rfl
      | true => exact absurd ⟨p, hf⟩ hex
    rw [(checkMapped_ok_iff rowSeats).mpr hall]
    exact checkAtIndices_all_ok rowSeats _ (fun i hi => hok i hi (hall i))

/-- C27 as stated fails: the request lists the row "row" under the plans "spl" and "spl2";
the returned requested-seats map holds under "row" the seats listed under "spl2", not the
seats the request lists for that row under "spl". -/
theorem regrouping_shared_row_counterexample :
    ("spl", [("row", seatsOneTwo)]) ∈ sharedRowRequest ∧
      getRowSeatsForSeatingPlanAndRequestedSeats pricedStorage "org" sharedRowRequest =
        .ok ([("row", sixSeats)], [("row", seatsTwoThree)]) ∧
      List.lookup "row" [("row", seatsTwoThree)] ≠ some seatsOneTwo := by
  decide

/-- C27, amended: when no row id occurs under two plans of the request and the row loader
succeeds, `getRowSeatsForSeatingPlanAndRequestedSeats` returns two maps keyed by the row ids
of the request, the plan ids discarded: for every plan and every row the request lists under
it, the requested-seats map holds under that row id exactly the seats the request lists for
that row in that plan, and the available-seats map holds under that row id the loader's
result for that plan and row. -/
theorem regrouping_by_unique_row (s : Storage) (orgID : String)
    (request : List (String × List (String × List Seat)))
    (rowSeats : String → String → List Seat)
    (hload : ∀ splID rowID, s.GetRowSeatsBySeatingPlanID splID orgID rowID =
      .ok (rowSeats splID rowID))
    (hplans : (request.map Prod.fst).Nodup) (hunique : (rowIDsOf request).Nodup) :
    ∃ availableRowSeats requestedRowSeats,
      getRowSeatsForSeatingPlanAndRequestedSeats s orgID request =
        .ok (availableRowSeats, requestedRowSeats) ∧
      availableRowSeats.map Prod.fst = rowIDsOf request ∧
      requestedRowSeats.map Prod.fst = rowIDsOf request ∧
      ∀ p ∈ request, ∀ r ∈ p.2,
        requestedRowSeats.lookup r.1 = some r.2 ∧
        availableRowSeats.lookup r.1 = some (rowSeats p.1 r.1) := by
  refine ⟨loadedRowsOf rowSeats request, requestedRowsOf request,
    getRowSeats_of_unique s orgID request rowSeats hload hplans hunique,
    loadedRowsOf_keys rowSeats request, requestedRowsOf_keys request, ?_⟩
  intro p hp r hr
  constructor
  · exact lookup_of_mem_nodup (requestedRowsOf request) r.1 r.2
      (by rw [requestedRowsOf_keys]; exact hunique) (mem_requestedRowsOf request p hp r hr)
  · exact lookup_of_mem_nodup (loadedRowsOf rowSeats request) r.1 (rowSeats p.1 r.1)
      (by rw [loadedRowsOf_keys]; exact hunique) (mem_loadedRowsOf rowSeats request p hp r hr)

/-- C27, amended, at a request of the rows "row" and "row2" under two plans. -/
theorem regrouping_by_unique_row_witness :
    ∃ availableRowSeats requestedRowSeats,
      getRowSeatsForSeatingPlanAndRequestedSeats pricedStorage "org"
          [("spl", [("row", seatsOneTwo)]), ("spl2", [("row2", seatsTwoThree)])] =
        .ok (availableRowSeats, requestedRowSeats) ∧
      availableRowSeats.map Prod.fst =
        rowIDsOf [("spl", [("row", seatsOneTwo)]), ("spl2", [("row2", seatsTwoThree)])] ∧
      requestedRowSeats.map Prod.fst =
        rowIDsOf [("spl", [("row", seatsOneTwo)]), ("spl2", [("row2", seatsTwoThree)])] ∧
      ∀ p ∈ [("spl", [("row", seatsOneTwo)]), ("spl2", [("row2", seatsTwoThree)])],
        ∀ r ∈ p.2,
        requestedRowSeats.lookup r.1 = some r.2 ∧
        availableRowSeats.lookup r.1 = some ((fun _ _ => sixSeats) p.1 r.1) :=
  regrouping_by_unique_row pricedStorage "org"
    [("spl", [("row", seatsOneTwo)]), ("spl2", [("row2", seatsTwoThree)])]
    (fun _ _ => sixSeats) (fun _ _ => rfl) (by decide) (by decide)

/-- C28 as stated fails: the available seats numbered 0 and 2147483647 are a non-empty list
sorted ascending with unique numbers and both are requested, as many seats as are available
with pairwise distinct numbers, but the mapper marks nothing: the length of the row wraps
around to a negative `int32` and `make` panics. -/
theorem whole_row_never_fragments_counterexample :
    wideSeats ≠ [] ∧ wideSeats.Pairwise (fun x y => x.Num < y.Num) ∧
      (∀ s ∈ wideSeats, IsInt32 s.Num) ∧ (seatNums wideSeats).Nodup ∧
      (∀ r ∈ wideSeats, r.Num ∈ seatNums wideSeats) ∧
      mapAllRowSeatsForAvailabilityInt32 wideSeats wideSeats = .panic := by
  decide

/-- C28, amended: for a non-empty available list sorted ascending by seat number with unique
`int32` numbers that span fewer than 2^31 numbers (last - first + 1 < 2^31), if the requested
seats have pairwise distinct numbers, all occur among the available seats and are as many as the
available seats, then the mapper returns a row in which every position is unavailable and
`checkMappedRowForFragmentation` returns no error on it, whether or not the available seat
numbers have gaps. -/
theorem whole_row_never_fragments (availableRowSeats requestedRowSeats : List Seat)
    (hne : availableRowSeats ≠ [])
    (hsorted : availableRowSeats.Pairwise (fun x y => x.Num < y.Num))
    (hint : ∀ s ∈ availableRowSeats, IsInt32 s.Num)
    (hspan : (availableRowSeats.getLast hne).Num - (availableRowSeats.head hne).Num + 1 <
      2147483648)
    (hdistinct : (seatNums requestedRowSeats).Nodup)
    (hamong : ∀ r ∈ requestedRowSeats, r.Num ∈ seatNums availableRowSeats)
    (hcount : requestedRowSeats.length = availableRowSeats.length) :
    ∃ mapped,
      mapAllRowSeatsForAvailabilityInt32 availableRowSeats requestedRowSeats = .ok mapped ∧
      (∀ e ∈ mapped, e.AvailabilityIndicator = 0) ∧
      checkMappedRowForFragmentation mapped = .ok () := by
  rw [mapAllRowSeatsForAvailabilityInt32_eq availableRowSeats requestedRowSeats hne
    (hsorted.imp (fun h => Int.le_of_lt h)) hint hspan]
  exact whole_row_over_int availableRowSeats requestedRowSeats hne hsorted
    hdistinct hamong hcount

/-- C28, amended, at the available seats 1, 2, 4, 5, all four requested. -/
theorem whole_row_never_fragments_witness :
    ∃ mapped,
      mapAllRowSeatsForAvailabilityInt32 seatsWithGap seatsWithGap = .ok mapped ∧
      (∀ e ∈ mapped, e.AvailabilityIndicator = 0) ∧
      checkMappedRowForFragmentation mapped = .ok () :=
  whole_row_never_fragments seatsWithGap seatsWithGap (by decide) (by decide) (by decide)
    (by decide) (by decide) (by decide) (by decide)

/-- C29: whether `checkMappedRowForFragmentation` passes or fails depends only on the
availability indicators: two mapped rows with equal indicators at every position (so of the
same length), whatever their `RequestedForNow` flags and seats are, every requested position
carrying a seat, either both pass or both fail with a fragmentation error. -/
theorem detector_depends_on_indicators (row1 row2 : List MappedRowSeat)
    (hind : row1.map (fun s => s.AvailabilityIndicator) =
      row2.map (fun s => s.AvailabilityIndicator))
    (hc1 : SeatsCarried row1) (hc2 : SeatsCarried row2) :
    (checkMappedRowForFragmentation row1 = .ok () ↔
        checkMappedRowForFragmentation row2 = .ok ()) ∧
      ((∃ id, checkMappedRowForFragmentation row1 = .error (.fragmentation id)) ↔
        ∃ id, checkMappedRowForFragmentation row2 = .error (.fragmentation id)) := by
  have hfr := fragmentedAt_congr row1 row2 (map_isAvailable_of_indicators row1 row2 hind)
  constructor
  · rw [checkMapped_ok_iff, checkMapped_ok_iff]
    constructor
    · intro h p; rw [← hfr p]; exact h p
    · intro h p; rw [hfr p]; exact h p
  · rw [checkMapped_error_iff row1 hc1, checkMapped_error_iff row2 hc2]
    constructor
    · rintro ⟨p, hp⟩; exact ⟨p, by rw [← hfr p]; exact hp⟩
    · rintro ⟨p, hp⟩; exact ⟨p, by rw [hfr p]; exact hp⟩

/-- C29 at two rows of indicators 1, 0, 0: seats 2 and 3 requested now in one, unavailable
before the request in the other. -/
theorem detector_depends_on_indicators_witness :
    (checkMappedRowForFragmentation rowOneTwoThree = .ok () ↔
        checkMappedRowForFragmentation rowOneOnly = .ok ()) ∧
      ((∃ id, checkMappedRowForFragmentation rowOneTwoThree = .error (.fragmentation id)) ↔
        ∃ id, checkMappedRowForFragmentation rowOneOnly = .error (.fragmentation id)) :=
  detector_depends_on_indicators rowOneTwoThree rowOneOnly (by decide) (by decide) (by decide)

/-- C30: whenever `fragmentationCheck` returns an error that carries a conflicting seat id
(a non-empty `ConflictingSeatID`), that id is the id of the seat of an entry of the row whose
`RequestedForNow` flag is true. -/
theorem conflicting_seat_is_requested (i : Int) (rowSeats : List MappedRowSeat) (id : String)
    (h : fragmentationCheck i rowSeats = .error (.fragmentation id)) (hid : id ≠ "") :
    ∃ (k : Nat) (entry : MappedRowSeat) (seat : Seat),
      rowSeats[k]? = some entry ∧ entry.RequestedForNow = true ∧
        entry.Seat = some seat ∧ seat.ID = id := by
  unfold fragmentationCheck at h
  cases hL : leftLoop i rowSeats (rowSeats.length - 1) 1 2 false 0 with
  | panic => rw [hL] at h; cases h
  | error e => exact absurd hL (leftLoop_ne_error i rowSeats e _ _ _ _ _)
  | ok pr =>
    obtain ⟨startLeft, leftSpaces⟩ := pr
    rw [hL] at h
    simp only at h
    by_cases hc : startLeft = true ∧ leftSpaces ≠ 2
    · rw [if_pos hc] at h
      rcases leftConflict_frag rowSeats id _ h with h0 | h1
      · exact absurd h0 hid
      · exact h1
    · rw [if_neg hc] at h
      cases hR : rightLoop i rowSeats (rowSeats.length - 1) 1 2 false 0 with
      | panic => rw [hR] at h; cases h
      | error e => exact absurd hR (rightLoop_ne_error i rowSeats e _ _ _ _ _)
      | ok pr2 =>
        obtain ⟨startRight, rightSpaces⟩ := pr2
        rw [hR] at h
        simp only at h
        by_cases hc2 : startRight = true ∧ rightSpaces ≠ 2
        · rw [if_pos hc2] at h
          rcases rightConflict_frag rowSeats id _ _ h with h0 | h1
          · exact absurd h0 hid
          · exact h1
        · rw [if_neg hc2] at h
          cases h

/-- C30 at seats 1 and 2 requested and seat 3 available, checked at index 0. -/
theorem conflicting_seat_is_requested_witness :
    ∃ (k : Nat) (entry : MappedRowSeat) (seat : Seat),
      rowRequestedThenFree[k]? = some entry ∧ entry.RequestedForNow = true ∧
        entry.Seat = some seat ∧ seat.ID = "b" :=
  conflicting_seat_is_requested 0 rowRequestedThenFree "b" (by decide) (by decide)

/-- C31: every sequence returned by `mapAllRowSeatsForAvailability`, computed over the
integers or with `int32` arithmetic on available seats with `int32` numbers, satisfies: each
entry with `RequestedForNow` true has availability indicator 0 and carries a seat, and each
entry with indicator 1 has `RequestedForNow` false and carries a seat. Consequently
`fragmentationCheck`, at every index of such a row, and `checkMappedRowForFragmentation` on
it do not meet a missing seat: they do not panic. -/
theorem mapper_rows_carry_seats (availableRowSeats requestedRowSeats : List Seat)
    (mapped : List MappedRowSeat)
    (hok : mapAllRowSeatsForAvailability availableRowSeats requestedRowSeats = .ok mapped ∨
      ((∀ s ∈ availableRowSeats, IsInt32 s.Num) ∧
        mapAllRowSeatsForAvailabilityInt32 availableRowSeats requestedRowSeats =
          .ok mapped)) :
    (∀ e ∈ mapped,
      (e.RequestedForNow = true → e.AvailabilityIndicator = 0 ∧ e.Seat ≠ none) ∧
      (e.AvailabilityIndicator = 1 → e.RequestedForNow = false ∧ e.Seat ≠ none)) ∧
    (∀ i : Nat, i < mapped.length → fragmentationCheck (i : Int) mapped ≠ .panic) ∧
    checkMappedRowForFragmentation mapped ≠ .panic := by
  have hwf : ∀ e ∈ mapped,
      (e.RequestedForNow = true → e.AvailabilityIndicator = 0 ∧ e.Seat ≠ none) ∧
      (e.AvailabilityIndicator = 1 → e.RequestedForNow = false ∧ e.Seat ≠ none) := by
    rcases hok with h | ⟨hint, h⟩
    · exact mapAll_wellFormed availableRowSeats requestedRowSeats mapped h
    · exact mapAllInt32_wellFormed availableRowSeats requestedRowSeats mapped hint h
  have hc := seatsCarried_of_wellFormed mapped hwf
  exact ⟨hwf, fun i hi => fragmentationCheck_ne_panic mapped hc i hi,
    checkMapped_ne_panic mapped hc⟩

/-- C31 at the six available seats 1..6 with seats 2 and 3 requested, and at the available
seats handed over as 2147483647, -2147483648 with the second of them requested, where the
`int32` mapper returns two entries. -/
theorem mapper_rows_carry_seats_witness :
    ((∀ e ∈ rowTwoThreeRequested,
      (e.RequestedForNow = true → e.AvailabilityIndicator = 0 ∧ e.Seat ≠ none) ∧
      (e.AvailabilityIndicator = 1 → e.RequestedForNow = false ∧ e.Seat ≠ none)) ∧
    (∀ i : Nat, i < rowTwoThreeRequested.length →
      fragmentationCheck (i : Int) rowTwoThreeRequested ≠ .panic) ∧
    checkMappedRowForFragmentation rowTwoThreeRequested ≠ .panic) ∧
    mapAllRowSeatsForAvailabilityInt32 wrappingSeats
        [{ ID := "sMin", Num := -2147483648, PriceCategoryID := none }] =
      .ok [{ AvailabilityIndicator := 1, RequestedForNow := false,
             Seat := some { ID := "sMax", Num := 2147483647, PriceCategoryID := none } },
           { AvailabilityIndicator := 0, RequestedForNow := true,
             Seat := some { ID := "sMin", Num := -2147483648, PriceCategoryID := none } }] ∧
    checkMappedRowForFragmentation
        [{ AvailabilityIndicator := 1, RequestedForNow := false,
           Seat := some { ID := "sMax", Num := 2147483647, PriceCategoryID := none } },
         { AvailabilityIndicator := 0, RequestedForNow := true,
           Seat := some { ID := "sMin", Num := -2147483648, PriceCategoryID := none } }] ≠
      .panic :=
  ⟨mapper_rows_carry_seats sixSeats seatsTwoThree rowTwoThreeRequested (Or.inl (by decide)),
    by decide,
    (mapper_rows_carry_seats wrappingSeats
      [{ ID := "sMin", Num := -2147483648, PriceCategoryID := none }] _
      (Or.inr ⟨by decide, by decide⟩)).2.2⟩

/-- C32 as stated fails: the available seats numbered -2147483648 and 2147483647 are sorted,
the first of them is requested and the group-ordering check passes, but the length of the
row, 2^32, wraps around to the `int32` 0: the mapper builds an empty row and the assignment
at offset 0 is out of range. -/
theorem mapper_stays_in_range_counterexample :
    [({ ID := "sMin", Num := -2147483648, PriceCategoryID := none } : Seat)] ≠ [] ∧
      checkEventFullGroupOrderingRestriction "row" widestSeats
        [{ ID := "sMin", Num := -2147483648, PriceCategoryID := none }] []
        [("spl", [("row", [{ ID := "sMin", Num := -2147483648, PriceCategoryID := none }])])]
        = .ok () ∧
      widestSeats.Pairwise (fun x y => x.Num ≤ y.Num) ∧
      (∀ s ∈ widestSeats, IsInt32 s.Num) ∧
      wrapInt32 (2147483647 - (-2147483648) + 1) = 0 ∧
      mapAllRowSeatsForAvailabilityInt32 widestSeats
        [{ ID := "sMin", Num := -2147483648, PriceCategoryID := none }] = .panic := by
  decide

/-- C32, amended: for a row that lists at least one requested seat, passes the
group-ordering check and whose available seats are sorted ascending by `int32` seat number
and span fewer than 2^31 numbers (last - first + 1 < 2^31), the mapper performs no out-of-range
access: the available list has a first and a last seat, the `int32` length of the result is
`last - first + 1` and positive, every requested seat whose number occurs in the available
list has its `int32` offset `num - first` inside the result, and the mapper does not panic;
a returned row has that length. -/
theorem mapper_stays_in_range (rowID : String) (availableRowSeats requestedRowSeats : List Seat)
    (splIDBookAllSeatsInGroup : List (String × String))
    (requestedSeatsGroupedByRowsGroupedBySpl : List (String × List (String × List Seat)))
    (hreq : requestedRowSeats ≠ [])
    (hcheck : checkEventFullGroupOrderingRestriction rowID availableRowSeats requestedRowSeats
      splIDBookAllSeatsInGroup requestedSeatsGroupedByRowsGroupedBySpl = .ok ())
    (hsorted : availableRowSeats.Pairwise (fun x y => x.Num ≤ y.Num))
    (hint : ∀ s ∈ availableRowSeats, IsInt32 s.Num)
    (hspan : ∀ firstSeat lastSeat, availableRowSeats.head? = some firstSeat →
      availableRowSeats.getLast? = some lastSeat →
      lastSeat.Num - firstSeat.Num + 1 < 2147483648) :
    ∃ firstSeat lastSeat,
      availableRowSeats.head? = some firstSeat ∧
      availableRowSeats.getLast? = some lastSeat ∧
      wrapInt32 (lastSeat.Num - firstSeat.Num + 1) = lastSeat.Num - firstSeat.Num + 1 ∧
      0 < wrapInt32 (lastSeat.Num - firstSeat.Num + 1) ∧
      (∀ r ∈ requestedRowSeats, r.Num ∈ seatNums availableRowSeats →
        0 ≤ wrapInt32 (r.Num - firstSeat.Num) ∧
          wrapInt32 (r.Num - firstSeat.Num) < wrapInt32 (lastSeat.Num - firstSeat.Num + 1)) ∧
      mapAllRowSeatsForAvailabilityInt32 availableRowSeats requestedRowSeats ≠ .panic ∧
      ∀ mapped,
        mapAllRowSeatsForAvailabilityInt32 availableRowSeats requestedRowSeats = .ok mapped →
        (mapped.length : Int) = wrapInt32 (lastSeat.Num - firstSeat.Num + 1) := by
  obtain ⟨firstSeat, lastSeat, hfirst, hlast, hpos, hoff, hnp, hlen⟩ :=
    stays_in_range_over_int rowID availableRowSeats requestedRowSeats
      splIDBookAllSeatsInGroup requestedSeatsGroupedByRowsGroupedBySpl hreq hcheck hsorted
  have hne : availableRowSeats ≠ [] := by
    intro h; rw [h] at hfirst; simp at hfirst
  have hf : availableRowSeats.head hne = firstSeat := by
    have := List.head?_eq_head hne
    rw [hfirst] at this
    exact (Option.some.inj this).symm
  have hl : availableRowSeats.getLast hne = lastSeat := by
    have := List.getLast?_eq_getLast _ hne
    rw [hlast] at this
    exact (Option.some.inj this).symm
  have hsp := hspan firstSeat lastSeat hfirst hlast
  have heq := mapAllRowSeatsForAvailabilityInt32_eq availableRowSeats requestedRowSeats hne
    hsorted hint (by rw [hf, hl]; exact hsp)
  have hsize : wrapInt32 (lastSeat.Num - firstSeat.Num + 1) =
      lastSeat.Num - firstSeat.Num + 1 :=
    wrapInt32_of_isInt32 _ (by unfold IsInt32; omega)
  refine ⟨firstSeat, lastSeat, hfirst, hlast, hsize, by rw [hsize]; exact hpos, ?_, ?_, ?_⟩
  · intro r hr hin
    have := hoff r hr hin
    rw [hsize, wrapInt32_of_isInt32 _ (by unfold IsInt32; omega)]
    exact this
  · rw [heq]; exact hnp
  · intro mapped hok
    rw [heq] at hok
    rw [hsize]
    exact hlen mapped hok

/-- C32, amended, at the six available seats 1..6 with seats 2 and 3 requested, no plan
restricted. -/
theorem mapper_stays_in_range_witness :
    ∃ firstSeat lastSeat,
      sixSeats.head? = some firstSeat ∧
      sixSeats.getLast? = some lastSeat ∧
      wrapInt32 (lastSeat.Num - firstSeat.Num + 1) = lastSeat.Num - firstSeat.Num + 1 ∧
      0 < wrapInt32 (lastSeat.Num - firstSeat.Num + 1) ∧
      (∀ r ∈ seatsTwoThree, r.Num ∈ seatNums sixSeats →
        0 ≤ wrapInt32 (r.Num - firstSeat.Num) ∧
          wrapInt32 (r.Num - firstSeat.Num) < wrapInt32 (lastSeat.Num - firstSeat.Num + 1)) ∧
      mapAllRowSeatsForAvailabilityInt32 sixSeats seatsTwoThree ≠ .panic ∧
      ∀ mapped, mapAllRowSeatsForAvailabilityInt32 sixSeats seatsTwoThree = .ok mapped →
        (mapped.length : Int) = wrapInt32 (lastSeat.Num - firstSeat.Num + 1) :=
  mapper_stays_in_range "row" sixSeats seatsTwoThree [] [("spl", [("row", seatsTwoThree)])]
    (by decide) (by decide) (by decide) (by decide)
    (fun firstSeat lastSeat hf hl => by
      have h1 : firstSeat = { ID := "s1", Num := 1, PriceCategoryID := none } := by
        have : sixSeats.head? = some { ID := "s1", Num := 1, PriceCategoryID := none } := rfl
        rw [this] at hf
        exact (Option.some.inj hf).symm
      have h2 : lastSeat = { ID := "s6", Num := 6, PriceCategoryID := none } := by
        have : sixSeats.getLast? = some { ID := "s6", Num := 6, PriceCategoryID := none } :=
          rfl
        rw [this] at hl
        exact (Option.some.inj hl).symm
      subst h1; subst h2
      decide)

/-- C33: in `seatToUpdateParams`, when the update carries a `LinkedSeatID` the parameters have
`SetStatusCode` true and `StatusCode` equal to the Locked constant for a non-empty linked
seat id and to the Available constant for an empty one, whatever `StatusCode` the update
gives; when the update carries no `LinkedSeatID`, `StatusCode` and `SetStatusCode` are set
exactly when the update gives a `StatusCode`, to that value. -/
theorem linked_seat_forces_status_code (SeatStatusAvailable SeatStatusLocked : Int)
    (ids : IDs) (seat : UpdateSeat) (t : Int) :
    (∀ linked, seat.LinkedSeatID = some linked →
      (seatToUpdateParams SeatStatusAvailable SeatStatusLocked ids seat t).SetStatusCode
          = true ∧
        (seatToUpdateParams SeatStatusAvailable SeatStatusLocked ids seat t).StatusCode =
          (if linked = "" then SeatStatusAvailable else SeatStatusLocked)) ∧
    (seat.LinkedSeatID = none →
      (∀ code, seat.StatusCode = some code →
        (seatToUpdateParams SeatStatusAvailable SeatStatusLocked ids seat t).SetStatusCode
            = true ∧
          (seatToUpdateParams SeatStatusAvailable SeatStatusLocked ids seat t).StatusCode
            = code) ∧
      (seat.StatusCode = none →
        (seatToUpdateParams SeatStatusAvailable SeatStatusLocked ids seat t).SetStatusCode
            = false ∧
          (seatToUpdateParams SeatStatusAvailable SeatStatusLocked ids seat t).StatusCode
            = 0)) := by
  refine ⟨?_, ?_⟩
  · intro linked hl
    unfold seatToUpdateParams
    simp only []
    constructor
    · iterate 8 refine (ifSet_SetStatusCode _ _ _ (fun v p => ?_)).trans ?_; rfl
      rw [hl]
      rfl
    · iterate 8 refine (ifSet_StatusCode _ _ _ (fun v p => ?_)).trans ?_; rfl
      rw [hl]
      rfl
  · intro hl
    unfold seatToUpdateParams
    simp only []
    refine ⟨?_, ?_⟩
    · intro code hc
      constructor
      · iterate 8 refine (ifSet_SetStatusCode _ _ _ (fun v p => ?_)).trans ?_; rfl
        rw [hl, ifSet_none]
        iterate 3 refine (ifSet_SetStatusCode _ _ _ (fun v p => ?_)).trans ?_; rfl
        rw [hc]
        rfl
      · iterate 8 refine (ifSet_StatusCode _ _ _ (fun v p => ?_)).trans ?_; rfl
        rw [hl, ifSet_none]
        iterate 3 refine (ifSet_StatusCode _ _ _ (fun v p => ?_)).trans ?_; rfl
        rw [hc]
        rfl
    · intro hc
      constructor
      · iterate 8 refine (ifSet_SetStatusCode _ _ _ (fun v p => ?_)).trans ?_; rfl
        rw [hl, ifSet_none]
        iterate 3 refine (ifSet_SetStatusCode _ _ _ (fun v p => ?_)).trans ?_; rfl
        rw [hc, ifSet_none]
        refine (ifSet_SetStatusCode _ _ _ (fun v p => ?_)).trans ?_
        · split <;> rfl
        iterate 6 refine (ifSet_SetStatusCode _ _ _ (fun v p => ?_)).trans ?_; rfl
        rfl
      · iterate 8 refine (ifSet_StatusCode _ _ _ (fun v p => ?_)).trans ?_; rfl
        rw [hl, ifSet_none]
        iterate 3 refine (ifSet_StatusCode _ _ _ (fun v p => ?_)).trans ?_; rfl
        rw [hc, ifSet_none]
        refine (ifSet_StatusCode _ _ _ (fun v p => ?_)).trans ?_
        · split <;> rfl
        iterate 6 refine (ifSet_StatusCode _ _ _ (fun v p => ?_)).trans ?_; rfl
        rfl

/-- C33 at updates that give the status code 7, with the constants Available = 1 and
Locked = 2: linked to the seat "other", unlinked, and without a linked seat id. -/
theorem linked_seat_forces_status_code_witness :
    ((seatToUpdateParams 1 2 someIDs linkedUpdate 5).SetStatusCode = true ∧
      (seatToUpdateParams 1 2 someIDs linkedUpdate 5).StatusCode =
        (if "other" = "" then 1 else 2)) ∧
    ((seatToUpdateParams 1 2 someIDs unlinkingUpdate 5).SetStatusCode = true ∧
      (seatToUpdateParams 1 2 someIDs unlinkingUpdate 5).StatusCode =
        (if "" = "" then 1 else 2)) ∧
    ((seatToUpdateParams 1 2 someIDs statusOnlyUpdate 5).SetStatusCode = true ∧
      (seatToUpdateParams 1 2 someIDs statusOnlyUpdate 5).StatusCode = 7) :=
  ⟨(linked_seat_forces_status_code 1 2 someIDs linkedUpdate 5).1 "other" rfl,
    (linked_seat_forces_status_code 1 2 someIDs unlinkingUpdate 5).1 "" rfl,
    ((linked_seat_forces_status_code 1 2 someIDs statusOnlyUpdate 5).2 rfl).1 7 rfl⟩

end SeatRules
